import Mathlib

/-!
# Import/export transfer pipeline: PMAPI target provider

A shallow embedding of `internal/transfer/provider_pmapi_target.go`.

Conventions of the embedding.

* A Go `error` is an `Option String`: `none` is `nil`, `some e` is an error with text `e`.
* A Go `[]byte` (and a Go string that carries a message body) is a `List Nat` of bytes;
  only its length and its identity matter to the pipeline.
* The Go map `importMsgReqMap` is an association list with pairwise distinct keys
  (`mapInsert` overwrites an existing key).  Go does not specify the order in which
  `range` visits a map, so every `range` over the map asks the environment for the order
  (`Env.rangeOrder`), which is required to be a permutation of the entries.
* Everything outside the provider (the remote client, the parser, the key ring, the stop
  flag of `Progress`) is an oracle of the environment `Env`.  The remote oracles are indexed
  by the number of remote calls issued before, `shouldStop` by the number of earlier
  queries, so that an environment describes an arbitrary behaviour of the collaborators.
* The calls made on collaborators are recorded in the state: `calls` (remote calls),
  `outcomes` (`progress.messageImported`), `captured` (errors handed to `callWrap`).
* A Go run-time panic (index out of range) sets `panicked`; nothing in the file recovers
  from it, so every loop stops there.
* `int` counters are natural numbers: the byte counter is bounded by the memory that holds
  the bodies it counts, far below `2^63`.
* Logging has no effect on the state.
-/

namespace Transfer

/-! ## Constants -/

/-- The constant `pmapiImportBatchMaxItems`. -/
def pmapiImportBatchMaxItems : Nat := 10

/-- The constant `pmapiImportBatchMaxSize`, 25 MB. -/
def pmapiImportBatchMaxSize : Nat := 25 * 1000 * 1000

/-- Constants of package `pmapi` used by the provider.  Their declarations are not part of
the sources at hand, so they are parameters of the development. -/
structure Pmapi where
  InboxLabel : String
  AllMailLabel : String
  ArchiveLabel : String
  SentLabel : String
  DraftLabel : String
  FlagReceived : Nat
  FlagSent : Nat
  ContentTypeMultipartEncrypted : String
  DraftActionReply : Nat
  LabelTypeMailbox : Nat

/-! ## Data model -/

/-- The type `transfer.Mailbox`. -/
structure Mailbox where
  ID : String
  Name : String
  Color : String
  IsExclusive : Bool
deriving DecidableEq, Repr

/-- The type `transfer.Message`, with the fields the provider reads. -/
structure Message where
  ID : String
  Unread : Bool
  Body : List Nat
  Targets : List Mailbox
deriving DecidableEq, Repr

/-- The type `transferRules`, with the field the provider reads. -/
structure transferRules where
  globalMailbox : Option Mailbox
deriving DecidableEq, Repr

/-- The type `pmapi.Attachment`, with the fields the provider touches. -/
structure Attachment where
  ID : String
  MessageID : String
  Name : String
deriving DecidableEq, Repr

/-- The type `pmapi.Message`, with the fields the provider touches. -/
structure PMessage where
  ID : String
  MIMEType : String
  Body : List Nat
  Time : Int
  LabelIDs : List String
  Attachments : List Attachment
deriving DecidableEq, Repr

/-- The type `pmapi.Label`, with the fields the provider touches. -/
structure Label where
  ID : String
  Name : String
  Color : String
  Exclusive : Nat
  Type_ : Nat
deriving DecidableEq, Repr

/-- The type `pmapi.ImportMsgReq`. -/
structure ImportMsgReq where
  AddressID : String
  Body : List Nat
  Unread : Nat
  Time : Int
  Flags : Nat
  LabelIDs : List String
deriving DecidableEq, Repr

/-- The type `pmapi.ImportMsgRes`: one per-item result of a bulk import. -/
structure ImportMsgRes where
  Error : Option String
  MessageID : String
deriving DecidableEq, Repr

/-- What `pkgMessage.Parse` does on a body: it returns a message with the readers of its
attachments, returns an error, or panics with a value. -/
inductive ParseResult where
  | parsed (m : PMessage) (attachmentReaders : List (List Nat))
  | failed (err : String)
  | panics (value : String)
deriving DecidableEq, Repr

/-- A call on the remote client. -/
inductive Call where
  | importRequest (reqs : List ImportMsgReq)
  | createDraft (m : PMessage) (parentID : String) (action : Nat)
  | createAttachment (att : Attachment) (enc : List Nat) (sig : List Nat)
  | createLabel (l : Label)
deriving DecidableEq, Repr

/-- One call of `progress.messageImported(msgID, importedID, err)`. -/
structure Outcome where
  msgID : String
  importedID : String
  err : Option String
deriving DecidableEq, Repr

/-- The collaborators of the provider. -/
structure Env where
  pmapi : Pmapi
  addressID : String
  shouldStop : Nat → Bool
  importRequest : Nat → List ImportMsgReq → Except String (List ImportMsgRes)
  createDraft : Nat → PMessage → String → Nat → Except String PMessage
  createAttachment : Nat → Attachment → List Nat → List Nat → Except String Attachment
  createLabel : Nat → Label → Except String Label
  rangeOrder : Nat → List (String × ImportMsgReq) → List (String × ImportMsgReq)
  rangeOrder_perm : ∀ k m, (rangeOrder k m).Perm m
  parse : List Nat → ParseResult
  reportSentryCrash : String → Option String
  buildEncrypted : PMessage → List (List Nat) → Except String (List Nat)
  encryptBody : PMessage → Except String PMessage
  detachedSign : Attachment → List Nat → Except String (List Nat)
  encryptAttachment : Attachment → List Nat → Except String (List Nat)

/-- The provider's pending batch together with the record of what the run did. -/
structure State where
  importMsgReqMap : List (String × ImportMsgReq)
  importMsgReqSize : Nat
  stopQueries : Nat
  ranges : Nat
  calls : List Call
  outcomes : List Outcome
  captured : List String
  panicked : Bool
deriving DecidableEq, Repr

/-- A provider that has done nothing yet. -/
def State.init : State :=
  { importMsgReqMap := [], importMsgReqSize := 0, stopQueries := 0, ranges := 0,
    calls := [], outcomes := [], captured := [], panicked := false }

/-! ## Helpers of the embedding -/

/-- The call `errors.Wrap(err, msg)`. -/
def wrapErr (err : String) (msg : String) : String := msg ++ ": " ++ err

/-- The Go assignment `m[k] = v` on a map. -/
def mapInsert (k : String) (v : ImportMsgReq) :
    List (String × ImportMsgReq) → List (String × ImportMsgReq)
  | [] => [(k, v)]
  | (k1, v1) :: rest => if k1 = k then (k, v) :: rest else (k1, v1) :: mapInsert k v rest

/-- Modelled from the spec: `Progress.shouldStop` is not among the sources.  The spec (4.3):
a "cooperative cancellation check" of a flag set by the owner of the run.  The answer to
each query is a parameter (`Env.shouldStop`); the state counts the queries. -/
def shouldStop (env : Env) (s : State) : Bool × State :=
  (env.shouldStop s.stopQueries, { s with stopQueries := s.stopQueries + 1 })

/-- Modelled from the spec: `Progress.messageImported` is not among the sources.  The spec
(4.3): it "records the terminal outcome for one source message".  The state keeps the list
of the recorded outcomes, oldest first. -/
def messageImported (s : State) (msgID importedID : String) (err : Option String) : State :=
  { s with outcomes := s.outcomes ++ [⟨msgID, importedID, err⟩] }

/-- The call `p.importRequest(reqs)` on the remote client: the response is a parameter
(`Env.importRequest`), the call is recorded. -/
def importRequest (env : Env) (s : State) (reqs : List ImportMsgReq) :
    Except String (List ImportMsgRes) × State :=
  (env.importRequest s.calls.length reqs,
   { s with calls := s.calls ++ [Call.importRequest reqs] })

/-- The call `p.createDraft(message, parentID, action)` on the remote client. -/
def createDraft (env : Env) (s : State) (m : PMessage) (parentID : String) (action : Nat) :
    Except String PMessage × State :=
  (env.createDraft s.calls.length m parentID action,
   { s with calls := s.calls ++ [Call.createDraft m parentID action] })

/-- The call `p.createAttachment(att, encReader, sigReader)` on the remote client. -/
def createAttachment (env : Env) (s : State) (att : Attachment) (enc sig : List Nat) :
    Except String Attachment × State :=
  (env.createAttachment s.calls.length att enc sig,
   { s with calls := s.calls ++ [Call.createAttachment att enc sig] })

/-- The call `p.client().CreateLabel(label)` on the remote client. -/
def createLabel (env : Env) (s : State) (l : Label) : Except String Label × State :=
  (env.createLabel s.calls.length l, { s with calls := s.calls ++ [Call.createLabel l] })

/-- Modelled from the spec: `Progress.callWrap` is not among the sources.  The spec (4.3):
"executes a unit of work, capturing the error to surface it as a message-level failure
outcome rather than propagating it through the pipeline".  The unit of work runs once on
the state and the local variables `L` of the enclosing function; an error it returns is
kept by the tracker and not returned to the caller (the Go call has no result). -/
def callWrap {L : Type} (callback : State × L → Option String × (State × L))
    (sl : State × L) : State × L :=
  match callback sl with
  | (none, r) => r
  | (some e, (s1, l)) => ({ s1 with captured := s1.captured ++ [e] }, l)

/-! ## The provider -/

/-- The method `DefaultMailboxes`. -/
def DefaultMailboxes (env : Env) (_m : Mailbox) : List Mailbox :=
  [{ ID := env.pmapi.ArchiveLabel, Name := "Archive", Color := "", IsExclusive := true }]

/-- The method `CreateMailbox`: the returned mailbox, the error, and the state after. -/
def CreateMailbox (env : Env) (s : State) (mailbox : Mailbox) :
    (Mailbox × Option String) × State :=
  if mailbox.ID ≠ "" then
    ((⟨"", "", "", false⟩, some "mailbox is already created"), s)
  else
    let exclusive := if mailbox.IsExclusive then 1 else 0
    match createLabel env s
        { ID := "", Name := mailbox.Name, Color := mailbox.Color, Exclusive := exclusive,
          Type_ := env.pmapi.LabelTypeMailbox } with
    | (.error err, s1) =>
      ((⟨"", "", "", false⟩,
        some (wrapErr err ("failed to create mailbox " ++ mailbox.Name))), s1)
    | (.ok label, s1) => (({ mailbox with ID := label.ID }, none), s1)

/-- The method `isMessageDraft`. -/
def isMessageDraft (env : Env) (msg : Message) : Bool :=
  msg.Targets.any (fun target => target.ID = env.pmapi.DraftLabel)

/-- The method `parseMessage`: a panic of the parser is recovered and turned into an error;
the crash report is sent and its own failure is only logged. -/
def parseMessage (env : Env) (msg : Message) : Except String (PMessage × List (List Nat)) :=
  match env.parse msg.Body with
  | .parsed m readers => .ok (m, readers)
  | .failed err => .error err
  | .panics value =>
    let err := "panic while parse: " ++ value
    match env.reportSentryCrash err with
    | some _ => .error err
    | none => .error err

/-- The method `encryptMessage`. -/
def encryptMessage (env : Env) (m : PMessage) (attachmentReaders : List (List Nat)) :
    Except String (List Nat) :=
  if m.MIMEType = env.pmapi.ContentTypeMultipartEncrypted then .ok m.Body
  else env.buildEncrypted m attachmentReaders

/-- The function `computeMessageFlags`: the loop body is the `switch` on the label,
the cases tried in the order of the source. -/
def computeMessageFlags (c : Pmapi) (labels : List String) : Nat :=
  let flag := labels.foldl
    (fun flag labelID =>
      if labelID = c.SentLabel then flag ||| c.FlagSent
      else if labelID = c.ArchiveLabel ∨ labelID = c.InboxLabel then flag ||| c.FlagReceived
      else flag)
    0
  if flag = 0 then c.FlagReceived else flag

/-- The method `generateImportMsgReq`. -/
def generateImportMsgReq (env : Env) (msg : Message) (globalMailbox : Option Mailbox) :
    Except String ImportMsgReq :=
  match parseMessage env msg with
  | .error err => .error (wrapErr err "failed to parse message")
  | .ok (message, attachmentReaders) =>
    match encryptMessage env message attachmentReaders with
    | .error err => .error (wrapErr err "failed to encrypt message")
    | .ok body =>
      let unread := if msg.Unread then 1 else 0
      let labelIDs :=
        (msg.Targets.filter (fun target => target.ID ≠ env.pmapi.AllMailLabel)).map
          (fun target => target.ID)
      let labelIDs := match globalMailbox with
        | some g => labelIDs ++ [g.ID]
        | none => labelIDs
      .ok { AddressID := env.addressID, Body := body, Unread := unread, Time := message.Time,
            Flags := computeMessageFlags env.pmapi labelIDs, LabelIDs := labelIDs }

/-- The body of the closure that `importMessage` hands to `callWrap`: the error it returns,
and the named results `importedID`, `importedErr` it assigns. -/
def importMessageBody (env : Env) (req : ImportMsgReq)
    (sl : State × (String × Option String)) :
    Option String × (State × (String × Option String)) :=
  match importRequest env sl.1 [req] with
  | (.error err, s1) => (some (wrapErr err "failed to import messages"), (s1, sl.2))
  | (.ok [], s1) => (none, (s1, (sl.2.1, some "import ended with no result")))
  | (.ok (r :: _), s1) =>
    match r.Error with
    | some e => (none, (s1, (sl.2.1, some (wrapErr e "failed to import message"))))
    | none => (none, (s1, (r.MessageID, sl.2.2)))

/-- The method `importMessage`: the named results start as `""` and `nil`. -/
def importMessage (env : Env) (s : State) (req : ImportMsgReq) :
    (String × Option String) × State :=
  let r := callWrap (importMessageBody env req) (s, ("", none))
  (r.2, r.1)

/-- The loop of `importMessages` that imports every message of the map one by one. -/
def importOneByOne (env : Env) : List (String × ImportMsgReq) → State → State
  | [], s => s
  | (msgID, req) :: rest, s =>
    let r := importMessage env s req
    importOneByOne env rest (messageImported r.2 msgID r.1.1 r.1.2)

/-- The loop of `importMessages` over the results of the bulk call.  The accesses
`importMsgIDs[index]` and `importMsgRequests[index]` panic when out of range. -/
def importResults (env : Env) (importMsgIDs : List String)
    (importMsgRequests : List ImportMsgReq) : List ImportMsgRes → Nat → State → State
  | [], _, s => s
  | result :: rest, index, s =>
    match importMsgIDs.get? index with
    | none => { s with panicked := true }
    | some msgID =>
      match result.Error with
      | some _ =>
        match importMsgRequests.get? index with
        | none => { s with panicked := true }
        | some req =>
          let r := importMessage env s req
          importResults env importMsgIDs importMsgRequests rest (index + 1)
            (messageImported r.2 msgID r.1.1 r.1.2)
      | none =>
        importResults env importMsgIDs importMsgRequests rest (index + 1)
          (messageImported s msgID result.MessageID none)

/-- Whether the bulk call failed as a whole: `err != nil || len(results) == 0`. -/
def wholeRequestFailed : Except String (List ImportMsgRes) → Bool
  | .error _ => true
  | .ok [] => true
  | .ok (_ :: _) => false

/-- The results of a bulk call that did not fail as a whole. -/
def resultsOf : Except String (List ImportMsgRes) → List ImportMsgRes
  | .error _ => []
  | .ok rs => rs

/-- The method `importMessages`. -/
def importMessages (env : Env) (s : State) : State :=
  match shouldStop env s with
  | (true, s0) => s0
  | (false, s0) =>
    let items := env.rangeOrder s0.ranges s0.importMsgReqMap
    let s1 := { s0 with ranges := s0.ranges + 1 }
    let importMsgIDs := items.map Prod.fst
    let importMsgRequests := items.map Prod.snd
    let r := importRequest env s1 importMsgRequests
    if wholeRequestFailed r.1 then
      let items2 := env.rangeOrder r.2.ranges r.2.importMsgReqMap
      importOneByOne env items2 { r.2 with ranges := r.2.ranges + 1 }
    else
      let s3 := importResults env importMsgIDs importMsgRequests (resultsOf r.1) 0 r.2
      if s3.panicked then s3
      else { s3 with importMsgReqMap := [], importMsgReqSize := 0 }

/-- The method `transferMessage`. -/
def transferMessage (env : Env) (rules : transferRules) (s : State) (msg : Message) : State :=
  match generateImportMsgReq env msg rules.globalMailbox with
  | .error err => messageImported s msg.ID "" (some err)
  | .ok importMsgReq =>
    let importMsgReqSize := importMsgReq.Body.length
    let s1 :=
      if s.importMsgReqSize + importMsgReqSize > pmapiImportBatchMaxSize
          ∨ s.importMsgReqMap.length = pmapiImportBatchMaxItems then
        importMessages env s
      else s
    if s1.panicked then s1
    else
      { s1 with importMsgReqMap := mapInsert msg.ID importMsgReq s1.importMsgReqMap,
                importMsgReqSize := s1.importMsgReqSize + importMsgReqSize }

/-- The attachment loop of `importDraft`: the error it returns, if any. -/
def importDraftAttachments (env : Env) (draftID : String)
    (attachmentReaders : List (List Nat)) :
    List Attachment → Nat → State → Option String × State
  | [], _, s => (none, s)
  | attachment :: rest, idx, s =>
    let attachment := { attachment with MessageID := draftID }
    match attachmentReaders.get? idx with
    | none => (none, { s with panicked := true })
    | some attachmentBody =>
      match env.detachedSign attachment attachmentBody with
      | .error err => (some (wrapErr err "failed to sign attachment"), s)
      | .ok sigReader =>
        match env.encryptAttachment attachment attachmentBody with
        | .error err => (some (wrapErr err "failed to encrypt attachment"), s)
        | .ok encReader =>
          match createAttachment env s attachment encReader sigReader with
          | (.error err, s1) => (some (wrapErr err "failed to create attachment"), s1)
          | (.ok _, s1) => importDraftAttachments env draftID attachmentReaders rest (idx + 1) s1

/-- The method `importDraft`. -/
def importDraft (env : Env) (s : State) (msg : Message) (globalMailbox : Option Mailbox) :
    (String × Option String) × State :=
  match parseMessage env msg with
  | .error err => (("", some (wrapErr err "failed to parse message")), s)
  | .ok (message, attachmentReaders) =>
    match env.encryptBody message with
    | .error err => (("", some (wrapErr err "failed to encrypt draft")), s)
    | .ok message =>
      let message := match globalMailbox with
        | some g => { message with LabelIDs := message.LabelIDs ++ [g.ID] }
        | none => message
      let attachments := message.Attachments
      let message := { message with Attachments := [] }
      match createDraft env s message "" env.pmapi.DraftActionReply with
      | (.error err, s1) => (("", some (wrapErr err "failed to create draft")), s1)
      | (.ok draft, s1) =>
        match importDraftAttachments env draft.ID attachmentReaders attachments 0 s1 with
        | (some err, s2) => (("", some err), s2)
        | (none, s2) => ((draft.ID, none), s2)

/-- The method `transferDraft`. -/
def transferDraft (env : Env) (rules : transferRules) (s : State) (msg : Message) : State :=
  let r := importDraft env s msg rules.globalMailbox
  if r.2.panicked then r.2 else messageImported r.2 msg.ID r.1.1 r.1.2

/-- The body of the loop of `TransferFrom` after the stop check: the `if` on
`isMessageDraft`. -/
def transferOne (env : Env) (rules : transferRules) (s : State) (msg : Message) : State :=
  if isMessageDraft env msg then transferDraft env rules s msg
  else transferMessage env rules s msg

/-- The loop `for msg := range ch` of `TransferFrom` over the messages the channel delivers. -/
def transferLoop (env : Env) (rules : transferRules) : List Message → State → State
  | [], s => s
  | msg :: rest, s =>
    match shouldStop env s with
    | (true, s1) => s1
    | (false, s1) =>
      if (transferOne env rules s1 msg).panicked then transferOne env rules s1 msg
      else transferLoop env rules rest (transferOne env rules s1 msg)

/-- The method `TransferFrom`, on the messages the channel delivers until it is closed. -/
def TransferFrom (env : Env) (rules : transferRules) (s : State) (ch : List Message) : State :=
  let s0 := { s with importMsgReqMap := [], importMsgReqSize := 0 }
  let s1 := transferLoop env rules ch s0
  if s1.panicked then s1
  else if s1.importMsgReqMap.length > 0 then importMessages env s1
  else s1

/-! ## Concrete collaborators for the example runs -/

/-- Label identifiers and flag bits for the example runs. -/
def samplePmapi : Pmapi :=
  { InboxLabel := "0", AllMailLabel := "5", ArchiveLabel := "6", SentLabel := "7",
    DraftLabel := "8", FlagReceived := 1, FlagSent := 2,
    ContentTypeMultipartEncrypted := "multipart/encrypted", DraftActionReply := 0,
    LabelTypeMailbox := 1 }

/-- An environment with the given stop flag and remote import behaviour: the parser
returns the body as an already encrypted message without attachments, `range` visits the
map in insertion order, and every other collaborator succeeds. -/
def sampleEnv (stop : Nat → Bool)
    (remote : Nat → List ImportMsgReq → Except String (List ImportMsgRes)) : Env :=
  { pmapi := samplePmapi, addressID := "addr", shouldStop := stop, importRequest := remote,
    createDraft := fun _ m _ _ => .ok m,
    createAttachment := fun _ a _ _ => .ok a,
    createLabel := fun _ l => .ok l,
    rangeOrder := fun _ m => m,
    rangeOrder_perm := fun _ _ => List.Perm.refl _,
    parse := fun body => .parsed
      { ID := "", MIMEType := "multipart/encrypted", Body := body, Time := 0, LabelIDs := [],
        Attachments := [] } [],
    reportSentryCrash := fun _ => none,
    buildEncrypted := fun m _ => .ok m.Body,
    encryptBody := fun m => .ok m,
    detachedSign := fun _ b => .ok b,
    encryptAttachment := fun _ b => .ok b }

/-- A body of `size` bytes. -/
def bodyOfSize (size : Nat) : List Nat := List.replicate size 0

/-- A non-draft message with the given identifier and body size, bound for the archive. -/
def sampleMessage (id : String) (size : Nat) : Message :=
  { ID := id, Unread := false, Body := bodyOfSize size,
    Targets := [{ ID := "6", Name := "Archive", Color := "", IsExclusive := true }] }

/-- The stop flag of a run that is never cancelled. -/
def neverStop : Nat → Bool := fun _ => false

/-- A remote that imports every request of every call. -/
def remoteOk : Nat → List ImportMsgReq → Except String (List ImportMsgRes) :=
  fun _ reqs => .ok (reqs.map (fun _ => { Error := none, MessageID := "remote" }))

/-- A remote whose every call fails as a whole. -/
def remoteDown : Nat → List ImportMsgReq → Except String (List ImportMsgRes) :=
  fun _ _ => .error "timeout"

/-- A remote whose first call fails as a whole and that imports everything afterwards. -/
def remoteFirstFails : Nat → List ImportMsgReq → Except String (List ImportMsgRes) :=
  fun k reqs => if k = 0 then .error "timeout" else remoteOk k reqs

/-- Eleven small messages with distinct identifiers. -/
def elevenMessages : List Message :=
  [sampleMessage "m01" 3, sampleMessage "m02" 3, sampleMessage "m03" 3, sampleMessage "m04" 3,
   sampleMessage "m05" 3, sampleMessage "m06" 3, sampleMessage "m07" 3, sampleMessage "m08" 3,
   sampleMessage "m09" 3, sampleMessage "m10" 3, sampleMessage "m11" 3]

/-- An import request with a body of `size` bytes. -/
def sampleReq (size : Nat) : ImportMsgReq :=
  { AddressID := "addr", Body := bodyOfSize size, Unread := 0, Time := 0, Flags := 1,
    LabelIDs := ["6"] }

/-- A pending batch of three requests. -/
def threeBatch : State :=
  { State.init with
    importMsgReqMap := [("m01", sampleReq 3), ("m02", sampleReq 4), ("m03", sampleReq 5)],
    importMsgReqSize := 12 }

/-- A remote whose first call imports the first request and rejects the second and the
third, and that imports everything afterwards. -/
def remotePartial : Nat → List ImportMsgReq → Except String (List ImportMsgRes) :=
  fun k reqs =>
    if k = 0 then
      .ok [{ Error := none, MessageID := "r01" }, { Error := some "rejected", MessageID := "" },
           { Error := some "rejected", MessageID := "" }]
    else remoteOk k reqs

/-- A remote whose first call returns no result and no error, and that imports everything
afterwards. -/
def remoteNoResults : Nat → List ImportMsgReq → Except String (List ImportMsgRes) :=
  fun k reqs => if k = 0 then .ok [] else remoteOk k reqs

/-- A pending batch of one request. -/
def oneBatch : State :=
  { State.init with importMsgReqMap := [("m01", sampleReq 3)], importMsgReqSize := 3 }

/-- The stop flag of a run that is cancelled after `n` queries. -/
def stopAfter (n : Nat) : Nat → Bool := fun k => decide (n ≤ k)

/-- The first five of ten small messages. -/
def firstFive : List Message :=
  [sampleMessage "m01" 3, sampleMessage "m02" 3, sampleMessage "m03" 3, sampleMessage "m04" 3,
   sampleMessage "m05" 3]

/-- The last five of ten small messages. -/
def lastFive : List Message :=
  [sampleMessage "m06" 3, sampleMessage "m07" 3, sampleMessage "m08" 3, sampleMessage "m09" 3,
   sampleMessage "m10" 3]

/-- Two messages of 20 MB each. -/
def twoLarge : List Message :=
  [sampleMessage "m01" 20000000, sampleMessage "m02" 20000000]

/-! ## The batches the spec describes -/

/-- A run of requests fits one batch: at most `pmapiImportBatchMaxItems` items and at most
`pmapiImportBatchMaxSize` bytes of bodies in total. -/
def fitsBatch (reqs : List ImportMsgReq) : Prop :=
  reqs.length ≤ pmapiImportBatchMaxItems ∧
    (reqs.map (fun r => r.Body.length)).sum ≤ pmapiImportBatchMaxSize

/-- The batching of the spec, for messages whose request is `build msg`: every batch is
not empty, fits, and is the longest run of the remaining messages (the batch followed by
all later batches) that fits. -/
def GreedyBatches (build : Message → ImportMsgReq) : List (List Message) → Prop
  | [] => True
  | b :: bs =>
    b ≠ [] ∧ fitsBatch (b.map build) ∧
      (∀ p : List Message, p <+: b ++ bs.flatten → fitsBatch (p.map build) →
        p.length ≤ b.length) ∧
      GreedyBatches build bs

/-- The number of requests of each call, for calls that are bulk imports. -/
def bulkSizes (calls : List Call) : List Nat :=
  calls.map (fun c => match c with
    | .importRequest reqs => reqs.length
    | _ => 0)

/-- The request that the example environment builds for a message. -/
def sampleBuild (msg : Message) : ImportMsgReq :=
  { AddressID := "addr", Body := msg.Body, Unread := if msg.Unread then 1 else 0, Time := 0,
    Flags := computeMessageFlags samplePmapi
      ((msg.Targets.filter (fun target => target.ID ≠ "5")).map (fun target => target.ID)),
    LabelIDs := (msg.Targets.filter (fun target => target.ID ≠ "5")).map (fun target => target.ID) }

/-- Twelve messages of 1 KB each. -/
def twelveMessages : List Message :=
  [sampleMessage "m01" 1000, sampleMessage "m02" 1000, sampleMessage "m03" 1000,
   sampleMessage "m04" 1000, sampleMessage "m05" 1000, sampleMessage "m06" 1000,
   sampleMessage "m07" 1000, sampleMessage "m08" 1000, sampleMessage "m09" 1000,
   sampleMessage "m10" 1000, sampleMessage "m11" 1000, sampleMessage "m12" 1000]

/-- Three messages of 20 MB each. -/
def threeLarge : List Message :=
  [sampleMessage "m01" 20000000, sampleMessage "m02" 20000000, sampleMessage "m03" 20000000]

/-! ## Example inputs for the request builder and the mailboxes -/

/-- A mailbox that carries the identifier of the all-mail label. -/
def allMailMailbox : Mailbox :=
  { ID := "5", Name := "All Mail", Color := "", IsExclusive := false }

/-- A mailbox for a custom label. -/
def customMailbox : Mailbox :=
  { ID := "lbl", Name := "Imported", Color := "#7272a7", IsExclusive := false }

/-- A message whose targets are the archive, the all-mail label and the custom label. -/
def labelledMessage : Message :=
  { ID := "m01", Unread := true, Body := [1, 2, 3],
    Targets := [{ ID := "6", Name := "Archive", Color := "", IsExclusive := true },
                allMailMailbox, customMailbox] }

/-- The request that the example environment builds for `labelledMessage` when the label
IDs come out as `labels`. -/
def labelledReq (labels : List String) : ImportMsgReq :=
  { AddressID := "addr", Body := [1, 2, 3], Unread := 1, Time := 0,
    Flags := computeMessageFlags samplePmapi labels, LabelIDs := labels }

/-- A mailbox that is not created yet. -/
def newMailbox : Mailbox :=
  { ID := "", Name := "Imported", Color := "#7272a7", IsExclusive := true }

/-- An environment whose parser panics on every body, with the given outcome of the crash
report. -/
def panicEnv (report : String → Option String) : Env :=
  { sampleEnv neverStop remoteOk with
    parse := fun _ => .panics "index out of range", reportSentryCrash := report }

/-- An environment whose parser rejects every body. -/
def rejectingEnv : Env :=
  { sampleEnv neverStop remoteOk with parse := fun _ => .failed "malformed MIME header" }

/-- An environment whose label creation fails. -/
def noLabelEnv : Env :=
  { sampleEnv neverStop remoteOk with createLabel := fun _ _ => .error "name taken" }

/-! ## The steps of the draft path -/

/-- The message that `importDraft` hands to `createDraft`: the encrypted message with the
ID of the global mailbox appended to its labels when there is one, and without its
attachments. -/
def draftToCreate (message : PMessage) (globalMailbox : Option Mailbox) : PMessage :=
  { (match globalMailbox with
      | some g => { message with LabelIDs := message.LabelIDs ++ [g.ID] }
      | none => message) with Attachments := [] }

/-- Every step of `importDraft` for one attachment succeeds: there is a reader at `idx`,
signing and encryption succeed, and the upload, the remote call number `k`, succeeds.
`call` is that upload. -/
def AttachmentUploaded (env : Env) (draftID : String) (readers : List (List Nat))
    (att : Attachment) (idx k : Nat) (call : Call) : Prop :=
  ∃ body sig enc r, readers.get? idx = some body ∧
    env.detachedSign { att with MessageID := draftID } body = .ok sig ∧
    env.encryptAttachment { att with MessageID := draftID } body = .ok enc ∧
    env.createAttachment k { att with MessageID := draftID } enc sig = .ok r ∧
    call = Call.createAttachment { att with MessageID := draftID } enc sig

/-- Every step succeeds for each attachment of a list, the first one read at `idx` and
uploaded by the remote call number `k`; `calls` are the uploads, one per attachment, in
order. -/
def AttachmentsUploaded (env : Env) (draftID : String) (readers : List (List Nat)) :
    List Attachment → Nat → Nat → List Call → Prop
  | [], _, _, calls => calls = []
  | att :: rest, idx, k, calls =>
    ∃ c cs, calls = c :: cs ∧ AttachmentUploaded env draftID readers att idx k c ∧
      AttachmentsUploaded env draftID readers rest (idx + 1) (k + 1) cs

/-- The three attachments of the example draft. -/
def draftAttachments : List Attachment :=
  [{ ID := "a1", MessageID := "", Name := "one.txt" },
   { ID := "a2", MessageID := "", Name := "two.txt" },
   { ID := "a3", MessageID := "", Name := "three.txt" }]

/-- An environment for drafts: the parser returns a message with the three example
attachments and their readers, the remote creates the draft `draft-1`, and signing and
upload behave as given. -/
def draftEnv (sign : Attachment → List Nat → Except String (List Nat))
    (upload : Nat → Attachment → List Nat → List Nat → Except String Attachment) : Env :=
  { sampleEnv neverStop remoteOk with
    parse := fun body => .parsed
      { ID := "", MIMEType := "text/plain", Body := body, Time := 0, LabelIDs := [],
        Attachments := draftAttachments } [[1], [2], [3]],
    createDraft := fun _ m _ _ => .ok { m with ID := "draft-1" },
    detachedSign := sign,
    createAttachment := upload }

/-- What the parser of `draftEnv` returns for `draftMessage`. -/
def draftParsed : PMessage :=
  { ID := "", MIMEType := "text/plain", Body := [9], Time := 0, LabelIDs := [],
    Attachments := draftAttachments }

/-- The draft that the remote of `draftEnv` creates for `draftMessage`. -/
def draftCreated : PMessage :=
  { draftToCreate draftParsed none with ID := "draft-1" }

/-- The upload of the first example attachment to the draft `draft-1`. -/
def firstUpload : Call :=
  Call.createAttachment { ID := "a1", MessageID := "draft-1", Name := "one.txt" } [1] [1]

/-- A message bound for the drafts label. -/
def draftMessage : Message :=
  { ID := "d01", Unread := false, Body := [9],
    Targets := [{ ID := "8", Name := "Drafts", Color := "", IsExclusive := true }] }

/-- A signer that fails on the attachment `a2`. -/
def signFailsOnSecond : Attachment → List Nat → Except String (List Nat) :=
  fun att body => if att.ID = "a2" then .error "no key" else .ok body

/-- An upload that succeeds. -/
def uploadOk : Nat → Attachment → List Nat → List Nat → Except String Attachment :=
  fun _ att _ _ => .ok att

/-- An upload that fails on the attachment `a2`. -/
def uploadFailsOnSecond : Nat → Attachment → List Nat → List Nat → Except String Attachment :=
  fun _ att _ _ => if att.ID = "a2" then .error "quota" else .ok att

/-! ## Example inputs for the pass-through of encrypted bodies and for the flushes -/

/-- A parsed message that is already a multipart-encrypted envelope. -/
def encryptedMessage : PMessage :=
  { ID := "", MIMEType := "multipart/encrypted", Body := [1, 2, 3], Time := 0, LabelIDs := [],
    Attachments := [] }

/-- An encrypting builder that always fails. -/
def failingBuild : PMessage → List (List Nat) → Except String (List Nat) :=
  fun _ _ => .error "no key"

/-- A remote that answers every call with two successful results. -/
def remoteTwoResults : Nat → List ImportMsgReq → Except String (List ImportMsgRes) :=
  fun _ _ => .ok [{ Error := none, MessageID := "r01" }, { Error := none, MessageID := "r02" }]

/-- The sum of the body lengths of the import requests that a map holds. -/
def mapBodySize (m : List (String × ImportMsgReq)) : Nat :=
  (m.map (fun entry => entry.2.Body.length)).sum

/-- Two messages that carry the same identifier. -/
def sameIDMessages : List Message :=
  [sampleMessage "m01" 3, sampleMessage "m01" 4]

/-- A remote whose first call imports the first request and rejects the second and the
third, whose second call imports its request, and whose third call refuses its request. -/
def remoteRefusesRetry : Nat → List ImportMsgReq → Except String (List ImportMsgRes) :=
  fun k reqs =>
    if k = 0 then
      .ok [{ Error := none, MessageID := "r01" }, { Error := some "rejected", MessageID := "" },
           { Error := some "rejected", MessageID := "" }]
    else if k = 2 then .ok [{ Error := some "too large", MessageID := "" }]
    else remoteOk k reqs

/-- An environment for drafts whose parser returns the three example attachments with one
reader only. -/
def shortReadersEnv : Env :=
  { draftEnv (fun _ b => .ok b) uploadOk with
    parse := fun body => .parsed
      { ID := "", MIMEType := "text/plain", Body := body, Time := 0, LabelIDs := [],
        Attachments := draftAttachments } [[1]] }

end Transfer

/-!
# Restart of the application: the restart flag

A shallow embedding of `incrementRestartFlag` of `internal/app/base/restart.go`.  Argument
lists are lists of strings.  Go's `int` is taken as 64 bits wide.  The loop
`for k, v := range res` reads `res[k]` when it reaches index `k`, so that it sees the
values that earlier iterations have written.
-/

namespace Base

/-- The greatest value of Go's `int`. -/
def maxInt : Int := 2 ^ 63 - 1

/-- The least value of Go's `int`. -/
def minInt : Int := -(2 ^ 63)

/-- Go's addition on `int`: the sum wraps around in 64-bit two's complement. -/
def addInt (a b : Int) : Int := (a + b + 2 ^ 63) % 2 ^ 64 - 2 ^ 63

/-- The value of a run of decimal digits, after the value `acc` of the digits before; `none`
when a character is not a decimal digit. -/
def parseDigits : List Char → Nat → Option Nat
  | [], acc => some acc
  | c :: cs, acc =>
    if '0' ≤ c ∧ c ≤ '9' then parseDigits cs (acc * 10 + (c.toNat - '0'.toNat)) else none

/-- The library function `strconv.Atoi`: an optional sign, then at least one decimal digit
and nothing else, the value within the range of `int`; `none` is the error. -/
def Atoi (s : String) : Option Int :=
  match s.data with
  | [] => none
  | '-' :: ds =>
    if ds = [] then none
    else match parseDigits ds 0 with
      | none => none
      | some n => if -(n : Int) < minInt then none else some (-(n : Int))
  | '+' :: ds =>
    if ds = [] then none
    else match parseDigits ds 0 with
      | none => none
      | some n => if (n : Int) > maxInt then none else some (n : Int)
  | ds =>
    match parseDigits ds 0 with
    | none => none
    | some n => if (n : Int) > maxInt then none else some (n : Int)

/-- The library function `strconv.Itoa`: the decimal text of an integer. -/
def Itoa (n : Int) : String := toString n

/-- The value that the loop of `incrementRestartFlag` writes after a restart flag whose
value was `next`: `"1"` when `next` does not parse, the incremented counter otherwise. -/
def bumped (next : String) : String :=
  match Atoi next with
  | none => "1"
  | some n => Itoa (addInt n 1)

/-- One iteration of the loop of `incrementRestartFlag`, at index `k`, on the slice `res`
and the variable `hasFlag`. -/
def restartStep (st : List String × Bool) (k : Nat) : List String × Bool :=
  match st.1.get? k with
  | none => st
  | some v =>
    if v ≠ "--restart" then st
    else if k + 1 ≥ st.1.length then (st.1, true)
    else
      match st.1.get? (k + 1) with
      | none => (st.1, true)
      | some next =>
        match Atoi next with
        | none => (st.1.set (k + 1) "1", true)
        | some n => (st.1.set (k + 1) (Itoa (addInt n 1)), true)

/-- The function `incrementRestartFlag`. -/
def incrementRestartFlag (args : List String) : List String :=
  let st := (List.range args.length).foldl restartStep (args, false)
  if st.2 = false then st.1 ++ ["--restart", "1"] else st.1

/-- A string is the decimal text of an integer. -/
def IsDecimalText (s : String) : Prop := ∃ n : Int, s = Itoa n

/-- A list of arguments holds the restart flag immediately followed by the decimal text of
an integer. -/
def HasRestartCounter (args : List String) : Prop :=
  ∃ k, args.get? k = some "--restart" ∧ ∃ v, args.get? (k + 1) = some v ∧ IsDecimalText v

end Base

/-!
# Removal of old versions

A shallow embedding of `RemoveOldVersions` of `internal/versioner/remove_default.go`.  The
method `ListVersions` is not among the sources: its result is a parameter.  The library
function `os.RemoveAll` is a parameter as well: a removal that succeeds leaves no directory
at the path, a removal that fails leaves the directory where it is.  The state records the
directories that exist, the removals that were asked for and the errors that were logged.
-/

namespace Versioner

/-- An installed version of the application: its version number and its directory. -/
structure AppVersion where
  version : String
  path : String
deriving DecidableEq, Repr

/-- The collaborators of `RemoveOldVersions`: the result of `v.ListVersions()`, and the
result of the call of `os.RemoveAll` that comes after `k` earlier ones (`none` is success). -/
structure Env where
  listVersions : Except String (List AppVersion)
  removeAll : Nat → String → Option String

/-- The directories that exist, the paths handed to `os.RemoveAll` and the errors logged. -/
structure State where
  dirs : List String
  removeAllCalls : List String
  logged : List String
deriving DecidableEq, Repr

/-- The call `os.RemoveAll(path)`. -/
def RemoveAll (env : Env) (s : State) (path : String) : Option String × State :=
  match env.removeAll s.removeAllCalls.length path with
  | none =>
    (none, { s with dirs := s.dirs.filter (fun d => d ≠ path),
                    removeAllCalls := s.removeAllCalls ++ [path] })
  | some err => (some err, { s with removeAllCalls := s.removeAllCalls ++ [path] })

/-- The body of the loop of `RemoveOldVersions`: the removal of one version, whose failure
is logged. -/
def removeVersion (env : Env) (s : State) (version : AppVersion) : State :=
  match RemoveAll env s version.path with
  | (none, s1) => s1
  | (some err, s1) => { s1 with logged := s1.logged ++ [err] }

/-- The method `RemoveOldVersions`. -/
def RemoveOldVersions (env : Env) (s : State) : Option String × State :=
  match env.listVersions with
  | .error err => (some err, s)
  | .ok versions =>
    if versions.length = 0 then (none, s)
    else (none, (versions.drop 1).foldl (removeVersion env) s)

/-- The four versions of the test, newest first, under the directory `updates`. -/
def testVersions : List AppVersion :=
  [⟨"2.4.0", "updates/2.4.0"⟩, ⟨"2.3.5", "updates/2.3.5"⟩, ⟨"2.3.4", "updates/2.3.4"⟩,
   ⟨"2.3.4-beta", "updates/2.3.4-beta"⟩]

/-- The state before the run of the test: the four directories exist. -/
def testState : State :=
  { dirs := testVersions.map AppVersion.path, removeAllCalls := [], logged := [] }

/-- An environment that lists the four versions of the test and in which every removal
succeeds. -/
def testEnv : Env :=
  { listVersions := .ok testVersions, removeAll := fun _ _ => none }

/-- An environment that lists the four versions of the test and in which the removal of
`updates/2.3.5` fails. -/
def lockedEnv : Env :=
  { listVersions := .ok testVersions,
    removeAll := fun _ path => if path = "updates/2.3.5" then some "permission denied" else none }

end Versioner

/-!
# Removal of old logs

A shallow embedding of `removeOldLogs` and `removeLog` of `internal/logging/clear.go`.  The
function `matchLogName` is not among the sources and the library functions `filepath.Join`
and `os.RemoveAll` belong to the standard library: the three are parameters.  The library
function `sort.Strings` sorts in increasing byte-wise order, which on strings of UTF-8 text
is the order of Lean's strings; the sorted list does not depend on the algorithm.  The
state records the names handed to `removeLog`, the paths handed to `os.RemoveAll`, the
errors logged, and whether the slice expression `filenames[:count-maxLogs]` was out of
range.  A slice comes with the elements of its backing array between its length and its
capacity (`spare`), since a slice expression is bounded by the capacity.  The argument
`maxLogs` ranges over the integers; a difference `count - maxLogs` beyond the greatest
`int` would wrap around to a negative bound, and is beyond every capacity here: the slice
expression panics either way.
-/

namespace Logging

/-- The collaborators of `removeOldLogs`: `matchLogName`, `filepath.Join`, and the result of
the call of `os.RemoveAll` that comes after `k` earlier ones (`none` is success). -/
structure Env where
  matchLogName : String → Bool
  join : String → String → String
  removeAll : Nat → String → Option String

/-- The record of a run: the names handed to `removeLog`, the paths handed to
`os.RemoveAll`, the errors logged, and whether a slice expression was out of range. -/
structure State where
  removeLogCalls : List String
  removeAllCalls : List String
  logged : List String
  panicked : Bool
deriving DecidableEq, Repr

/-- The function `removeLog`. -/
def removeLog (env : Env) (logDir : String) (s : State) (filename : String) : State :=
  let s1 := { s with removeLogCalls := s.removeLogCalls ++ [filename] }
  if env.matchLogName filename = false then s1
  else
    match env.removeAll s1.removeAllCalls.length (env.join logDir filename) with
    | none => { s1 with removeAllCalls := s1.removeAllCalls ++ [env.join logDir filename] }
    | some err =>
      { s1 with removeAllCalls := s1.removeAllCalls ++ [env.join logDir filename],
                logged := s1.logged ++ [err] }

/-- The library function `sort.Strings`: the names in increasing order, two names compared
character by character. -/
def sortStrings (filenames : List String) : List String :=
  filenames.insertionSort (fun a b => a.toList ≤ b.toList)

/-- The function `removeOldLogs`, on the slice `filenames` and the elements `spare` of its
backing array beyond its length. -/
def removeOldLogs (env : Env) (s : State) (logDir : String) (filenames spare : List String)
    (maxLogs : Int) : State :=
  let count : Int := filenames.length
  if count ≤ maxLogs then s
  else
    let sorted := sortStrings filenames
    if count - maxLogs < 0 ∨ count - maxLogs > count + spare.length then
      { s with panicked := true }
    else ((sorted ++ spare).take (count - maxLogs).toNat).foldl (removeLog env logDir) s

/-- An environment in which every name is the name of a log and every removal succeeds. -/
def sampleEnv : Env :=
  { matchLogName := fun _ => true, join := fun dir name => dir ++ "/" ++ name,
    removeAll := fun _ _ => none }

/-- A run that has done nothing yet. -/
def State.init : State :=
  { removeLogCalls := [], removeAllCalls := [], logged := [], panicked := false }

/-- Four log files, not in the order of their timestamps. -/
def fourLogs : List String :=
  ["v2_20210103.log", "v2_20210101.log", "v2_20210104.log", "v2_20210102.log"]

end Logging

/-! ## Theorems -/

namespace Transfer

/-! ### The flag bitmask -/

/-- A bitwise OR is zero exactly when both operands are. -/
theorem lor_eq_zero_iff (a b : Nat) : a ||| b = 0 ↔ a = 0 ∧ b = 0 := by
  constructor
  · intro h
    have hbit : ∀ i, a.testBit i = false ∧ b.testBit i = false := by
      intro i
      have := congrArg (fun n => Nat.testBit n i) h
      simpa using this
    exact ⟨Nat.eq_of_testBit_eq (by intro i; simp [(hbit i).1]),
           Nat.eq_of_testBit_eq (by intro i; simp [(hbit i).2])⟩
  · rintro ⟨rfl, rfl⟩
    simp

/-- What the loop of `computeMessageFlags` leaves in `flag`, started from `acc`. -/
theorem computeMessageFlags_foldl (c : Pmapi) (labels : List String) (acc : Nat)
    (hA : c.SentLabel ≠ c.ArchiveLabel) (hI : c.SentLabel ≠ c.InboxLabel) :
    labels.foldl
      (fun flag labelID =>
        if labelID = c.SentLabel then flag ||| c.FlagSent
        else if labelID = c.ArchiveLabel ∨ labelID = c.InboxLabel then flag ||| c.FlagReceived
        else flag) acc
    = (acc ||| (if c.SentLabel ∈ labels then c.FlagSent else 0))
        ||| (if c.ArchiveLabel ∈ labels ∨ c.InboxLabel ∈ labels then c.FlagReceived else 0) := by
  induction labels generalizing acc with
  | nil => simp
  | cons l ls ih =>
    rw [List.foldl_cons, ih]
    by_cases h1 : l = c.SentLabel
    · subst h1
      have e1 : ¬ (c.ArchiveLabel = c.SentLabel) := fun h => hA h.symm
      have e2 : ¬ (c.InboxLabel = c.SentLabel) := fun h => hI h.symm
      by_cases h2 : c.SentLabel ∈ ls <;>
        simp [h2, e1, e2, Nat.lor_assoc]
    · have e0 : ¬ (c.SentLabel = l) := fun h => h1 h.symm
      by_cases h2 : l = c.ArchiveLabel ∨ l = c.InboxLabel
      · have h3 : (c.ArchiveLabel ∈ l :: ls ∨ c.InboxLabel ∈ l :: ls) := by
          rcases h2 with h | h
          · exact Or.inl (by simp [h])
          · exact Or.inr (by simp [h])
        rw [if_neg h1, if_pos h2, if_pos h3]
        have h4 : (c.SentLabel ∈ l :: ls) ↔ c.SentLabel ∈ ls := by simp [e0]
        simp only [h4]
        by_cases h5 : c.ArchiveLabel ∈ ls ∨ c.InboxLabel ∈ ls
        · rw [if_pos h5]
          generalize (if c.SentLabel ∈ ls then c.FlagSent else 0) = x
          rw [Nat.lor_assoc acc, Nat.lor_comm c.FlagReceived x, ← Nat.lor_assoc acc,
            Nat.lor_assoc (acc ||| x), Nat.or_self]
        · rw [if_neg h5, Nat.or_zero]
          generalize (if c.SentLabel ∈ ls then c.FlagSent else 0) = x
          rw [Nat.lor_assoc acc, Nat.lor_comm c.FlagReceived x, ← Nat.lor_assoc acc]
      · have e1 : ¬ (c.ArchiveLabel = l) := fun h => h2 (Or.inl h.symm)
        have e2 : ¬ (c.InboxLabel = l) := fun h => h2 (Or.inr h.symm)
        rw [if_neg h1, if_neg h2]
        simp [e0, e1, e2]

/-- C10. For label constants with `SentLabel` distinct from `ArchiveLabel` and `InboxLabel`
(Go rejects a `switch` with duplicate constant cases) and non-zero flag bits,
`computeMessageFlags` returns the bitwise OR of `FlagSent` when the list contains
`SentLabel` and `FlagReceived` when it contains `ArchiveLabel` or `InboxLabel`; it returns
`FlagReceived` when the list contains none of the three; the result is never 0. -/
theorem computeMessageFlags_spec (c : Pmapi) (labels : List String)
    (hA : c.SentLabel ≠ c.ArchiveLabel) (hI : c.SentLabel ≠ c.InboxLabel)
    (hS : c.FlagSent ≠ 0) (hR : c.FlagReceived ≠ 0) :
    computeMessageFlags c labels =
      (if c.SentLabel ∈ labels ∨ c.ArchiveLabel ∈ labels ∨ c.InboxLabel ∈ labels then
        (if c.SentLabel ∈ labels then c.FlagSent else 0) |||
          (if c.ArchiveLabel ∈ labels ∨ c.InboxLabel ∈ labels then c.FlagReceived else 0)
       else c.FlagReceived)
    ∧ computeMessageFlags c labels ≠ 0 := by
  have key := computeMessageFlags_foldl c labels 0 hA hI
  rw [Nat.zero_or] at key
  have hval : computeMessageFlags c labels =
      (if c.SentLabel ∈ labels ∨ c.ArchiveLabel ∈ labels ∨ c.InboxLabel ∈ labels then
        (if c.SentLabel ∈ labels then c.FlagSent else 0) |||
          (if c.ArchiveLabel ∈ labels ∨ c.InboxLabel ∈ labels then c.FlagReceived else 0)
       else c.FlagReceived) := by
    unfold computeMessageFlags
    simp only []
    rw [key]
    by_cases hs : c.SentLabel ∈ labels
    · by_cases hr : c.ArchiveLabel ∈ labels ∨ c.InboxLabel ∈ labels
      · simp [hs, hr, lor_eq_zero_iff, hS]
      · simp [hs, hr, hS]
    · by_cases hr : c.ArchiveLabel ∈ labels ∨ c.InboxLabel ∈ labels
      · simp [hs, hr, hR]
      · simp [hs, hr]
  refine ⟨hval, ?_⟩
  rw [hval]
  by_cases hs : c.SentLabel ∈ labels
  · by_cases hr : c.ArchiveLabel ∈ labels ∨ c.InboxLabel ∈ labels
    · simp [hs, hr, lor_eq_zero_iff, hS]
    · simp [hs, hr, hS]
  · by_cases hr : c.ArchiveLabel ∈ labels ∨ c.InboxLabel ∈ labels
    · simp [hs, hr, hR]
    · simp [hs, hr, hR]

/-- The flags of C10 at the label identifiers `"0"`, `"6"`, `"7"`, `"8"` and the bits 1, 2:
sent and inbox give 3; a custom label only, the drafts label only and no label give 1. -/
theorem computeMessageFlags_spec_witness :
    (samplePmapi.SentLabel ≠ samplePmapi.ArchiveLabel ∧
      samplePmapi.SentLabel ≠ samplePmapi.InboxLabel ∧
      samplePmapi.FlagSent ≠ 0 ∧ samplePmapi.FlagReceived ≠ 0) ∧
    computeMessageFlags samplePmapi ["7", "0", "custom"] = 3 ∧
    computeMessageFlags samplePmapi ["custom"] = 1 ∧
    computeMessageFlags samplePmapi ["8"] = 1 ∧
    computeMessageFlags samplePmapi [] = 1 := by
  have h := computeMessageFlags_spec samplePmapi ["7", "0", "custom"]
    (by decide) (by decide) (by decide) (by decide)
  have h1 := computeMessageFlags_spec samplePmapi ["custom"]
    (by decide) (by decide) (by decide) (by decide)
  refine ⟨⟨by decide, by decide, by decide, by decide⟩, ?_, ?_, by decide, by decide⟩
  · rw [h.1]; decide
  · rw [h1.1]; decide

/-! ### Frame lemmas: what a single import touches -/

/-- The state after `importMessage`: one more remote call, the pending batch untouched. -/
theorem importMessage_frame (env : Env) (s : State) (req : ImportMsgReq) :
    (importMessage env s req).2.importMsgReqMap = s.importMsgReqMap ∧
    (importMessage env s req).2.importMsgReqSize = s.importMsgReqSize ∧
    (importMessage env s req).2.stopQueries = s.stopQueries ∧
    (importMessage env s req).2.ranges = s.ranges ∧
    (importMessage env s req).2.calls = s.calls ++ [Call.importRequest [req]] ∧
    (importMessage env s req).2.outcomes = s.outcomes ∧
    (importMessage env s req).2.panicked = s.panicked := by
  unfold importMessage callWrap importMessageBody importRequest
  cases h : env.importRequest s.calls.length [req] with
  | error e => simp
  | ok rs =>
    cases rs with
    | nil => simp
    | cons r rest =>
      cases hr : r.Error with
      | none => simp [hr]
      | some e => simp [hr]

/-- The result of `importMessage` depends on the state only through the number of remote
calls issued before. -/
theorem importMessage_result (env : Env) (s t : State) (req : ImportMsgReq)
    (h : s.calls.length = t.calls.length) :
    (importMessage env s req).1 = (importMessage env t req).1 := by
  unfold importMessage callWrap importMessageBody importRequest
  rw [h]
  cases h : env.importRequest t.calls.length [req] with
  | error e => simp
  | ok rs =>
    cases rs with
    | nil => simp
    | cons r rest =>
      cases hr : r.Error with
      | none => simp [hr]
      | some e => simp [hr]

/-- The results of `importMessage` by the response of the remote to its call: a call-level
error goes to `callWrap` and leaves both results unset; no result and a refusal set the
error; a result without error sets the remote ID. -/
theorem importMessage_cases (env : Env) (s : State) (req : ImportMsgReq) :
    (∀ e, env.importRequest s.calls.length [req] = .error e →
      (importMessage env s req).1 = ("", none)) ∧
    (env.importRequest s.calls.length [req] = .ok [] →
      (importMessage env s req).1 = ("", some "import ended with no result")) ∧
    (∀ r rest e, env.importRequest s.calls.length [req] = .ok (r :: rest) → r.Error = some e →
      (importMessage env s req).1 = ("", some (wrapErr e "failed to import message"))) ∧
    (∀ r rest, env.importRequest s.calls.length [req] = .ok (r :: rest) → r.Error = none →
      (importMessage env s req).1 = (r.MessageID, none)) := by
  unfold importMessage callWrap importMessageBody importRequest
  refine ⟨fun e h => ?_, fun h => ?_, fun r rest e h hr => ?_, fun r rest h hr => ?_⟩
  · simp [h]
  · simp [h]
  · simp [h, hr]
  · simp [h, hr]

/-- The state after `messageImported`: one more outcome, nothing else. -/
theorem messageImported_frame (s : State) (a b : String) (e : Option String) :
    (messageImported s a b e).importMsgReqMap = s.importMsgReqMap ∧
    (messageImported s a b e).importMsgReqSize = s.importMsgReqSize ∧
    (messageImported s a b e).stopQueries = s.stopQueries ∧
    (messageImported s a b e).ranges = s.ranges ∧
    (messageImported s a b e).calls = s.calls ∧
    (messageImported s a b e).outcomes = s.outcomes ++ [⟨a, b, e⟩] ∧
    (messageImported s a b e).panicked = s.panicked := by
  simp [messageImported]

/-- The one-by-one loop: one single-request call and one outcome per entry, in the order
of the entries; the pending batch is not touched. -/
theorem importOneByOne_spec (env : Env) (items : List (String × ImportMsgReq)) (s : State) :
    (importOneByOne env items s).importMsgReqMap = s.importMsgReqMap ∧
    (importOneByOne env items s).importMsgReqSize = s.importMsgReqSize ∧
    (importOneByOne env items s).stopQueries = s.stopQueries ∧
    (importOneByOne env items s).ranges = s.ranges ∧
    (importOneByOne env items s).panicked = s.panicked ∧
    (importOneByOne env items s).calls
      = s.calls ++ items.map (fun it => Call.importRequest [it.2]) ∧
    ∃ new, (importOneByOne env items s).outcomes = s.outcomes ++ new ∧
      new.map Outcome.msgID = items.map Prod.fst ∧
      ∀ i it o, items[i]? = some it → new[i]? = some o →
        ∀ t : State, t.calls.length = s.calls.length + i →
          o = ⟨it.1, (importMessage env t it.2).1.1, (importMessage env t it.2).1.2⟩ := by
  induction items generalizing s with
  | nil =>
    refine ⟨rfl, rfl, rfl, rfl, rfl, by simp [importOneByOne], [], by simp [importOneByOne], rfl, ?_⟩
    intro i it o h
    simp at h
  | cons hd tl ih =>
    obtain ⟨msgID, req⟩ := hd
    have hm := importMessage_frame env s req
    have hi := messageImported_frame (importMessage env s req).2 msgID
      (importMessage env s req).1.1 (importMessage env s req).1.2
    obtain ⟨h1, h2, h3, h4, h5, h6, new, h7, h8, h9⟩ :=
      ih (messageImported (importMessage env s req).2 msgID
        (importMessage env s req).1.1 (importMessage env s req).1.2)
    have hunf : importOneByOne env ((msgID, req) :: tl) s =
        importOneByOne env tl (messageImported (importMessage env s req).2 msgID
          (importMessage env s req).1.1 (importMessage env s req).1.2) := rfl
    rw [hunf]
    refine ⟨by rw [h1, hi.1, hm.1], by rw [h2, hi.2.1, hm.2.1], by rw [h3, hi.2.2.1, hm.2.2.1],
      by rw [h4, hi.2.2.2.1, hm.2.2.2.1], by rw [h5, hi.2.2.2.2.2.2, hm.2.2.2.2.2.2],
      by rw [h6, hi.2.2.2.2.1, hm.2.2.2.2.1]; simp,
      ⟨msgID, (importMessage env s req).1.1, (importMessage env s req).1.2⟩ :: new,
      by rw [h7, hi.2.2.2.2.2.1, hm.2.2.2.2.2.1]; simp, by simp [h8], ?_⟩
    intro i it o hit ho t ht
    cases i with
    | zero =>
      simp at hit ho
      subst hit; subst ho
      have := importMessage_result env s t req (by simpa using ht.symm)
      simp [this]
    | succ j =>
      simp at hit ho
      apply h9 j it o hit ho t
      rw [hi.2.2.2.2.1, hm.2.2.2.2.1, ht]
      simp
      omega

/-- The loop over the bulk results when there are no more results than entries: no panic,
a retry call for exactly the entries whose result carries an error, one outcome per result;
the pending batch is not touched. -/
theorem importResults_spec (env : Env) (items : List (String × ImportMsgReq))
    (results : List ImportMsgRes) (index : Nat) (s : State)
    (hlen : index + results.length ≤ items.length) :
    (importResults env (items.map Prod.fst) (items.map Prod.snd) results index s).importMsgReqMap
      = s.importMsgReqMap ∧
    (importResults env (items.map Prod.fst) (items.map Prod.snd) results index s).importMsgReqSize
      = s.importMsgReqSize ∧
    (importResults env (items.map Prod.fst) (items.map Prod.snd) results index s).stopQueries
      = s.stopQueries ∧
    (importResults env (items.map Prod.fst) (items.map Prod.snd) results index s).ranges
      = s.ranges ∧
    (importResults env (items.map Prod.fst) (items.map Prod.snd) results index s).panicked
      = s.panicked ∧
    (importResults env (items.map Prod.fst) (items.map Prod.snd) results index s).calls
      = s.calls ++ (((items.drop index).zip results).filter (fun p => p.2.Error.isSome)).map
          (fun p => Call.importRequest [p.1.2]) ∧
    ∃ new,
      (importResults env (items.map Prod.fst) (items.map Prod.snd) results index s).outcomes
        = s.outcomes ++ new ∧
      new.length = results.length ∧
      ∀ j it res o, items[index + j]? = some it → results[j]? = some res → new[j]? = some o →
        (res.Error = none → o = ⟨it.1, res.MessageID, none⟩) ∧
        (res.Error ≠ none → ∀ t : State,
          t.calls.length
            = s.calls.length + ((results.take j).filter (fun r => r.Error.isSome)).length →
          o = ⟨it.1, (importMessage env t it.2).1.1, (importMessage env t it.2).1.2⟩) := by
  induction results generalizing index s with
  | nil =>
    refine ⟨rfl, rfl, rfl, rfl, rfl, by simp [importResults], [], by simp [importResults], rfl, ?_⟩
    intro j it res o _ h
    simp at h
  | cons res rest ih =>
    have hidx : index < items.length := by simp at hlen; omega
    have hlen2 : (index + 1) + rest.length ≤ items.length := by simp at hlen; omega
    have hdrop : items.drop index = items[index] :: items.drop (index + 1) :=
      List.drop_eq_getElem_cons hidx
    have hid : (items.map Prod.fst).get? index = some items[index].1 := by
      simp [List.getElem?_eq_getElem hidx]
    have hrq : (items.map Prod.snd).get? index = some items[index].2 := by
      simp [List.getElem?_eq_getElem hidx]
    cases hres : res.Error with
    | none =>
      have hunf : importResults env (items.map Prod.fst) (items.map Prod.snd) (res :: rest) index s
          = importResults env (items.map Prod.fst) (items.map Prod.snd) rest (index + 1)
              (messageImported s items[index].1 res.MessageID none) := by
        rw [importResults, hid]
        simp only [hres]
      have hi := messageImported_frame s items[index].1 res.MessageID none
      obtain ⟨h1, h2, h3, h4, h5, h6, new, h7, h8, h9⟩ :=
        ih (index + 1) (messageImported s items[index].1 res.MessageID none) hlen2
      rw [hunf]
      refine ⟨by rw [h1, hi.1], by rw [h2, hi.2.1], by rw [h3, hi.2.2.1], by rw [h4, hi.2.2.2.1],
        by rw [h5, hi.2.2.2.2.2.2], ?_,
        ⟨items[index].1, res.MessageID, none⟩ :: new, by rw [h7, hi.2.2.2.2.2.1]; simp,
        by simp [h8], ?_⟩
      · rw [h6, hi.2.2.2.2.1, hdrop, List.zip_cons_cons, List.filter_cons]
        simp [hres]
      · intro j it r o hit hr ho
        cases j with
        | zero =>
          simp [List.getElem?_eq_getElem hidx] at hit hr ho
          subst hit; subst hr; subst ho
          exact ⟨fun _ => rfl, fun h => absurd hres h⟩
        | succ k =>
          have hit2 : items[index + 1 + k]? = some it := by
            rw [← hit]; congr 1; omega
          simp at hr ho
          have := h9 k it r o hit2 hr ho
          refine ⟨this.1, fun hne t ht => this.2 hne t ?_⟩
          rw [ht, hi.2.2.2.2.1]
          simp [hres]
    | some e =>
      have hunf : importResults env (items.map Prod.fst) (items.map Prod.snd) (res :: rest) index s
          = importResults env (items.map Prod.fst) (items.map Prod.snd) rest (index + 1)
              (messageImported (importMessage env s items[index].2).2 items[index].1
                (importMessage env s items[index].2).1.1
                (importMessage env s items[index].2).1.2) := by
        rw [importResults, hid]
        simp only [hres, hrq]
      have hm := importMessage_frame env s items[index].2
      have hi := messageImported_frame (importMessage env s items[index].2).2 items[index].1
        (importMessage env s items[index].2).1.1 (importMessage env s items[index].2).1.2
      obtain ⟨h1, h2, h3, h4, h5, h6, new, h7, h8, h9⟩ :=
        ih (index + 1) (messageImported (importMessage env s items[index].2).2 items[index].1
          (importMessage env s items[index].2).1.1
          (importMessage env s items[index].2).1.2) hlen2
      rw [hunf]
      refine ⟨by rw [h1, hi.1, hm.1], by rw [h2, hi.2.1, hm.2.1],
        by rw [h3, hi.2.2.1, hm.2.2.1], by rw [h4, hi.2.2.2.1, hm.2.2.2.1],
        by rw [h5, hi.2.2.2.2.2.2, hm.2.2.2.2.2.2], ?_,
        ⟨items[index].1, (importMessage env s items[index].2).1.1,
          (importMessage env s items[index].2).1.2⟩ :: new,
        by rw [h7, hi.2.2.2.2.2.1, hm.2.2.2.2.2.1]; simp, by simp [h8], ?_⟩
      · rw [h6, hi.2.2.2.2.1, hm.2.2.2.2.1, hdrop, List.zip_cons_cons, List.filter_cons]
        simp [hres]
      · intro j it r o hit hr ho
        cases j with
        | zero =>
          simp [List.getElem?_eq_getElem hidx] at hit hr ho
          subst hit; subst hr; subst ho
          refine ⟨fun h => ?_, fun _ t ht => ?_⟩
          · rw [hres] at h; exact absurd h (by simp)
          · have := importMessage_result env s t items[index].2 (by simpa using ht.symm)
            simp [this]
        | succ k =>
          have hit2 : items[index + 1 + k]? = some it := by
            rw [← hit]; congr 1; omega
          simp at hr ho
          have := h9 k it r o hit2 hr ho
          refine ⟨this.1, fun hne t ht => this.2 hne t ?_⟩
          rw [ht, hi.2.2.2.2.1, hm.2.2.2.2.1]
          simp [hres]
          omega

/-! ### The three ways through `importMessages` -/

/-- A flush that finds the stop flag set returns at once. -/
theorem importMessages_stop (env : Env) (s : State)
    (hstop : env.shouldStop s.stopQueries = true) :
    importMessages env s = { s with stopQueries := s.stopQueries + 1 } := by
  simp [importMessages, shouldStop, hstop]

/-- A flush whose bulk call fails as a whole imports the entries one by one and returns. -/
theorem importMessages_failed (env : Env) (s : State)
    (hstop : env.shouldStop s.stopQueries = false)
    (hfail : wholeRequestFailed (env.importRequest s.calls.length
      ((env.rangeOrder s.ranges s.importMsgReqMap).map Prod.snd)) = true) :
    importMessages env s =
      importOneByOne env (env.rangeOrder (s.ranges + 1) s.importMsgReqMap)
        { s with stopQueries := s.stopQueries + 1, ranges := s.ranges + 1 + 1,
                 calls := s.calls ++ [Call.importRequest
                   ((env.rangeOrder s.ranges s.importMsgReqMap).map Prod.snd)] } := by
  simp [importMessages, shouldStop, importRequest, hstop, hfail]

/-- A flush whose bulk call returns results walks through them and then clears the batch. -/
theorem importMessages_passed (env : Env) (s : State)
    (hstop : env.shouldStop s.stopQueries = false)
    (hpass : wholeRequestFailed (env.importRequest s.calls.length
      ((env.rangeOrder s.ranges s.importMsgReqMap).map Prod.snd)) = false) :
    importMessages env s =
      if (importResults env ((env.rangeOrder s.ranges s.importMsgReqMap).map Prod.fst)
            ((env.rangeOrder s.ranges s.importMsgReqMap).map Prod.snd)
            (resultsOf (env.importRequest s.calls.length
              ((env.rangeOrder s.ranges s.importMsgReqMap).map Prod.snd))) 0
            { s with stopQueries := s.stopQueries + 1, ranges := s.ranges + 1,
                     calls := s.calls ++ [Call.importRequest
                       ((env.rangeOrder s.ranges s.importMsgReqMap).map Prod.snd)] }).panicked
      then
        importResults env ((env.rangeOrder s.ranges s.importMsgReqMap).map Prod.fst)
            ((env.rangeOrder s.ranges s.importMsgReqMap).map Prod.snd)
            (resultsOf (env.importRequest s.calls.length
              ((env.rangeOrder s.ranges s.importMsgReqMap).map Prod.snd))) 0
            { s with stopQueries := s.stopQueries + 1, ranges := s.ranges + 1,
                     calls := s.calls ++ [Call.importRequest
                       ((env.rangeOrder s.ranges s.importMsgReqMap).map Prod.snd)] }
      else
        { importResults env ((env.rangeOrder s.ranges s.importMsgReqMap).map Prod.fst)
            ((env.rangeOrder s.ranges s.importMsgReqMap).map Prod.snd)
            (resultsOf (env.importRequest s.calls.length
              ((env.rangeOrder s.ranges s.importMsgReqMap).map Prod.snd))) 0
            { s with stopQueries := s.stopQueries + 1, ranges := s.ranges + 1,
                     calls := s.calls ++ [Call.importRequest
                       ((env.rangeOrder s.ranges s.importMsgReqMap).map Prod.snd)] }
          with importMsgReqMap := [], importMsgReqSize := 0 } := by
  simp [importMessages, shouldStop, importRequest, hstop, hpass]

/-- C6. When the bulk call of a flush fails with a call-level error or returns zero results
(and the stop flag is not set), `importMessages` issues, after the bulk call, exactly one
single-request import call per entry of the pending batch and records exactly one outcome
per entry: the retry calls and the recorded message IDs are the entries of the batch in
the order of the second `range`, hence a permutation of the batch, and the outcome of an
entry is the result of its own retry. -/
theorem importMessages_fallback_one_by_one (env : Env) (s : State)
    (hstop : env.shouldStop s.stopQueries = false)
    (hfail : (∃ e, env.importRequest s.calls.length
        ((env.rangeOrder s.ranges s.importMsgReqMap).map Prod.snd) = .error e) ∨
      env.importRequest s.calls.length
        ((env.rangeOrder s.ranges s.importMsgReqMap).map Prod.snd) = .ok []) :
    ∃ retries new,
      (importMessages env s).calls
        = s.calls ++ Call.importRequest
            ((env.rangeOrder s.ranges s.importMsgReqMap).map Prod.snd) :: retries ∧
      retries = (env.rangeOrder (s.ranges + 1) s.importMsgReqMap).map
        (fun it => Call.importRequest [it.2]) ∧
      retries.Perm (s.importMsgReqMap.map (fun it => Call.importRequest [it.2])) ∧
      (importMessages env s).outcomes = s.outcomes ++ new ∧
      new.map Outcome.msgID = (env.rangeOrder (s.ranges + 1) s.importMsgReqMap).map Prod.fst ∧
      (new.map Outcome.msgID).Perm (s.importMsgReqMap.map Prod.fst) ∧
      ∀ i it o, (env.rangeOrder (s.ranges + 1) s.importMsgReqMap)[i]? = some it →
        new[i]? = some o →
        ∀ t : State, t.calls.length = s.calls.length + 1 + i →
          o = ⟨it.1, (importMessage env t it.2).1.1, (importMessage env t it.2).1.2⟩ := by
  have hf : wholeRequestFailed (env.importRequest s.calls.length
      ((env.rangeOrder s.ranges s.importMsgReqMap).map Prod.snd)) = true := by
    rcases hfail with ⟨e, h⟩ | h <;> rw [h] <;> rfl
  rw [importMessages_failed env s hstop hf]
  obtain ⟨_, _, _, _, _, hc, new, ho, hid, hpt⟩ :=
    importOneByOne_spec env (env.rangeOrder (s.ranges + 1) s.importMsgReqMap)
      { s with stopQueries := s.stopQueries + 1, ranges := s.ranges + 1 + 1,
               calls := s.calls ++ [Call.importRequest
                 ((env.rangeOrder s.ranges s.importMsgReqMap).map Prod.snd)] }
  refine ⟨_, new, ?_, rfl, (env.rangeOrder_perm _ _).map _, ho, hid, ?_, ?_⟩
  · rw [hc]; simp
  · rw [hid]; exact (env.rangeOrder_perm _ _).map _
  · intro i it o hit hno t ht
    exact hpt i it o hit hno t (by simp [ht])

/-- The scenarios of C6: a batch of three whose bulk call returns no result, or fails,
gives three single-request calls after the bulk call and three outcomes, one per message. -/
theorem importMessages_fallback_one_by_one_witness :
    ((importMessages (sampleEnv neverStop remoteNoResults) threeBatch).calls
        = [Call.importRequest [sampleReq 3, sampleReq 4, sampleReq 5],
           Call.importRequest [sampleReq 3], Call.importRequest [sampleReq 4],
           Call.importRequest [sampleReq 5]] ∧
      (importMessages (sampleEnv neverStop remoteNoResults) threeBatch).outcomes.map Outcome.msgID
        = ["m01", "m02", "m03"]) ∧
    ((importMessages (sampleEnv neverStop remoteFirstFails) threeBatch).calls
        = [Call.importRequest [sampleReq 3, sampleReq 4, sampleReq 5],
           Call.importRequest [sampleReq 3], Call.importRequest [sampleReq 4],
           Call.importRequest [sampleReq 5]] ∧
      (importMessages (sampleEnv neverStop remoteFirstFails) threeBatch).outcomes.map Outcome.msgID
        = ["m01", "m02", "m03"]) := by
  constructor
  · obtain ⟨retries, new, hc, hr, _, ho, hid, _, _⟩ :=
      importMessages_fallback_one_by_one (sampleEnv neverStop remoteNoResults) threeBatch
        (by decide) (Or.inr rfl)
    rw [hc, ho, hr]
    refine ⟨by decide, ?_⟩
    simp only [List.map_append, hid]
    decide
  · obtain ⟨retries, new, hc, hr, _, ho, hid, _, _⟩ :=
      importMessages_fallback_one_by_one (sampleEnv neverStop remoteFirstFails) threeBatch
        (by decide) (Or.inl ⟨"timeout", rfl⟩)
    rw [hc, ho, hr]
    refine ⟨by decide, ?_⟩
    simp only [List.map_append, hid]
    decide

/-- C5. When the bulk call of a flush returns, without call-level error, one result per
entry of a non-empty pending batch (in the order of the requests), `importMessages` does
not panic and issues, after the bulk call, a single-request retry for exactly the entries
whose result carries an error, in order; it records one outcome per entry.  For a result
without error the outcome is the success with the `MessageID` of that result.  For a
result with an error the outcome is that of the retry of the entry, the call issued after
the bulk call and the retries of the earlier errored entries: a retry result without error
gives the success with the `MessageID` of the retry, a refusal gives the failure
`failed to import message`, no result gives the failure `import ended with no result`, and
a call-level error, which goes to `callWrap`, gives an empty ID and no error. -/
theorem importMessages_partial_errors (env : Env) (s : State) (results : List ImportMsgRes)
    (hstop : env.shouldStop s.stopQueries = false)
    (hne : s.importMsgReqMap ≠ [])
    (hres : env.importRequest s.calls.length
      ((env.rangeOrder s.ranges s.importMsgReqMap).map Prod.snd) = .ok results)
    (hlen : results.length = s.importMsgReqMap.length) :
    (importMessages env s).panicked = s.panicked ∧
    (importMessages env s).calls
      = s.calls ++ Call.importRequest
          ((env.rangeOrder s.ranges s.importMsgReqMap).map Prod.snd) ::
        ((((env.rangeOrder s.ranges s.importMsgReqMap).zip results).filter
          (fun p => p.2.Error.isSome)).map (fun p => Call.importRequest [p.1.2])) ∧
    ∃ new, (importMessages env s).outcomes = s.outcomes ++ new ∧
      new.length = s.importMsgReqMap.length ∧
      ∀ j it res o, (env.rangeOrder s.ranges s.importMsgReqMap)[j]? = some it →
        results[j]? = some res → new[j]? = some o →
        (res.Error = none → o = ⟨it.1, res.MessageID, none⟩) ∧
        (res.Error ≠ none →
          (∀ r rest,
            env.importRequest (s.calls.length + 1
              + ((results.take j).filter (fun r => r.Error.isSome)).length) [it.2]
              = .ok (r :: rest) →
            r.Error = none → o = ⟨it.1, r.MessageID, none⟩) ∧
          (∀ r rest e,
            env.importRequest (s.calls.length + 1
              + ((results.take j).filter (fun r => r.Error.isSome)).length) [it.2]
              = .ok (r :: rest) →
            r.Error = some e → o = ⟨it.1, "", some (wrapErr e "failed to import message")⟩) ∧
          (env.importRequest (s.calls.length + 1
              + ((results.take j).filter (fun r => r.Error.isSome)).length) [it.2]
              = .ok [] →
            o = ⟨it.1, "", some "import ended with no result"⟩) ∧
          (∀ e,
            env.importRequest (s.calls.length + 1
              + ((results.take j).filter (fun r => r.Error.isSome)).length) [it.2]
              = .error e →
            o = ⟨it.1, "", none⟩)) := by
  have hperm := (env.rangeOrder_perm s.ranges s.importMsgReqMap).length_eq
  have hpos : 0 < results.length := by
    rw [hlen]; exact List.length_pos.mpr hne
  have hpass : wholeRequestFailed (env.importRequest s.calls.length
      ((env.rangeOrder s.ranges s.importMsgReqMap).map Prod.snd)) = false := by
    rw [hres]
    cases results with
    | nil => simp at hpos
    | cons r rs => rfl
  obtain ⟨_, _, _, _, hp, hc, new, ho, hnl, hpt⟩ :=
    importResults_spec env (env.rangeOrder s.ranges s.importMsgReqMap) results 0
      { s with stopQueries := s.stopQueries + 1, ranges := s.ranges + 1,
               calls := s.calls ++ [Call.importRequest
                 ((env.rangeOrder s.ranges s.importMsgReqMap).map Prod.snd)] }
      (by rw [hperm, hlen]; omega)
  rw [importMessages_passed env s hstop hpass, hres]
  simp only [resultsOf]
  have hsplit : ∀ (b : Bool) (x : State),
      ((if b = true then x else { x with importMsgReqMap := [], importMsgReqSize := 0 }).panicked
          = x.panicked) ∧
      ((if b = true then x else { x with importMsgReqMap := [], importMsgReqSize := 0 }).calls
          = x.calls) ∧
      ((if b = true then x else { x with importMsgReqMap := [], importMsgReqSize := 0 }).outcomes
          = x.outcomes) := by
    intro b x
    cases b <;> simp
  rw [(hsplit _ _).1, (hsplit _ _).2.1, (hsplit _ _).2.2]
  refine ⟨hp, ?_, new, ho, by rw [hnl, hlen], ?_⟩
  · rw [hc]; simp
  · intro j it res o hit hr hno
    have := hpt j it res o (by simpa using hit) hr hno
    refine ⟨this.1, fun hne => ?_⟩
    obtain ⟨t, ht⟩ : ∃ t : State, t.calls.length = s.calls.length + 1
        + ((results.take j).filter (fun r => r.Error.isSome)).length :=
      ⟨{ s with calls := List.replicate (s.calls.length + 1
        + ((results.take j).filter (fun r => r.Error.isSome)).length) (Call.importRequest []) },
        by simp⟩
    have ho2 := this.2 hne t (by rw [ht]; simp)
    obtain ⟨c1, c2, c3, c4⟩ := importMessage_cases env t it.2
    rw [ht] at c1 c2 c3 c4
    refine ⟨fun r rest h hr2 => ?_, fun r rest e h hr2 => ?_, fun h => ?_, fun e h => ?_⟩
    · rw [ho2, c4 r rest h hr2]
    · rw [ho2, c3 r rest e h hr2]
    · rw [ho2, c2 h]
    · rw [ho2, c1 e h]

/-- The scenario of C5: a batch of three whose bulk call returns one success and two errors
gives exactly two retry calls, for the second and the third request; the outcomes are the
original result for the first message, the success of its retry for the second, and the
refusal of its retry for the third. -/
theorem importMessages_partial_errors_witness :
    (importMessages (sampleEnv neverStop remoteRefusesRetry) threeBatch).calls
      = [Call.importRequest [sampleReq 3, sampleReq 4, sampleReq 5],
         Call.importRequest [sampleReq 4], Call.importRequest [sampleReq 5]] ∧
    (importMessages (sampleEnv neverStop remoteRefusesRetry) threeBatch).outcomes
      = [⟨"m01", "r01", none⟩, ⟨"m02", "remote", none⟩,
         ⟨"m03", "", some "failed to import message: too large"⟩] := by
  have h := importMessages_partial_errors (sampleEnv neverStop remoteRefusesRetry) threeBatch
    [{ Error := none, MessageID := "r01" }, { Error := some "rejected", MessageID := "" },
     { Error := some "rejected", MessageID := "" }]
    (by decide) (by decide) rfl (by decide)
  refine ⟨?_, by decide⟩
  rw [h.2.1]
  decide

/-! ### Flushes that do not clear the batch -/

/-- C2. The code at the failing inputs: a flush whose bulk call fails with a call-level
error, or returns zero results, imports the three messages one by one and returns with the
pending batch still in place (three entries, 12 bytes), where the claim has it cleared. -/
theorem importMessages_failed_keeps_batch :
    ((importMessages (sampleEnv neverStop remoteDown) threeBatch).importMsgReqMap
        = threeBatch.importMsgReqMap ∧
      (importMessages (sampleEnv neverStop remoteDown) threeBatch).importMsgReqSize = 12 ∧
      (importMessages (sampleEnv neverStop remoteDown) threeBatch).outcomes.length = 3) ∧
    ((importMessages (sampleEnv neverStop remoteNoResults) threeBatch).importMsgReqMap
        = threeBatch.importMsgReqMap ∧
      (importMessages (sampleEnv neverStop remoteNoResults) threeBatch).importMsgReqSize = 12 ∧
      (importMessages (sampleEnv neverStop remoteNoResults) threeBatch).outcomes.length = 3) := by
  decide

/-- C9, counterexample.  The single-message call fails with a call-level error:
`importMessage` returns the empty ID with a nil error, the error goes to `callWrap` only,
and the fallback loop of `importMessages` records the message with an empty remote ID and
no error. -/
theorem importMessage_call_error_is_nil :
    (importMessage (sampleEnv neverStop remoteDown) State.init (sampleReq 3)).1 = ("", none) ∧
    (importMessage (sampleEnv neverStop remoteDown) State.init (sampleReq 3)).2.captured
      = ["failed to import messages: timeout"] ∧
    (importMessages (sampleEnv neverStop remoteDown) oneBatch).outcomes
      = [⟨"m01", "", none⟩] := by
  decide

/-- C9, amended.  For every import request, when the single-message remote call made by
`importMessage` fails with a call-level error, `importMessage` hands the error, wrapped as
`failed to import messages`, to `callWrap`, which captures it, and itself returns an empty
remote ID and a nil error; the one-by-one loop of `importMessages`, its caller, records the
message with that empty ID and no error. -/
theorem importMessage_call_error (env : Env) (s : State) (req : ImportMsgReq) (e : String)
    (h : env.importRequest s.calls.length [req] = .error e) :
    importMessage env s req
      = (("", none),
         { s with calls := s.calls ++ [Call.importRequest [req]],
                  captured := s.captured ++ [wrapErr e "failed to import messages"] }) ∧
    ∀ msgID rest, importOneByOne env ((msgID, req) :: rest) s
      = importOneByOne env rest
          { s with calls := s.calls ++ [Call.importRequest [req]],
                   captured := s.captured ++ [wrapErr e "failed to import messages"],
                   outcomes := s.outcomes ++ [⟨msgID, "", none⟩] } := by
  have h1 : importMessage env s req
      = (("", none),
         { s with calls := s.calls ++ [Call.importRequest [req]],
                  captured := s.captured ++ [wrapErr e "failed to import messages"] }) := by
    unfold importMessage callWrap importMessageBody importRequest
    simp [h]
  refine ⟨h1, fun msgID rest => ?_⟩
  rw [importOneByOne, h1]
  rfl

/-- The amended C9 on a remote that is down: the request of three bytes is answered by a
timeout, `importMessage` returns the empty ID and no error, and `callWrap` holds the
error. -/
theorem importMessage_call_error_witness :
    importMessage (sampleEnv neverStop remoteDown) State.init (sampleReq 3)
      = (("", none),
         { State.init with calls := [Call.importRequest [sampleReq 3]],
                           captured := ["failed to import messages: timeout"] }) :=
  (importMessage_call_error (sampleEnv neverStop remoteDown) State.init (sampleReq 3)
    "timeout" rfl).1.trans (by decide)

/-- C1. The code at the failing input: eleven messages with distinct IDs, no cancellation,
the first bulk call (ten requests) failing as a whole.  The ten messages are imported one
by one and recorded, stay in the pending batch, and are sent and recorded again with the
eleventh: 21 outcomes for 11 messages, two of them for `m01`. -/
theorem TransferFrom_records_twice :
    (TransferFrom (sampleEnv neverStop remoteFirstFails) ⟨none⟩ State.init
        elevenMessages).outcomes.length = 21 ∧
    ((TransferFrom (sampleEnv neverStop remoteFirstFails) ⟨none⟩ State.init
        elevenMessages).outcomes.map Outcome.msgID).count "m01" = 2 ∧
    (elevenMessages.map Message.ID).Nodup ∧
    ∀ msg ∈ elevenMessages, isMessageDraft (sampleEnv neverStop remoteFirstFails) msg = false := by
  decide

/-! ### Cancellation -/

/-- The loop of `TransferFrom` breaks at a message whose stop check answers true. -/
theorem transferLoop_stop (env : Env) (rules : transferRules) (s : State) (msg : Message)
    (rest : List Message) (hstop : env.shouldStop s.stopQueries = true) :
    transferLoop env rules (msg :: rest) s = { s with stopQueries := s.stopQueries + 1 } := by
  simp [transferLoop, shouldStop, hstop]

/-- When the stop flag is set from the end of the loop over `pre` on, the loop over
`pre ++ rest` ends in the same state, up to the number of stop checks. -/
theorem transferLoop_append_stopped (env : Env) (rules : transferRules)
    (pre rest : List Message) (s : State)
    (hstop : ∀ k, (transferLoop env rules pre s).stopQueries ≤ k → env.shouldStop k = true) :
    ∃ n, transferLoop env rules (pre ++ rest) s =
      { transferLoop env rules pre s with
        stopQueries := (transferLoop env rules pre s).stopQueries + n } := by
  induction pre generalizing s with
  | nil =>
    cases rest with
    | nil => exact ⟨0, rfl⟩
    | cons m r =>
      refine ⟨1, ?_⟩
      have h0 : env.shouldStop s.stopQueries = true := hstop _ (Nat.le_refl _)
      simpa [transferLoop] using transferLoop_stop env rules s m r h0
  | cons m p ih =>
    cases hq : env.shouldStop s.stopQueries with
    | true =>
      refine ⟨0, ?_⟩
      simp [transferLoop, shouldStop, hq]
    | false =>
      have hunf : ∀ l, transferLoop env rules (m :: l) s =
          if (transferOne env rules { s with stopQueries := s.stopQueries + 1 } m).panicked
          then transferOne env rules { s with stopQueries := s.stopQueries + 1 } m
          else transferLoop env rules l
            (transferOne env rules { s with stopQueries := s.stopQueries + 1 } m) := by
        intro l
        simp [transferLoop, shouldStop, hq]
      rw [List.cons_append, hunf, hunf]
      rw [hunf] at hstop
      generalize transferOne env rules { s with stopQueries := s.stopQueries + 1 } m = x
        at hstop ⊢
      cases hp : x.panicked with
      | true => exact ⟨0, by simp⟩
      | false =>
        simp only [hp, Bool.false_eq_true, if_false] at hstop ⊢
        exact ih x hstop

/-- C7. A flush that finds the stop flag set is skipped entirely: `importMessages` returns
the state it was given (no remote call, no outcome, the pending batch unchanged; only the
stop check is counted).  In `TransferFrom`, a message whose stop check answers true ends
the loop with no transfer; and when the stop flag stays set from the end of the loop over
`pre` on, the run on `pre ++ rest` issues the remote calls, records the outcomes and leaves
the pending batch of the loop over `pre` alone: nothing of `rest` is transferred and the
final flush is skipped. -/
theorem stop_skips_flush_and_rest (env : Env) (rules : transferRules) (s : State)
    (hstop : env.shouldStop s.stopQueries = true) :
    importMessages env s = { s with stopQueries := s.stopQueries + 1 } ∧
    (∀ msg rest,
      transferLoop env rules (msg :: rest) s = { s with stopQueries := s.stopQueries + 1 }) ∧
    (∀ (s0 : State) (pre rest : List Message),
      transferLoop env rules pre { s0 with importMsgReqMap := [], importMsgReqSize := 0 } = s →
      (∀ k, s.stopQueries ≤ k → env.shouldStop k = true) →
      (TransferFrom env rules s0 (pre ++ rest)).calls = s.calls ∧
      (TransferFrom env rules s0 (pre ++ rest)).outcomes = s.outcomes ∧
      (TransferFrom env rules s0 (pre ++ rest)).captured = s.captured ∧
      (TransferFrom env rules s0 (pre ++ rest)).importMsgReqMap = s.importMsgReqMap ∧
      (TransferFrom env rules s0 (pre ++ rest)).importMsgReqSize = s.importMsgReqSize ∧
      (TransferFrom env rules s0 (pre ++ rest)).panicked = s.panicked) := by
  refine ⟨importMessages_stop env s hstop, fun msg rest => transferLoop_stop env rules s msg rest hstop,
    ?_⟩
  intro s0 pre rest hs hall
  obtain ⟨n, hn⟩ := transferLoop_append_stopped env rules pre rest
    { s0 with importMsgReqMap := [], importMsgReqSize := 0 } (by rw [hs]; exact hall)
  rw [hs] at hn
  have hflush : importMessages env { s with stopQueries := s.stopQueries + n }
      = { s with stopQueries := s.stopQueries + n + 1 } :=
    importMessages_stop env { s with stopQueries := s.stopQueries + n }
      (hall _ (Nat.le_add_right _ _))
  unfold TransferFrom
  simp only [hn, hflush]
  by_cases hp : s.panicked = true
  · simp [hp]
  · by_cases hm : s.importMsgReqMap.length > 0
    · simp [hp, hm]
    · simp [hp, hm]

/-- The scenario of C7: ten messages, the stop flag set after five of them were
accumulated.  The sixth stop check ends the loop and the final flush is skipped: no remote
call, no outcome, the five accumulated requests left in the pending batch, and none of the
messages 6 to 10 in it. -/
theorem stop_skips_flush_and_rest_witness :
    (TransferFrom (sampleEnv (stopAfter 5) remoteOk) ⟨none⟩ State.init
        (firstFive ++ lastFive)).calls = [] ∧
    (TransferFrom (sampleEnv (stopAfter 5) remoteOk) ⟨none⟩ State.init
        (firstFive ++ lastFive)).outcomes = [] ∧
    (TransferFrom (sampleEnv (stopAfter 5) remoteOk) ⟨none⟩ State.init
        (firstFive ++ lastFive)).importMsgReqMap.map Prod.fst
      = ["m01", "m02", "m03", "m04", "m05"] := by
  have hq : (transferLoop (sampleEnv (stopAfter 5) remoteOk) ⟨none⟩ firstFive
      { State.init with importMsgReqMap := [], importMsgReqSize := 0 }).stopQueries = 5 := by
    decide
  have h := (stop_skips_flush_and_rest (sampleEnv (stopAfter 5) remoteOk) ⟨none⟩
    (transferLoop (sampleEnv (stopAfter 5) remoteOk) ⟨none⟩ firstFive
      { State.init with importMsgReqMap := [], importMsgReqSize := 0 })
    (by rw [hq]; decide)).2.2 State.init firstFive lastFive rfl
    (by
      intro k hk
      rw [hq] at hk
      simp [sampleEnv, stopAfter, hk])
  rw [h.1, h.2.1, h.2.2.2.1]
  decide

/-! ### The pending batch along a run -/

/-- The loop over the bulk results never touches the pending batch, panic or not. -/
theorem importResults_frame (env : Env) (ids : List String) (reqs : List ImportMsgReq)
    (results : List ImportMsgRes) (index : Nat) (s : State) :
    (importResults env ids reqs results index s).importMsgReqMap = s.importMsgReqMap ∧
    (importResults env ids reqs results index s).importMsgReqSize = s.importMsgReqSize := by
  induction results generalizing index s with
  | nil => exact ⟨rfl, rfl⟩
  | cons res rest ih =>
    rw [importResults]
    cases hid : ids.get? index with
    | none => exact ⟨rfl, rfl⟩
    | some msgID =>
      cases hres : res.Error with
      | none =>
        simp only []
        have := ih (index + 1) (messageImported s msgID res.MessageID none)
        exact ⟨this.1, this.2⟩
      | some e =>
        cases hrq : reqs.get? index with
        | none => exact ⟨rfl, rfl⟩
        | some req =>
          simp only []
          have hm := importMessage_frame env s req
          have := ih (index + 1) (messageImported (importMessage env s req).2 msgID
            (importMessage env s req).1.1 (importMessage env s req).1.2)
          exact ⟨by rw [this.1]; exact hm.1, by rw [this.2]; exact hm.2.1⟩

/-- The attachment loop of a draft never touches the pending batch. -/
theorem importDraftAttachments_frame (env : Env) (draftID : String)
    (readers : List (List Nat)) (atts : List Attachment) (idx : Nat) (s : State) :
    (importDraftAttachments env draftID readers atts idx s).2.importMsgReqMap
      = s.importMsgReqMap ∧
    (importDraftAttachments env draftID readers atts idx s).2.importMsgReqSize
      = s.importMsgReqSize := by
  induction atts generalizing idx s with
  | nil => exact ⟨rfl, rfl⟩
  | cons a rest ih =>
    rw [importDraftAttachments]
    split
    · exact ⟨rfl, rfl⟩
    · split
      · exact ⟨rfl, rfl⟩
      · split
        · exact ⟨rfl, rfl⟩
        · split
          · rename_i err s1 heq
            have h2 := congrArg Prod.snd heq
            simp only [createAttachment] at h2
            rw [← h2]
            exact ⟨rfl, rfl⟩
          · rename_i r s1 heq
            have h2 := congrArg Prod.snd heq
            simp only [createAttachment] at h2
            have := ih (idx + 1) s1
            rw [← h2] at this ⊢
            exact this

/-- The method `importDraft` never touches the pending batch. -/
theorem importDraft_frame (env : Env) (s : State) (msg : Message) (g : Option Mailbox) :
    (importDraft env s msg g).2.importMsgReqMap = s.importMsgReqMap ∧
    (importDraft env s msg g).2.importMsgReqSize = s.importMsgReqSize := by
  cases g <;>
  · unfold importDraft
    split
    · exact ⟨rfl, rfl⟩
    · split
      · exact ⟨rfl, rfl⟩
      · dsimp only
        split
        · rename_i err s1 heq
          have h2 := congrArg Prod.snd heq
          simp only [createDraft] at h2
          rw [← h2]
          exact ⟨rfl, rfl⟩
        · rename_i draft s1 heq
          have h2 := congrArg Prod.snd heq
          simp only [createDraft] at h2
          have hs1 : s1.importMsgReqMap = s.importMsgReqMap ∧
              s1.importMsgReqSize = s.importMsgReqSize := by
            rw [← h2]
            exact ⟨rfl, rfl⟩
          split
          · rename_i e2 s2 heq2
            have h3 : _ = s2 := congrArg Prod.snd heq2
            rw [← h3]
            exact ⟨(importDraftAttachments_frame _ _ _ _ _ _).1.trans hs1.1,
              (importDraftAttachments_frame _ _ _ _ _ _).2.trans hs1.2⟩
          · rename_i s2 heq2
            have h3 : _ = s2 := congrArg Prod.snd heq2
            rw [← h3]
            exact ⟨(importDraftAttachments_frame _ _ _ _ _ _).1.trans hs1.1,
              (importDraftAttachments_frame _ _ _ _ _ _).2.trans hs1.2⟩

/-- The draft path never touches the pending batch. -/
theorem transferDraft_frame (env : Env) (rules : transferRules) (s : State) (msg : Message) :
    (transferDraft env rules s msg).importMsgReqMap = s.importMsgReqMap ∧
    (transferDraft env rules s msg).importMsgReqSize = s.importMsgReqSize := by
  have key := importDraft_frame env s msg rules.globalMailbox
  unfold transferDraft
  simp only []
  split
  · exact key
  · exact key

/-- What a flush leaves of the pending batch when the stop flag is not set and no import
call with at least one request fails as a whole: the batch is cleared, or the result loop
panicked and the batch is as before, or the batch was empty and is as before. -/
theorem importMessages_batch (env : Env) (s : State)
    (hstop : env.shouldStop s.stopQueries = false)
    (hremote : ∀ k reqs, reqs ≠ [] → wholeRequestFailed (env.importRequest k reqs) = false) :
    ((importMessages env s).importMsgReqMap = [] ∧ (importMessages env s).importMsgReqSize = 0) ∨
    ((importMessages env s).panicked = true ∧
      (importMessages env s).importMsgReqMap = s.importMsgReqMap ∧
      (importMessages env s).importMsgReqSize = s.importMsgReqSize) ∨
    (s.importMsgReqMap = [] ∧ (importMessages env s).importMsgReqMap = [] ∧
      (importMessages env s).importMsgReqSize = s.importMsgReqSize) := by
  cases hf : wholeRequestFailed (env.importRequest s.calls.length
      ((env.rangeOrder s.ranges s.importMsgReqMap).map Prod.snd)) with
  | true =>
    right; right
    have hreqs : (env.rangeOrder s.ranges s.importMsgReqMap).map Prod.snd = [] := by
      by_contra hne
      rw [hremote _ _ hne] at hf
      exact absurd hf (by simp)
    have hitems : env.rangeOrder s.ranges s.importMsgReqMap = [] := by
      simpa using hreqs
    have hmap : s.importMsgReqMap = [] := by
      have := (env.rangeOrder_perm s.ranges s.importMsgReqMap).length_eq
      rw [hitems] at this
      exact List.length_eq_zero.mp this.symm
    rw [importMessages_failed env s hstop hf]
    obtain ⟨h1, h2, _⟩ := importOneByOne_spec env
      (env.rangeOrder (s.ranges + 1) s.importMsgReqMap)
      { s with stopQueries := s.stopQueries + 1, ranges := s.ranges + 1 + 1,
               calls := s.calls ++ [Call.importRequest
                 ((env.rangeOrder s.ranges s.importMsgReqMap).map Prod.snd)] }
    exact ⟨hmap, by rw [h1]; exact hmap, by rw [h2]⟩
  | false =>
    rw [importMessages_passed env s hstop hf]
    have hfr := importResults_frame env
      ((env.rangeOrder s.ranges s.importMsgReqMap).map Prod.fst)
      ((env.rangeOrder s.ranges s.importMsgReqMap).map Prod.snd)
      (resultsOf (env.importRequest s.calls.length
        ((env.rangeOrder s.ranges s.importMsgReqMap).map Prod.snd))) 0
      { s with stopQueries := s.stopQueries + 1, ranges := s.ranges + 1,
               calls := s.calls ++ [Call.importRequest
                 ((env.rangeOrder s.ranges s.importMsgReqMap).map Prod.snd)] }
    generalize importResults env
      ((env.rangeOrder s.ranges s.importMsgReqMap).map Prod.fst)
      ((env.rangeOrder s.ranges s.importMsgReqMap).map Prod.snd)
      (resultsOf (env.importRequest s.calls.length
        ((env.rangeOrder s.ranges s.importMsgReqMap).map Prod.snd))) 0
      { s with stopQueries := s.stopQueries + 1, ranges := s.ranges + 1,
               calls := s.calls ++ [Call.importRequest
                 ((env.rangeOrder s.ranges s.importMsgReqMap).map Prod.snd)] } = x at hfr ⊢
    cases hp : x.panicked with
    | true =>
      right; left
      simp only [if_true]
      exact ⟨hp, hfr.1, hfr.2⟩
    | false =>
      left
      simp

/-- An invariant of the pending batch along a run without cancellation in which no import
call with at least one request fails as a whole: a property `P` of the map and the byte
counter that holds of the empty batch, is kept by an insertion made without a flush, and
holds after an insertion into an emptied batch, holds after every `transferOne`. -/
theorem transferOne_invariant (env : Env) (rules : transferRules)
    (P : List (String × ImportMsgReq) → Nat → Prop)
    (hstop : ∀ k, env.shouldStop k = false)
    (hremote : ∀ k reqs, reqs ≠ [] → wholeRequestFailed (env.importRequest k reqs) = false)
    (hkeep : ∀ m sz id (req : ImportMsgReq), P m sz →
      ¬ (sz + req.Body.length > pmapiImportBatchMaxSize ∨ m.length = pmapiImportBatchMaxItems) →
      P (mapInsert id req m) (sz + req.Body.length))
    (hfresh : ∀ sz id (req : ImportMsgReq), P [] sz →
      P (mapInsert id req []) (sz + req.Body.length))
    (s : State) (msg : Message)
    (hs : P s.importMsgReqMap s.importMsgReqSize ∧ P [] 0) :
    P (transferOne env rules s msg).importMsgReqMap (transferOne env rules s msg).importMsgReqSize
      ∧ P [] 0 := by
  refine ⟨?_, hs.2⟩
  unfold transferOne
  split
  · rw [(transferDraft_frame env rules s msg).1, (transferDraft_frame env rules s msg).2]
    exact hs.1
  · unfold transferMessage
    split
    · exact hs.1
    · rename_i req hreq
      dsimp only
      by_cases hflush : s.importMsgReqSize + req.Body.length > pmapiImportBatchMaxSize
          ∨ s.importMsgReqMap.length = pmapiImportBatchMaxItems
      · rw [if_pos hflush]
        rcases importMessages_batch env s (hstop _) hremote with ⟨h1, h2⟩ | ⟨h1, h2, h3⟩ |
          ⟨h0, h1, h2⟩
        · split
          · rw [h1, h2]; exact hs.2
          · dsimp only
            rw [h1, h2]
            exact hfresh 0 msg.ID req hs.2
        · rw [if_pos h1, h2, h3]
          exact hs.1
        · split
          · rw [h1, h2, ← h0]; exact hs.1
          · dsimp only
            rw [h1, h2]
            exact hfresh _ msg.ID req (h0 ▸ hs.1)
      · rw [if_neg hflush]
        split
        · exact hs.1
        · exact hkeep _ _ msg.ID req hs.1 hflush

/-- The invariant of `transferOne_invariant` holds after the loop of `TransferFrom` and
after `TransferFrom` itself. -/
theorem TransferFrom_invariant (env : Env) (rules : transferRules)
    (P : List (String × ImportMsgReq) → Nat → Prop)
    (hstop : ∀ k, env.shouldStop k = false)
    (hremote : ∀ k reqs, reqs ≠ [] → wholeRequestFailed (env.importRequest k reqs) = false)
    (h0 : P [] 0)
    (hkeep : ∀ m sz id (req : ImportMsgReq), P m sz →
      ¬ (sz + req.Body.length > pmapiImportBatchMaxSize ∨ m.length = pmapiImportBatchMaxItems) →
      P (mapInsert id req m) (sz + req.Body.length))
    (hfresh : ∀ sz id (req : ImportMsgReq), P [] sz →
      P (mapInsert id req []) (sz + req.Body.length))
    (s : State) (ch : List Message) :
    P (transferLoop env rules ch { s with importMsgReqMap := [], importMsgReqSize := 0 }).importMsgReqMap
      (transferLoop env rules ch
        { s with importMsgReqMap := [], importMsgReqSize := 0 }).importMsgReqSize ∧
    P (TransferFrom env rules s ch).importMsgReqMap
      (TransferFrom env rules s ch).importMsgReqSize := by
  have hloop : ∀ (l : List Message) (t : State), P t.importMsgReqMap t.importMsgReqSize →
      P (transferLoop env rules l t).importMsgReqMap
        (transferLoop env rules l t).importMsgReqSize := by
    intro l
    induction l with
    | nil => intro t ht; exact ht
    | cons m r ih =>
      intro t ht
      have hstep := (transferOne_invariant env rules P hstop hremote hkeep hfresh
        { t with stopQueries := t.stopQueries + 1 } m ⟨ht, h0⟩).1
      have hunf : transferLoop env rules (m :: r) t =
          if (transferOne env rules { t with stopQueries := t.stopQueries + 1 } m).panicked
          then transferOne env rules { t with stopQueries := t.stopQueries + 1 } m
          else transferLoop env rules r
            (transferOne env rules { t with stopQueries := t.stopQueries + 1 } m) := by
        simp [transferLoop, shouldStop, hstop]
      rw [hunf]
      split
      · exact hstep
      · exact ih _ hstep
  have h1 := hloop ch { s with importMsgReqMap := [], importMsgReqSize := 0 } h0
  refine ⟨h1, ?_⟩
  unfold TransferFrom
  dsimp only
  split
  · exact h1
  · split
    · rcases importMessages_batch env _ (hstop _) hremote with ⟨a, b⟩ | ⟨_, a, b⟩ | ⟨a0, a, b⟩
      · rw [a, b]; exact h0
      · rw [a, b]; exact h1
      · rw [a, b]
        have h2 := h1
        rw [a0] at h2
        exact h2
    · exact h1

/-- The length of a body of `size` bytes. -/
theorem length_bodyOfSize (size : Nat) : (bodyOfSize size).length = size := by
  simp [bodyOfSize]

/-- An insertion adds at most one entry to the map. -/
theorem mapInsert_length_le (k : String) (v : ImportMsgReq) (m : List (String × ImportMsgReq)) :
    (mapInsert k v m).length ≤ m.length + 1 := by
  induction m with
  | nil => simp [mapInsert]
  | cons hd tl ih =>
    obtain ⟨k1, v1⟩ := hd
    unfold mapInsert
    split
    · simp
    · simp only [List.length_cons]
      omega

/-- A map is not empty after an insertion. -/
theorem mapInsert_ne_nil (k : String) (v : ImportMsgReq) (m : List (String × ImportMsgReq)) :
    mapInsert k v m ≠ [] := by
  cases m with
  | nil => simp [mapInsert]
  | cons hd tl =>
    obtain ⟨k1, v1⟩ := hd
    unfold mapInsert
    split <;> simp

/-- Two messages of `n` bytes each that do not fit one batch together, the stop flag set
while the second is being prepared: the flush is skipped and the second request joins the
first. -/
theorem twoMessages_cancelled (n : Nat) (hn : n + n > pmapiImportBatchMaxSize)
    (h1 : n ≤ pmapiImportBatchMaxSize) :
    (TransferFrom (sampleEnv (stopAfter 2) remoteOk) ⟨none⟩ State.init
      [sampleMessage "m01" n, sampleMessage "m02" n]).importMsgReqSize = n + n ∧
    (TransferFrom (sampleEnv (stopAfter 2) remoteOk) ⟨none⟩ State.init
      [sampleMessage "m01" n, sampleMessage "m02" n]).importMsgReqMap.length = 2 := by
  simp [TransferFrom, transferLoop, transferOne, transferMessage, isMessageDraft,
    generateImportMsgReq, parseMessage, encryptMessage, sampleEnv, sampleMessage, samplePmapi,
    shouldStop, stopAfter, State.init, importMessages, mapInsert, length_bodyOfSize,
    pmapiImportBatchMaxItems, hn, not_lt.mpr h1]

/-- Two messages of `n` bytes each that do not fit one batch together, every remote call
failing as a whole: the flush imports the first one alone and keeps it in the batch, and
the second request joins it. -/
theorem twoMessages_remoteDown (n : Nat) (hn : n + n > pmapiImportBatchMaxSize)
    (h1 : n ≤ pmapiImportBatchMaxSize) :
    (TransferFrom (sampleEnv neverStop remoteDown) ⟨none⟩ State.init
      [sampleMessage "m01" n, sampleMessage "m02" n]).importMsgReqSize = n + n ∧
    (TransferFrom (sampleEnv neverStop remoteDown) ⟨none⟩ State.init
      [sampleMessage "m01" n, sampleMessage "m02" n]).importMsgReqMap.length = 2 := by
  simp [TransferFrom, transferLoop, transferOne, transferMessage, isMessageDraft,
    generateImportMsgReq, parseMessage, encryptMessage, sampleEnv, sampleMessage, samplePmapi,
    shouldStop, neverStop, remoteDown, State.init, importMessages, mapInsert, length_bodyOfSize,
    importRequest, wholeRequestFailed, importOneByOne, importMessage, callWrap,
    importMessageBody, messageImported,
    pmapiImportBatchMaxItems, hn, not_lt.mpr h1]

/-- C3, as stated, fails on the code in two ways.  By design: the stop flag set between the
stop check of the loop and the flush of a full batch makes the flush return at once, and
the eleventh request is inserted after the ten.  By the early return of the one-by-one
path: a bulk call that fails as a whole leaves the ten requests in the batch, and the
eleventh is inserted after them. -/
theorem pending_batch_exceeds_ten :
    ¬ ((TransferFrom (sampleEnv (stopAfter 11) remoteOk) ⟨none⟩ State.init
        elevenMessages).importMsgReqMap.length ≤ pmapiImportBatchMaxItems) ∧
    ¬ ((TransferFrom (sampleEnv neverStop remoteDown) ⟨none⟩ State.init
        elevenMessages).importMsgReqMap.length ≤ pmapiImportBatchMaxItems) := by
  decide

/-- C3 (amended). With cancellation never requested and no import call with at least one
request failing as a whole (call-level error or zero results), the pending batch holds at
most `pmapiImportBatchMaxItems` = 10 requests after the loop of `TransferFrom` over any
list of messages (hence after every message of a stream, in particular after every
insertion by `transferMessage`) and when `TransferFrom` returns. -/
theorem pending_batch_at_most_ten (env : Env) (rules : transferRules) (s : State)
    (ch : List Message)
    (hstop : ∀ k, env.shouldStop k = false)
    (hremote : ∀ k reqs, reqs ≠ [] → wholeRequestFailed (env.importRequest k reqs) = false) :
    (transferLoop env rules ch
        { s with importMsgReqMap := [], importMsgReqSize := 0 }).importMsgReqMap.length
      ≤ pmapiImportBatchMaxItems ∧
    (TransferFrom env rules s ch).importMsgReqMap.length ≤ pmapiImportBatchMaxItems := by
  apply TransferFrom_invariant env rules (fun m _ => m.length ≤ pmapiImportBatchMaxItems)
    hstop hremote
  · simp
  · intro m sz id req hm hno
    have := mapInsert_length_le id req m
    have h2 : m.length ≠ pmapiImportBatchMaxItems := fun h => hno (Or.inr h)
    show (mapInsert id req m).length ≤ pmapiImportBatchMaxItems
    have hm2 : m.length ≤ pmapiImportBatchMaxItems := hm
    omega
  · intro sz id req _
    simp [mapInsert, pmapiImportBatchMaxItems]

/-- A remote that imports every request never fails as a whole on a non-empty call. -/
theorem remoteOk_passes (k : Nat) (reqs : List ImportMsgReq) (h : reqs ≠ []) :
    wholeRequestFailed ((sampleEnv neverStop remoteOk).importRequest k reqs) = false := by
  cases reqs with
  | nil => exact absurd rfl h
  | cons r rs => rfl

/-- C3 (amended) on eleven messages with a remote that imports everything: the hypotheses
hold, and the batch holds one request after the loop and none at the end. -/
theorem pending_batch_at_most_ten_witness :
    (∀ k, (sampleEnv neverStop remoteOk).shouldStop k = false) ∧
    (∀ k reqs, reqs ≠ [] →
      wholeRequestFailed ((sampleEnv neverStop remoteOk).importRequest k reqs) = false) ∧
    (transferLoop (sampleEnv neverStop remoteOk) ⟨none⟩ elevenMessages
        { State.init with importMsgReqMap := [], importMsgReqSize := 0 }).importMsgReqMap.length
      ≤ pmapiImportBatchMaxItems ∧
    (TransferFrom (sampleEnv neverStop remoteOk) ⟨none⟩ State.init
        elevenMessages).importMsgReqMap.length ≤ pmapiImportBatchMaxItems :=
  ⟨fun _ => rfl, remoteOk_passes,
    pending_batch_at_most_ten (sampleEnv neverStop remoteOk) ⟨none⟩ State.init elevenMessages
      (fun _ => rfl) remoteOk_passes⟩

/-- C4, as stated, fails on the code in two ways, on two messages of 20 MB.  By design:
the stop flag set between the stop check of the loop and the flush makes the flush return
at once, and the second request is added to the first: 40 MB in a batch of two.  By the
early return of the one-by-one path: a bulk call that fails as a whole leaves the first
request in the batch, and the second is added to it: 40 MB in a batch of two. -/
theorem pending_size_exceeds_max :
    ¬ ((TransferFrom (sampleEnv (stopAfter 2) remoteOk) ⟨none⟩ State.init
          twoLarge).importMsgReqSize ≤ pmapiImportBatchMaxSize ∨
        ∃ id req, (TransferFrom (sampleEnv (stopAfter 2) remoteOk) ⟨none⟩ State.init
          twoLarge).importMsgReqMap = [(id, req)] ∧ pmapiImportBatchMaxSize < req.Body.length) ∧
    ¬ ((TransferFrom (sampleEnv neverStop remoteDown) ⟨none⟩ State.init
          twoLarge).importMsgReqSize ≤ pmapiImportBatchMaxSize ∨
        ∃ id req, (TransferFrom (sampleEnv neverStop remoteDown) ⟨none⟩ State.init
          twoLarge).importMsgReqMap = [(id, req)] ∧ pmapiImportBatchMaxSize < req.Body.length) := by
  have ha := twoMessages_cancelled 20000000 (by decide) (by decide)
  have hb := twoMessages_remoteDown 20000000 (by decide) (by decide)
  constructor
  · rintro (h | ⟨id, req, h, _⟩)
    · rw [twoLarge, ha.1] at h
      exact absurd h (by decide)
    · have := ha.2
      rw [twoLarge] at h
      rw [h] at this
      simp at this
  · rintro (h | ⟨id, req, h, _⟩)
    · rw [twoLarge, hb.1] at h
      exact absurd h (by decide)
    · have := hb.2
      rw [twoLarge] at h
      rw [h] at this
      simp at this

/-- C4 (amended). With cancellation never requested and no import call with at least one
request failing as a whole (call-level error or zero results), after the loop of
`TransferFrom` over any list of messages (hence after every message of a stream, in
particular after every flush decision and insertion by `transferMessage`) and when
`TransferFrom` returns, the byte counter is at most `pmapiImportBatchMaxSize` = 25,000,000,
unless the pending batch consists of exactly one request whose body is larger than that. -/
theorem pending_size_bounded (env : Env) (rules : transferRules) (s : State)
    (ch : List Message)
    (hstop : ∀ k, env.shouldStop k = false)
    (hremote : ∀ k reqs, reqs ≠ [] → wholeRequestFailed (env.importRequest k reqs) = false) :
    ((transferLoop env rules ch
          { s with importMsgReqMap := [], importMsgReqSize := 0 }).importMsgReqSize
        ≤ pmapiImportBatchMaxSize ∨
      ∃ id req, (transferLoop env rules ch
          { s with importMsgReqMap := [], importMsgReqSize := 0 }).importMsgReqMap = [(id, req)] ∧
        pmapiImportBatchMaxSize < req.Body.length) ∧
    ((TransferFrom env rules s ch).importMsgReqSize ≤ pmapiImportBatchMaxSize ∨
      ∃ id req, (TransferFrom env rules s ch).importMsgReqMap = [(id, req)] ∧
        pmapiImportBatchMaxSize < req.Body.length) := by
  have key := TransferFrom_invariant env rules
    (fun m sz => (m = [] → sz = 0) ∧
      (sz ≤ pmapiImportBatchMaxSize ∨
        ∃ id req, m = [(id, req)] ∧ pmapiImportBatchMaxSize < req.Body.length))
    hstop hremote
    ⟨fun _ => rfl, Or.inl (Nat.zero_le _)⟩
    (by
      intro m sz id req _ hno
      refine ⟨fun h => absurd h (mapInsert_ne_nil id req m), Or.inl ?_⟩
      have : ¬ (sz + req.Body.length > pmapiImportBatchMaxSize) := fun h => hno (Or.inl h)
      omega)
    (by
      intro sz id req hm
      refine ⟨fun h => absurd h (mapInsert_ne_nil id req []), ?_⟩
      have hz : sz = 0 := hm.1 rfl
      subst hz
      by_cases hle : req.Body.length ≤ pmapiImportBatchMaxSize
      · exact Or.inl (by omega)
      · exact Or.inr ⟨id, req, rfl, by omega⟩)
    s ch
  exact ⟨key.1.2, key.2.2⟩

/-- C4 (amended) on eleven messages with a remote that imports everything: the hypotheses
hold, and so does the bound after the loop and at the end. -/
theorem pending_size_bounded_witness :
    (∀ k, (sampleEnv neverStop remoteOk).shouldStop k = false) ∧
    (∀ k reqs, reqs ≠ [] →
      wholeRequestFailed ((sampleEnv neverStop remoteOk).importRequest k reqs) = false) ∧
    ((transferLoop (sampleEnv neverStop remoteOk) ⟨none⟩ elevenMessages
          { State.init with importMsgReqMap := [], importMsgReqSize := 0 }).importMsgReqSize
        ≤ pmapiImportBatchMaxSize ∨
      ∃ id req, (transferLoop (sampleEnv neverStop remoteOk) ⟨none⟩ elevenMessages
          { State.init with importMsgReqMap := [], importMsgReqSize := 0 }).importMsgReqMap
            = [(id, req)] ∧
        pmapiImportBatchMaxSize < req.Body.length) ∧
    ((TransferFrom (sampleEnv neverStop remoteOk) ⟨none⟩ State.init
          elevenMessages).importMsgReqSize ≤ pmapiImportBatchMaxSize ∨
      ∃ id req, (TransferFrom (sampleEnv neverStop remoteOk) ⟨none⟩ State.init
          elevenMessages).importMsgReqMap = [(id, req)] ∧
        pmapiImportBatchMaxSize < req.Body.length) :=
  ⟨fun _ => rfl, remoteOk_passes,
    pending_size_bounded (sampleEnv neverStop remoteOk) ⟨none⟩ State.init elevenMessages
      (fun _ => rfl) remoteOk_passes⟩

/-! ### The batches of a run in which everything is imported -/

/-- A flush of a non-empty batch with a remote that returns one successful result per
request: one bulk call, no retry, and the batch is cleared. -/
theorem importMessages_all_imported (env : Env) (s : State)
    (hstop : env.shouldStop s.stopQueries = false)
    (hremote : ∀ k reqs, ∃ results, env.importRequest k reqs = .ok results ∧
      results.length = reqs.length ∧ ∀ r ∈ results, r.Error = none)
    (hs : s.panicked = false) (hne : s.importMsgReqMap ≠ []) :
    (importMessages env s).calls = s.calls ++
      [Call.importRequest ((env.rangeOrder s.ranges s.importMsgReqMap).map Prod.snd)] ∧
    (importMessages env s).importMsgReqMap = [] ∧
    (importMessages env s).importMsgReqSize = 0 ∧
    (importMessages env s).panicked = false := by
  obtain ⟨results, hres, hlen, hok⟩ := hremote s.calls.length
    ((env.rangeOrder s.ranges s.importMsgReqMap).map Prod.snd)
  have hperm := (env.rangeOrder_perm s.ranges s.importMsgReqMap).length_eq
  have hpos : 0 < results.length := by
    rw [hlen, List.length_map, hperm]; exact List.length_pos.mpr hne
  have hpass : wholeRequestFailed (env.importRequest s.calls.length
      ((env.rangeOrder s.ranges s.importMsgReqMap).map Prod.snd)) = false := by
    rw [hres]
    cases results with
    | nil => simp at hpos
    | cons r rs => rfl
  obtain ⟨_, _, _, _, hp, hc, _⟩ :=
    importResults_spec env (env.rangeOrder s.ranges s.importMsgReqMap) results 0
      { s with stopQueries := s.stopQueries + 1, ranges := s.ranges + 1,
               calls := s.calls ++ [Call.importRequest
                 ((env.rangeOrder s.ranges s.importMsgReqMap).map Prod.snd)] }
      (by rw [hlen, List.length_map]; omega)
  have hnone : (((env.rangeOrder s.ranges s.importMsgReqMap).drop 0).zip results).filter
      (fun p => p.2.Error.isSome) = [] := by
    rw [List.filter_eq_nil_iff]
    intro p hp
    have := hok p.2 (List.of_mem_zip hp).2
    simp [this]
  rw [hnone] at hc
  rw [importMessages_passed env s hstop hpass, hres]
  simp only [resultsOf]
  have hp2 : (importResults env ((env.rangeOrder s.ranges s.importMsgReqMap).map Prod.fst)
      ((env.rangeOrder s.ranges s.importMsgReqMap).map Prod.snd) results 0
      { s with stopQueries := s.stopQueries + 1, ranges := s.ranges + 1,
               calls := s.calls ++ [Call.importRequest
                 ((env.rangeOrder s.ranges s.importMsgReqMap).map Prod.snd)] }).panicked
      = false := by
    rw [hp]; exact hs
  rw [hp2]
  simp only [Bool.false_eq_true, if_false]
  exact ⟨by rw [hc]; simp, trivial, trivial, trivial⟩

/-- An insertion under a key that the map does not hold appends the entry. -/
theorem mapInsert_fresh (k : String) (v : ImportMsgReq) (m : List (String × ImportMsgReq))
    (hk : k ∉ m.map Prod.fst) : mapInsert k v m = m ++ [(k, v)] := by
  induction m with
  | nil => rfl
  | cons hd tl ih =>
    obtain ⟨k1, v1⟩ := hd
    simp only [List.map_cons, List.mem_cons, not_or] at hk
    unfold mapInsert
    rw [if_neg (fun h => hk.1 h.symm), ih hk.2]
    rfl

/-- A prefix of a run that fits one batch fits one batch. -/
theorem fitsBatch_of_prefix (build : Message → ImportMsgReq) (p q : List Message)
    (hpq : p <+: q) (hq : fitsBatch (q.map build)) : fitsBatch (p.map build) := by
  obtain ⟨t, rfl⟩ := hpq
  unfold fitsBatch at hq ⊢
  simp only [List.map_append, List.length_append, List.sum_append, List.length_map] at hq ⊢
  exact ⟨by omega, by omega⟩

/-- The loop of `TransferFrom` at a message whose stop check answers false. -/
theorem transferLoop_cons (env : Env) (rules : transferRules) (msg : Message)
    (rest : List Message) (s : State) (hstop : env.shouldStop s.stopQueries = false) :
    transferLoop env rules (msg :: rest) s =
      if (transferOne env rules { s with stopQueries := s.stopQueries + 1 } msg).panicked
      then transferOne env rules { s with stopQueries := s.stopQueries + 1 } msg
      else transferLoop env rules rest
        (transferOne env rules { s with stopQueries := s.stopQueries + 1 } msg) := by
  simp [transferLoop, shouldStop, hstop]

/-- The method `transferMessage` when the request is built and no flush is due: the
request is inserted and counted. -/
theorem transferMessage_insert (env : Env) (rules : transferRules) (s : State) (msg : Message)
    (req : ImportMsgReq)
    (hreq : generateImportMsgReq env msg rules.globalMailbox = .ok req)
    (hno : ¬ (s.importMsgReqSize + req.Body.length > pmapiImportBatchMaxSize
      ∨ s.importMsgReqMap.length = pmapiImportBatchMaxItems))
    (hs : s.panicked = false) :
    transferMessage env rules s msg =
      { s with importMsgReqMap := mapInsert msg.ID req s.importMsgReqMap,
               importMsgReqSize := s.importMsgReqSize + req.Body.length } := by
  unfold transferMessage
  rw [hreq]
  simp only [if_neg hno, hs, Bool.false_eq_true, if_false]

/-- The method `transferMessage` when the request is built and a flush is due, with a
remote that returns one successful result per request: the batch is sent in one bulk call
and the request starts the next batch. -/
theorem transferMessage_flush (env : Env) (rules : transferRules) (s : State) (msg : Message)
    (req : ImportMsgReq)
    (hreq : generateImportMsgReq env msg rules.globalMailbox = .ok req)
    (hflush : s.importMsgReqSize + req.Body.length > pmapiImportBatchMaxSize
      ∨ s.importMsgReqMap.length = pmapiImportBatchMaxItems)
    (hstop : env.shouldStop s.stopQueries = false)
    (hremote : ∀ k reqs, ∃ results, env.importRequest k reqs = .ok results ∧
      results.length = reqs.length ∧ ∀ r ∈ results, r.Error = none)
    (hs : s.panicked = false) (hne : s.importMsgReqMap ≠ []) :
    (transferMessage env rules s msg).calls = s.calls ++
      [Call.importRequest ((env.rangeOrder s.ranges s.importMsgReqMap).map Prod.snd)] ∧
    (transferMessage env rules s msg).importMsgReqMap = [(msg.ID, req)] ∧
    (transferMessage env rules s msg).importMsgReqSize = req.Body.length ∧
    (transferMessage env rules s msg).panicked = false ∧
    (transferMessage env rules s msg).stopQueries = s.stopQueries + 1 := by
  obtain ⟨h1, h2, h3, h4⟩ := importMessages_all_imported env s hstop hremote hs hne
  have h5 : (importMessages env s).stopQueries = s.stopQueries + 1 := by
    obtain ⟨results, hres, hlen, hok⟩ := hremote s.calls.length
      ((env.rangeOrder s.ranges s.importMsgReqMap).map Prod.snd)
    have hperm := (env.rangeOrder_perm s.ranges s.importMsgReqMap).length_eq
    have hpass : wholeRequestFailed (env.importRequest s.calls.length
        ((env.rangeOrder s.ranges s.importMsgReqMap).map Prod.snd)) = false := by
      rw [hres]
      cases results with
      | nil =>
        simp only [List.length_nil, List.length_map] at hlen
        rw [hperm] at hlen
        exact absurd (List.length_eq_zero.mp hlen.symm) hne
      | cons r rs => rfl
    obtain ⟨_, _, hq, _⟩ :=
      importResults_spec env (env.rangeOrder s.ranges s.importMsgReqMap) results 0
        { s with stopQueries := s.stopQueries + 1, ranges := s.ranges + 1,
                 calls := s.calls ++ [Call.importRequest
                   ((env.rangeOrder s.ranges s.importMsgReqMap).map Prod.snd)] }
        (by rw [hlen, List.length_map]; omega)
    rw [importMessages_passed env s hstop hpass, hres]
    simp only [resultsOf]
    split
    · exact hq
    · exact hq
  unfold transferMessage
  rw [hreq]
  simp [if_pos hflush, h4, h1, h2, h3, h5, mapInsert]

/-- The batches of a run from a loop state that holds the pending run `P`: with no
cancellation and a remote that returns one successful result per request, the bulk calls
issued from there (the final flush included) are the batching of the spec of `P ++ rest`,
each call carrying the requests of its batch in the order of the `range` over the map. -/
theorem transferLoop_batches (env : Env) (rules : transferRules)
    (build : Message → ImportMsgReq)
    (hstop : ∀ k, env.shouldStop k = false)
    (hremote : ∀ k reqs, ∃ results, env.importRequest k reqs = .ok results ∧
      results.length = reqs.length ∧ ∀ r ∈ results, r.Error = none) :
    ∀ (rest P : List Message) (s : State),
      s.panicked = false →
      s.importMsgReqMap = P.map (fun m => (m.ID, build m)) →
      s.importMsgReqSize = ((P.map build).map (fun r => r.Body.length)).sum →
      fitsBatch (P.map build) →
      ((P ++ rest).map Message.ID).Nodup →
      (∀ m ∈ rest, isMessageDraft env m = false ∧
        generateImportMsgReq env m rules.globalMailbox = .ok (build m) ∧
        (build m).Body.length ≤ pmapiImportBatchMaxSize) →
      ∃ (bs : List (List Message)) (calls : List Call),
        (if (transferLoop env rules rest s).panicked then transferLoop env rules rest s
          else if (transferLoop env rules rest s).importMsgReqMap.length > 0
            then importMessages env (transferLoop env rules rest s)
          else transferLoop env rules rest s).calls = s.calls ++ calls ∧
        bs.flatten = P ++ rest ∧ GreedyBatches build bs ∧
        List.Forall₂ (fun call b => ∃ reqs, call = Call.importRequest reqs ∧
          reqs.Perm (b.map build)) calls bs := by
  intro rest
  induction rest with
  | nil =>
    intro P s hs hmap hsize hfit _ _
    simp only [transferLoop, hs, Bool.false_eq_true, if_false]
    by_cases hP : P = []
    · subst hP
      refine ⟨[], [], ?_, rfl, trivial, List.Forall₂.nil⟩
      simp [hmap]
    · have hne : s.importMsgReqMap ≠ [] := by
        rw [hmap]; simpa using hP
      have hlen : s.importMsgReqMap.length > 0 := List.length_pos.mpr hne
      obtain ⟨h1, _, _, _⟩ := importMessages_all_imported env s (hstop _) hremote hs hne
      refine ⟨[P], [Call.importRequest ((env.rangeOrder s.ranges s.importMsgReqMap).map Prod.snd)],
        ?_, by simp, ?_, ?_⟩
      · rw [if_pos hlen, h1]
      · refine ⟨hP, hfit, ?_, trivial⟩
        intro p hp _
        simpa using hp.length_le
      · refine List.Forall₂.cons ⟨_, rfl, ?_⟩ List.Forall₂.nil
        have := (env.rangeOrder_perm s.ranges s.importMsgReqMap).map Prod.snd
        rw [hmap] at this ⊢
        simpa [Function.comp_def] using this
  | cons m r ih =>
    intro P s hs hmap hsize hfit hnodup hall
    obtain ⟨hdraft, hreq, hbody⟩ := hall m (List.mem_cons_self _ _)
    have hall2 : ∀ x ∈ r, isMessageDraft env x = false ∧
        generateImportMsgReq env x rules.globalMailbox = .ok (build x) ∧
        (build x).Body.length ≤ pmapiImportBatchMaxSize :=
      fun x hx => hall x (List.mem_cons_of_mem _ hx)
    have hone : transferOne env rules { s with stopQueries := s.stopQueries + 1 } m
        = transferMessage env rules { s with stopQueries := s.stopQueries + 1 } m := by
      unfold transferOne
      rw [hdraft]
      simp
    rw [transferLoop_cons env rules m r s (hstop _), hone]
    by_cases hflush : s.importMsgReqSize + (build m).Body.length > pmapiImportBatchMaxSize
        ∨ s.importMsgReqMap.length = pmapiImportBatchMaxItems
    · -- the pending run is sent, and `m` starts the next one
      have hPne : P ≠ [] := by
        intro h
        subst h
        rw [hmap, hsize] at hflush
        simp [pmapiImportBatchMaxItems] at hflush
        omega
      have hne : s.importMsgReqMap ≠ [] := by
        rw [hmap]; simpa using hPne
      obtain ⟨c1, c2, c3, c4, _⟩ := transferMessage_flush env rules
        { s with stopQueries := s.stopQueries + 1 } m (build m) hreq hflush (hstop _) hremote hs hne
      rw [c4]
      simp only [Bool.false_eq_true, if_false]
      have hnodup2 : (([m] ++ r).map Message.ID).Nodup := by
        have : (([m] ++ r).map Message.ID).Sublist ((P ++ m :: r).map Message.ID) := by
          apply List.Sublist.map
          simp
        exact hnodup.sublist this
      obtain ⟨bs, calls, hcalls, hjoin, hgreedy, hforall⟩ :=
        ih [m] (transferMessage env rules { s with stopQueries := s.stopQueries + 1 } m)
          c4 (by rw [c2]; rfl) (by rw [c3]; simp)
          ⟨by simp [pmapiImportBatchMaxItems], by simpa using hbody⟩ hnodup2 hall2
      refine ⟨P :: bs,
        Call.importRequest ((env.rangeOrder s.ranges s.importMsgReqMap).map Prod.snd) :: calls,
        ?_, ?_, ?_, ?_⟩
      · rw [hcalls, c1]; simp
      · simp [hjoin]
      · refine ⟨hPne, hfit, ?_, hgreedy⟩
        intro p hp hpfit
        rw [hjoin] at hp
        by_contra hlt
        have hle : (P ++ [m]).length ≤ p.length := by
          simp only [List.length_append, List.length_singleton]
          omega
        have hpre0 : P ++ [m] <+: P ++ ([m] ++ r) := by
          rw [← List.append_assoc]
          exact List.prefix_append _ _
        have hpre : P ++ [m] <+: p := List.prefix_of_prefix_length_le hpre0 hp hle
        have hbad := fitsBatch_of_prefix build _ _ hpre hpfit
        unfold fitsBatch at hbad
        rw [hmap, hsize] at hflush
        simp only [List.map_append, List.length_append, List.sum_append, List.length_map,
          List.map_cons, List.map_nil, List.length_singleton, List.sum_cons, List.sum_nil]
          at hbad hflush
        omega
      · refine List.Forall₂.cons ⟨_, rfl, ?_⟩ hforall
        have := (env.rangeOrder_perm s.ranges s.importMsgReqMap).map Prod.snd
        rw [hmap] at this ⊢
        simpa [Function.comp_def] using this
    · -- `m` joins the pending run
      have hfresh : m.ID ∉ s.importMsgReqMap.map Prod.fst := by
        rw [hmap]
        simp only [List.map_map]
        have h1 : ((P ++ m :: r).map Message.ID) = P.map Message.ID ++ m.ID :: r.map Message.ID := by
          simp
        rw [h1] at hnodup
        have := (List.nodup_append.mp hnodup).2.2
        intro hmem
        have hmem2 : m.ID ∈ P.map Message.ID := by
          simpa [Function.comp_def] using hmem
        exact this hmem2 (List.mem_cons_self _ _)
      have hins := transferMessage_insert env rules
        { s with stopQueries := s.stopQueries + 1 } m (build m) hreq hflush hs
      rw [hins]
      have hfit2 : fitsBatch ((P ++ [m]).map build) := by
        unfold fitsBatch at hfit ⊢
        rw [hmap, hsize] at hflush
        simp only [List.map_append, List.length_append, List.sum_append, List.length_map,
          List.map_cons, List.map_nil, List.length_singleton, List.sum_cons, List.sum_nil]
          at hfit hflush ⊢
        omega
      obtain ⟨bs, calls, hcalls, hjoin, hgreedy, hforall⟩ :=
        ih (P ++ [m])
          { s with stopQueries := s.stopQueries + 1,
                   importMsgReqMap := mapInsert m.ID (build m) s.importMsgReqMap,
                   importMsgReqSize := s.importMsgReqSize + (build m).Body.length }
          hs (by
            show mapInsert m.ID (build m) s.importMsgReqMap = _
            rw [mapInsert_fresh _ _ _ hfresh, hmap]
            simp)
          (by
            show s.importMsgReqSize + (build m).Body.length = _
            rw [hsize]
            simp)
          hfit2 (by simpa using hnodup) hall2
      refine ⟨bs, calls, ?_, by simpa using hjoin, hgreedy, hforall⟩
      rw [← hcalls]
      split
      · rename_i hp
        exact absurd (hs ▸ hp : false = true) (by simp)
      · rfl

/-- C8. For a stream of non-draft messages with pairwise distinct IDs whose requests
`build msg` all build and have a body of at most `pmapiImportBatchMaxSize` bytes, with
cancellation never requested and a remote that returns one successful result per request,
the remote calls issued by `TransferFrom` (on a provider that has not panicked) are bulk
calls, one per batch of the batching of the spec: the batches are consecutive runs of the
stream in stream order (`bs.flatten = ch`), each the longest run of the remaining messages
with at most 10 items and at most 25,000,000 bytes, and each call carries exactly the
requests of its batch (in the order in which `range` visits the map). -/
theorem bulk_calls_are_greedy_batches (env : Env) (rules : transferRules)
    (build : Message → ImportMsgReq) (s : State) (ch : List Message)
    (hs : s.panicked = false)
    (hdraft : ∀ m ∈ ch, isMessageDraft env m = false)
    (hids : (ch.map Message.ID).Nodup)
    (hbuild : ∀ m ∈ ch, generateImportMsgReq env m rules.globalMailbox = .ok (build m))
    (hsize : ∀ m ∈ ch, (build m).Body.length ≤ pmapiImportBatchMaxSize)
    (hstop : ∀ k, env.shouldStop k = false)
    (hremote : ∀ k reqs, ∃ results, env.importRequest k reqs = .ok results ∧
      results.length = reqs.length ∧ ∀ r ∈ results, r.Error = none) :
    ∃ (bs : List (List Message)) (calls : List Call),
      (TransferFrom env rules s ch).calls = s.calls ++ calls ∧
      bs.flatten = ch ∧ GreedyBatches build bs ∧
      List.Forall₂ (fun call b => ∃ reqs, call = Call.importRequest reqs ∧
        reqs.Perm (b.map build)) calls bs := by
  have key := transferLoop_batches env rules build hstop hremote ch []
    { s with importMsgReqMap := [], importMsgReqSize := 0 } hs rfl rfl
    ⟨by simp [pmapiImportBatchMaxItems], by simp⟩ (by simpa using hids)
    (fun m hm => ⟨hdraft m hm, hbuild m hm, hsize m hm⟩)
  simpa [TransferFrom] using key

/-- The example environment builds `sampleBuild msg` for every message. -/
theorem sampleEnv_builds (stop : Nat → Bool)
    (remote : Nat → List ImportMsgReq → Except String (List ImportMsgRes)) (msg : Message) :
    generateImportMsgReq (sampleEnv stop remote) msg none = .ok (sampleBuild msg) := by
  simp [generateImportMsgReq, parseMessage, encryptMessage, sampleEnv, sampleBuild, samplePmapi]

/-- The remote `remoteOk` returns one successful result per request. -/
theorem remoteOk_results (stop : Nat → Bool) (k : Nat) (reqs : List ImportMsgReq) :
    ∃ results, (sampleEnv stop remoteOk).importRequest k reqs = .ok results ∧
      results.length = reqs.length ∧ ∀ r ∈ results, r.Error = none := by
  refine ⟨reqs.map (fun _ => { Error := none, MessageID := "remote" }), rfl, by simp, ?_⟩
  intro r hr
  simp only [List.mem_map] at hr
  obtain ⟨_, _, rfl⟩ := hr
  rfl

/-- Three messages of `n` bytes each, no two of which fit one batch together, with a remote
that imports everything: three bulk calls of one request each. -/
theorem threeMessages_alone (n : Nat) (hn : n + n > pmapiImportBatchMaxSize)
    (h1 : n ≤ pmapiImportBatchMaxSize) :
    bulkSizes (TransferFrom (sampleEnv neverStop remoteOk) ⟨none⟩ State.init
      [sampleMessage "m01" n, sampleMessage "m02" n, sampleMessage "m03" n]).calls
      = [1, 1, 1] := by
  simp [TransferFrom, transferLoop, transferOne, transferMessage, isMessageDraft,
    generateImportMsgReq, parseMessage, encryptMessage, sampleEnv, sampleMessage, samplePmapi,
    shouldStop, neverStop, remoteOk, State.init, importMessages, mapInsert, length_bodyOfSize,
    importRequest, wholeRequestFailed, resultsOf, importResults, messageImported, bulkSizes,
    pmapiImportBatchMaxItems, hn, not_lt.mpr h1]

set_option maxRecDepth 20000

/-- The scenarios of C8.  Twelve messages of 1 KB satisfy the hypotheses and are sent in
two bulk calls of 10 and 2 requests; three messages of 20 MB are sent in three bulk calls
of one request each. -/
theorem bulk_calls_are_greedy_batches_witness :
    (∃ (bs : List (List Message)) (calls : List Call),
      (TransferFrom (sampleEnv neverStop remoteOk) ⟨none⟩ State.init twelveMessages).calls
        = State.init.calls ++ calls ∧
      bs.flatten = twelveMessages ∧ GreedyBatches sampleBuild bs ∧
      List.Forall₂ (fun call b => ∃ reqs, call = Call.importRequest reqs ∧
        reqs.Perm (b.map sampleBuild)) calls bs) ∧
    bulkSizes (TransferFrom (sampleEnv neverStop remoteOk) ⟨none⟩ State.init
      twelveMessages).calls = [10, 2] ∧
    bulkSizes (TransferFrom (sampleEnv neverStop remoteOk) ⟨none⟩ State.init
      threeLarge).calls = [1, 1, 1] := by
  refine ⟨?_, by decide, threeMessages_alone 20000000 (by decide) (by decide)⟩
  apply bulk_calls_are_greedy_batches (sampleEnv neverStop remoteOk) ⟨none⟩ sampleBuild
    State.init twelveMessages rfl (by decide) (by decide)
    (fun m _ => sampleEnv_builds neverStop remoteOk m)
  · intro m hm
    simp only [twelveMessages, List.mem_cons, List.mem_singleton, List.not_mem_nil, or_false]
      at hm
    rcases hm with h | h | h | h | h | h | h | h | h | h | h | h <;>
      · subst h
        simp [sampleBuild, sampleMessage, length_bodyOfSize, pmapiImportBatchMaxSize]
  · intro k; rfl
  · exact remoteOk_results neverStop

/-! ### Classification and flags -/

/-- C20. `isMessageDraft` answers true exactly when one of the targets of the message has
the ID of the drafts label; it answers false for a message without targets. -/
theorem isMessageDraft_iff (env : Env) (msg : Message) :
    (isMessageDraft env msg = true ↔
      ∃ target ∈ msg.Targets, target.ID = env.pmapi.DraftLabel) ∧
    isMessageDraft env { msg with Targets := [] } = false := by
  simp [isMessageDraft]

/-- C11, as stated, fails on the code: for the sent label together with the inbox label,
or together with the archive label, the result is `FlagSent ||| FlagReceived` = 3 and not
`FlagSent` = 2. -/
theorem computeMessageFlags_not_precedence :
    (samplePmapi.SentLabel ∈ ["7", "0"] ∧
      computeMessageFlags samplePmapi ["7", "0"] ≠ samplePmapi.FlagSent) ∧
    (samplePmapi.SentLabel ∈ ["6", "7"] ∧
      computeMessageFlags samplePmapi ["6", "7"] ≠ samplePmapi.FlagSent) := by
  decide

/-- C11 (amended). `computeMessageFlags` combines the bits by bitwise OR: for every list of
label IDs that contains `SentLabel`, the result is exactly `FlagSent` when the list
contains neither `InboxLabel` nor `ArchiveLabel`, and `FlagSent ||| FlagReceived` when it
contains one of them as well (label constants with `SentLabel` distinct from the other
two, `FlagSent` non-zero). -/
theorem computeMessageFlags_sent (c : Pmapi) (labels : List String)
    (hA : c.SentLabel ≠ c.ArchiveLabel) (hI : c.SentLabel ≠ c.InboxLabel)
    (hS : c.FlagSent ≠ 0) (hsent : c.SentLabel ∈ labels) :
    computeMessageFlags c labels =
      if c.ArchiveLabel ∈ labels ∨ c.InboxLabel ∈ labels then c.FlagSent ||| c.FlagReceived
      else c.FlagSent := by
  have key := computeMessageFlags_foldl c labels 0 hA hI
  rw [Nat.zero_or, if_pos hsent] at key
  unfold computeMessageFlags
  simp only []
  rw [key]
  by_cases hr : c.ArchiveLabel ∈ labels ∨ c.InboxLabel ∈ labels
  · simp [hr, lor_eq_zero_iff, hS]
  · simp [hr, hS]

/-- C11 (amended) at the identifiers `"0"`, `"6"`, `"7"` and the bits 1, 2: the sent label
alone or with a custom label gives 2, with the inbox label it gives 3. -/
theorem computeMessageFlags_sent_witness :
    (samplePmapi.SentLabel ≠ samplePmapi.ArchiveLabel ∧
      samplePmapi.SentLabel ≠ samplePmapi.InboxLabel ∧ samplePmapi.FlagSent ≠ 0 ∧
      samplePmapi.SentLabel ∈ ["7", "0"] ∧ samplePmapi.SentLabel ∈ ["custom", "7"]) ∧
    computeMessageFlags samplePmapi ["7", "0"] = 3 ∧
    computeMessageFlags samplePmapi ["custom", "7"] = 2 := by
  have h1 := computeMessageFlags_sent samplePmapi ["7", "0"]
    (by decide) (by decide) (by decide) (by decide)
  have h2 := computeMessageFlags_sent samplePmapi ["custom", "7"]
    (by decide) (by decide) (by decide) (by decide)
  refine ⟨by decide, ?_, ?_⟩
  · rw [h1]; decide
  · rw [h2]; decide

/-! ### The labels of an import request -/

/-- The label IDs of a request that `generateImportMsgReq` builds: the IDs of the targets
other than the all-mail label, in their order, followed by the ID of the global mailbox
when there is one. -/
theorem generateImportMsgReq_ok (env : Env) (msg : Message) (g : Option Mailbox)
    (req : ImportMsgReq) (h : generateImportMsgReq env msg g = .ok req) :
    req.LabelIDs =
      (msg.Targets.filter (fun target => target.ID ≠ env.pmapi.AllMailLabel)).map
          (fun target => target.ID) ++
        (match g with
          | some m => [m.ID]
          | none => []) := by
  unfold generateImportMsgReq at h
  split at h
  · exact absurd h (by simp)
  · split at h
    · exact absurd h (by simp)
    · simp only [Except.ok.injEq] at h
      have hl := congrArg ImportMsgReq.LabelIDs h
      rw [← hl]
      cases g <;> simp

/-- C12. The code at the failing input: for a message bound for the archive and a global
mailbox that carries the ID of the all-mail label, `generateImportMsgReq` builds a request
whose label IDs are the archive and the all-mail label.  The targets are filtered, the
global mailbox is appended as it is. -/
theorem generateImportMsgReq_keeps_allMail_global :
    ∃ req, generateImportMsgReq (sampleEnv neverStop remoteOk) (sampleMessage "m01" 3)
        (some allMailMailbox) = .ok req ∧
      req.LabelIDs = ["6", "5"] ∧
      (sampleEnv neverStop remoteOk).pmapi.AllMailLabel ∈ req.LabelIDs :=
  ⟨{ AddressID := "addr", Body := bodyOfSize 3, Unread := 0, Time := 0,
     Flags := computeMessageFlags samplePmapi ["6", "5"], LabelIDs := ["6", "5"] },
    by rfl, by rfl, by decide⟩

/-- C13, as stated, fails on the code: for a message one of whose targets is the global
mailbox, the ID of the global mailbox occurs twice in the label IDs of the request (once
for the target, once appended). -/
theorem generateImportMsgReq_global_twice :
    ∃ req, generateImportMsgReq (sampleEnv neverStop remoteOk) labelledMessage
        (some customMailbox) = .ok req ∧
      req.LabelIDs = ["6", "lbl", "lbl"] ∧
      req.LabelIDs.count customMailbox.ID = 2 :=
  ⟨labelledReq ["6", "lbl", "lbl"], by rfl, by rfl, by decide⟩

/-- C13 (amended). For every message and every configured global mailbox, the ID of the
global mailbox is appended exactly once, as the last label ID of the request built by
`generateImportMsgReq`, after the IDs of the targets other than the all-mail label; it
occurs once more than among those target IDs, hence exactly once when no such target
carries it.  When no global mailbox is configured, the label IDs are exactly the target IDs
without the all-mail label. -/
theorem generateImportMsgReq_global_appended (env : Env) (msg : Message)
    (g : Option Mailbox) (req : ImportMsgReq)
    (h : generateImportMsgReq env msg g = .ok req) :
    (∀ m, g = some m →
      req.LabelIDs =
        (msg.Targets.filter (fun target => target.ID ≠ env.pmapi.AllMailLabel)).map
          (fun target => target.ID) ++ [m.ID] ∧
      req.LabelIDs.count m.ID =
        ((msg.Targets.filter (fun target => target.ID ≠ env.pmapi.AllMailLabel)).map
          (fun target => target.ID)).count m.ID + 1 ∧
      (m.ID ∉ (msg.Targets.filter (fun target => target.ID ≠ env.pmapi.AllMailLabel)).map
          (fun target => target.ID) → req.LabelIDs.count m.ID = 1)) ∧
    (g = none →
      req.LabelIDs =
        (msg.Targets.filter (fun target => target.ID ≠ env.pmapi.AllMailLabel)).map
          (fun target => target.ID)) := by
  have key := generateImportMsgReq_ok env msg g req h
  constructor
  · intro m hm
    subst hm
    simp only [] at key
    refine ⟨key, ?_, ?_⟩
    · rw [key, List.count_append]
      simp
    · intro hnot
      rw [key, List.count_append, List.count_eq_zero_of_not_mem hnot]
      simp
  · intro hg
    subst hg
    simpa using key

/-- C13 (amended) on a message bound for the archive, the all-mail label and a custom
label: with the custom mailbox as global mailbox the label IDs are the archive, the custom
label and the custom label again; with an `imports` global mailbox its ID comes once, at
the end; without global mailbox the label IDs are the archive and the custom label. -/
theorem generateImportMsgReq_global_appended_witness :
    (∃ req, generateImportMsgReq (sampleEnv neverStop remoteOk) labelledMessage
        (some { customMailbox with ID := "imports" }) = .ok req ∧
      req.LabelIDs = ["6", "lbl", "imports"] ∧ req.LabelIDs.count "imports" = 1) ∧
    (∃ req, generateImportMsgReq (sampleEnv neverStop remoteOk) labelledMessage none = .ok req ∧
      req.LabelIDs = ["6", "lbl"]) := by
  constructor
  · refine ⟨labelledReq ["6", "lbl", "imports"], by rfl, by rfl, ?_⟩
    exact ((generateImportMsgReq_global_appended (sampleEnv neverStop remoteOk) labelledMessage
      (some { customMailbox with ID := "imports" }) (labelledReq ["6", "lbl", "imports"])
      (by rfl)).1 _ rfl).2.2 (by decide)
  · refine ⟨labelledReq ["6", "lbl"], by rfl, ?_⟩
    exact ((generateImportMsgReq_global_appended (sampleEnv neverStop remoteOk) labelledMessage
      none (labelledReq ["6", "lbl"]) (by rfl)).2 rfl).trans (by decide)

/-! ### Mailbox creation -/

/-- C14. For a mailbox whose ID is not empty, `CreateMailbox` returns the empty `Mailbox`
value with an error and leaves the state as it was: no remote call is issued.  For a
mailbox whose ID is empty it issues exactly one remote call, a `CreateLabel`. -/
theorem CreateMailbox_guard (env : Env) (s : State) (mailbox : Mailbox) :
    (mailbox.ID ≠ "" →
      CreateMailbox env s mailbox
        = (({ ID := "", Name := "", Color := "", IsExclusive := false },
            some "mailbox is already created"), s)) ∧
    (mailbox.ID = "" →
      ∃ label, (CreateMailbox env s mailbox).2.calls = s.calls ++ [Call.createLabel label]) := by
  constructor
  · intro h
    simp [CreateMailbox, h]
  · intro h
    refine ⟨{ ID := "", Name := mailbox.Name, Color := mailbox.Color,
              Exclusive := if mailbox.IsExclusive then 1 else 0,
              Type_ := env.pmapi.LabelTypeMailbox }, ?_⟩
    unfold CreateMailbox createLabel
    rw [if_neg (by simp [h])]
    dsimp only
    split <;> rename_i heq <;> simp only [Prod.mk.injEq] at heq <;> rw [← heq.2]

/-- The scenarios of C14: a mailbox with an ID is refused without a remote call, a mailbox
without ID gives one `CreateLabel` call. -/
theorem CreateMailbox_guard_witness :
    (customMailbox.ID ≠ "" ∧
      CreateMailbox (sampleEnv neverStop remoteOk) State.init customMailbox
        = (({ ID := "", Name := "", Color := "", IsExclusive := false },
            some "mailbox is already created"), State.init)) ∧
    (newMailbox.ID = "" ∧
      ∃ label, (CreateMailbox (sampleEnv neverStop remoteOk) State.init newMailbox).2.calls
        = State.init.calls ++ [Call.createLabel label]) :=
  ⟨⟨by decide,
      (CreateMailbox_guard (sampleEnv neverStop remoteOk) State.init customMailbox).1 (by decide)⟩,
    ⟨rfl, (CreateMailbox_guard (sampleEnv neverStop remoteOk) State.init newMailbox).2 rfl⟩⟩

/-- C15. For a mailbox whose ID is empty, `CreateMailbox` sends to the remote one label
with the name and the colour of the mailbox, `Exclusive` 1 when the mailbox is exclusive
and 0 otherwise, and the mailbox label type.  When the remote call succeeds it returns no
error and the input mailbox with the ID of the created label, every other field as given.
When the remote call fails it returns the empty `Mailbox` value with an error. -/
theorem CreateMailbox_result (env : Env) (s : State) (mailbox : Mailbox)
    (hid : mailbox.ID = "") :
    (CreateMailbox env s mailbox).2.calls = s.calls ++
      [Call.createLabel { ID := "", Name := mailbox.Name, Color := mailbox.Color,
                          Exclusive := if mailbox.IsExclusive then 1 else 0,
                          Type_ := env.pmapi.LabelTypeMailbox }] ∧
    (∀ created, env.createLabel s.calls.length
        { ID := "", Name := mailbox.Name, Color := mailbox.Color,
          Exclusive := if mailbox.IsExclusive then 1 else 0,
          Type_ := env.pmapi.LabelTypeMailbox } = .ok created →
      (CreateMailbox env s mailbox).1
        = ({ ID := created.ID, Name := mailbox.Name, Color := mailbox.Color,
             IsExclusive := mailbox.IsExclusive }, none)) ∧
    (∀ err, env.createLabel s.calls.length
        { ID := "", Name := mailbox.Name, Color := mailbox.Color,
          Exclusive := if mailbox.IsExclusive then 1 else 0,
          Type_ := env.pmapi.LabelTypeMailbox } = .error err →
      (CreateMailbox env s mailbox).1
        = ({ ID := "", Name := "", Color := "", IsExclusive := false },
           some (wrapErr err ("failed to create mailbox " ++ mailbox.Name)))) := by
  unfold CreateMailbox createLabel
  rw [if_neg (by simp [hid])]
  dsimp only
  cases hc : env.createLabel s.calls.length
      { ID := "", Name := mailbox.Name, Color := mailbox.Color,
        Exclusive := if mailbox.IsExclusive then 1 else 0,
        Type_ := env.pmapi.LabelTypeMailbox } with
  | error e => simp
  | ok created => simp

/-- The scenarios of C15: with a remote that creates the label, the new mailbox comes back
with the ID of the label and its own name, colour and exclusivity, and the label sent is
exclusive; with a remote that refuses, the empty mailbox comes back with the error. -/
theorem CreateMailbox_result_witness :
    (CreateMailbox (sampleEnv neverStop remoteOk) State.init
        { newMailbox with Name := "Imported" }).2.calls
      = [Call.createLabel { ID := "", Name := "Imported", Color := "#7272a7", Exclusive := 1,
                            Type_ := 1 }] ∧
    (CreateMailbox { sampleEnv neverStop remoteOk with
        createLabel := fun _ l => .ok { l with ID := "label-1" } } State.init newMailbox).1
      = ({ ID := "label-1", Name := "Imported", Color := "#7272a7", IsExclusive := true }, none) ∧
    (CreateMailbox noLabelEnv State.init newMailbox).1
      = ({ ID := "", Name := "", Color := "", IsExclusive := false },
         some "failed to create mailbox Imported: name taken") := by
  refine ⟨?_, ?_, ?_⟩
  · exact (CreateMailbox_result (sampleEnv neverStop remoteOk) State.init
      { newMailbox with Name := "Imported" } rfl).1
  · exact (CreateMailbox_result { sampleEnv neverStop remoteOk with
      createLabel := fun _ l => .ok { l with ID := "label-1" } } State.init newMailbox rfl).2.1
      _ rfl
  · exact ((CreateMailbox_result noLabelEnv State.init newMailbox rfl).2.2 "name taken"
      rfl).trans (by decide)

/-! ### Failures of the parser and of the request builder -/

/-- C16. When the parser panics on the body of a message, `parseMessage` returns an error
that carries the panic value, `panic while parse: ` followed by the value; the result is
the same whatever the crash report answers. -/
theorem parseMessage_recovers (env : Env) (msg : Message) (value : String)
    (hpanic : env.parse msg.Body = .panics value) :
    parseMessage env msg = .error ("panic while parse: " ++ value) ∧
    ∀ report : String → Option String,
      parseMessage { env with reportSentryCrash := report } msg
        = .error ("panic while parse: " ++ value) := by
  constructor
  · unfold parseMessage
    rw [hpanic]
    dsimp only
    split <;> rfl
  · intro report
    unfold parseMessage
    simp only [hpanic]
    split <;> rfl

/-- The scenarios of C16: a parser that panics with `index out of range`, with a crash
report that succeeds and with one that fails. -/
theorem parseMessage_recovers_witness :
    parseMessage (panicEnv (fun _ => none)) (sampleMessage "m01" 3)
      = .error "panic while parse: index out of range" ∧
    parseMessage (panicEnv (fun _ => some "sentry unreachable")) (sampleMessage "m01" 3)
      = .error "panic while parse: index out of range" := by
  have h1 := (parseMessage_recovers (panicEnv (fun _ => none)) (sampleMessage "m01" 3)
    "index out of range" rfl).1
  have h2 := (parseMessage_recovers (panicEnv (fun _ => some "sentry unreachable"))
    (sampleMessage "m01" 3) "index out of range" rfl).1
  exact ⟨h1.trans (congrArg Except.error (by decide)),
    h2.trans (congrArg Except.error (by decide))⟩

/-- C17. For a non-draft message whose import request cannot be built, because parsing
fails or because encryption fails, `transferMessage` only records one failure outcome for
the message, with an empty remote ID and the error of the builder: no remote call is
issued and the pending batch is as it was.  The loop of `TransferFrom` then goes on with
the following messages. -/
theorem transferMessage_build_failure (env : Env) (rules : transferRules) (s : State)
    (msg : Message)
    (hfail : (∃ e, parseMessage env msg = .error e) ∨
      (∃ pm readers e, parseMessage env msg = .ok (pm, readers) ∧
        encryptMessage env pm readers = .error e)) :
    ∃ err, generateImportMsgReq env msg rules.globalMailbox = .error err ∧
      transferMessage env rules s msg
        = { s with outcomes := s.outcomes ++ [⟨msg.ID, "", some err⟩] } ∧
      (isMessageDraft env msg = false → env.shouldStop s.stopQueries = false →
        s.panicked = false →
        ∀ rest, transferLoop env rules (msg :: rest) s
          = transferLoop env rules rest
              { s with stopQueries := s.stopQueries + 1,
                       outcomes := s.outcomes ++ [⟨msg.ID, "", some err⟩] }) := by
  have hgen : ∃ err, generateImportMsgReq env msg rules.globalMailbox = .error err := by
    rcases hfail with ⟨e, he⟩ | ⟨pm, readers, e, hp, he⟩
    · exact ⟨wrapErr e "failed to parse message", by simp [generateImportMsgReq, he]⟩
    · exact ⟨wrapErr e "failed to encrypt message", by simp [generateImportMsgReq, hp, he]⟩
  obtain ⟨err, herr⟩ := hgen
  have hone : ∀ t : State, transferMessage env rules t msg
      = { t with outcomes := t.outcomes ++ [⟨msg.ID, "", some err⟩] } := by
    intro t
    simp [transferMessage, herr, messageImported]
  refine ⟨err, herr, hone s, ?_⟩
  intro hdraft hstop hs rest
  rw [transferLoop_cons env rules msg rest s hstop]
  have hstep : transferOne env rules { s with stopQueries := s.stopQueries + 1 } msg
      = { s with stopQueries := s.stopQueries + 1,
                 outcomes := s.outcomes ++ [⟨msg.ID, "", some err⟩] } := by
    unfold transferOne
    rw [hdraft]
    simp only [Bool.false_eq_true, if_false]
    exact hone _
  rw [hstep]
  simp [hs]

/-- The scenario of C17: with a parser that rejects the bodies, the first message of a
stream is recorded as failed, nothing is sent and nothing is pending, and the second
message is processed (and recorded as failed) as well. -/
theorem transferMessage_build_failure_witness :
    (∃ e, parseMessage rejectingEnv (sampleMessage "m01" 3) = .error e) ∧
    transferMessage rejectingEnv ⟨none⟩ State.init (sampleMessage "m01" 3)
      = { State.init with
          outcomes := [⟨"m01", "", some "failed to parse message: malformed MIME header"⟩] } ∧
    (TransferFrom rejectingEnv ⟨none⟩ State.init
        [sampleMessage "m01" 3, sampleMessage "m02" 3]).outcomes.map Outcome.msgID
      = ["m01", "m02"] ∧
    (TransferFrom rejectingEnv ⟨none⟩ State.init
        [sampleMessage "m01" 3, sampleMessage "m02" 3]).calls = [] := by
  obtain ⟨err, herr, hone, _⟩ := transferMessage_build_failure rejectingEnv ⟨none⟩ State.init
    (sampleMessage "m01" 3) (Or.inl ⟨"malformed MIME header", rfl⟩)
  have he : err = "failed to parse message: malformed MIME header" := by
    have h2 : generateImportMsgReq rejectingEnv (sampleMessage "m01" 3) none
        = .error "failed to parse message: malformed MIME header" := by
      simp [generateImportMsgReq, parseMessage, rejectingEnv, wrapErr]
    rw [h2] at herr
    simpa using herr.symm
  subst he
  exact ⟨⟨"malformed MIME header", rfl⟩, hone, by decide, by decide⟩

/-! ### The draft path -/

/-- The attachment loop of a draft only issues uploads: the remote calls grow by
`createAttachment` calls and nothing else of the record changes. -/
theorem importDraftAttachments_record (env : Env) (draftID : String)
    (readers : List (List Nat)) (atts : List Attachment) (idx : Nat) (s : State) :
    (importDraftAttachments env draftID readers atts idx s).2.outcomes = s.outcomes ∧
    (importDraftAttachments env draftID readers atts idx s).2.captured = s.captured ∧
    ∃ new, (importDraftAttachments env draftID readers atts idx s).2.calls = s.calls ++ new ∧
      ∀ c ∈ new, ∃ att enc sig, c = Call.createAttachment att enc sig := by
  induction atts generalizing idx s with
  | nil => exact ⟨rfl, rfl, [], by simp [importDraftAttachments], by simp⟩
  | cons a rest ih =>
    rw [importDraftAttachments]
    split
    · exact ⟨rfl, rfl, [], by simp, by simp⟩
    · split
      · exact ⟨rfl, rfl, [], by simp, by simp⟩
      · split
        · exact ⟨rfl, rfl, [], by simp, by simp⟩
        · rename_i sigReader _ _ encReader _
          split
          · rename_i err s1 heq
            have h2 := congrArg Prod.snd heq
            simp only [createAttachment] at h2
            rw [← h2]
            exact ⟨rfl, rfl, [Call.createAttachment { a with MessageID := draftID } encReader
              sigReader], rfl, by simp⟩
          · rename_i r s1 heq
            have h2 := congrArg Prod.snd heq
            simp only [createAttachment] at h2
            obtain ⟨h3, h4, new, h5, h6⟩ := ih (idx + 1) s1
            rw [← h2] at h3 h4 h5 ⊢
            refine ⟨h3, h4, Call.createAttachment { a with MessageID := draftID } encReader
              sigReader :: new, ?_, ?_⟩
            · rw [h5]; simp
            · intro c hc
              rcases List.mem_cons.mp hc with rfl | hc
              · exact ⟨_, _, _, rfl⟩
              · exact h6 c hc

/-- The method `importDraft` only issues the draft creation and uploads: the remote calls
grow by `createDraft` and `createAttachment` calls, no bulk import among them, and no
outcome is recorded. -/
theorem importDraft_record (env : Env) (s : State) (msg : Message) (g : Option Mailbox) :
    (importDraft env s msg g).2.outcomes = s.outcomes ∧
    ∃ new, (importDraft env s msg g).2.calls = s.calls ++ new ∧
      ∀ c ∈ new, ∀ reqs, c ≠ Call.importRequest reqs := by
  unfold importDraft
  split
  · exact ⟨rfl, [], by simp, by simp⟩
  · split
    · exact ⟨rfl, [], by simp, by simp⟩
    · dsimp only
      split
      · rename_i err s1 heq
        have h2 := congrArg Prod.snd heq
        simp only [createDraft] at h2
        rw [← h2]
        exact ⟨rfl, [_], rfl, by simp⟩
      · rename_i draft s1 heq
        have h2 := congrArg Prod.snd heq
        simp only [createDraft] at h2
        have hrec : ∀ (x : Option String × State) (atts : List Attachment)
            (readers : List (List Nat)),
            importDraftAttachments env draft.ID readers atts 0 s1 = x →
            x.2.outcomes = s.outcomes ∧
            ∃ new, x.2.calls = s.calls ++ new ∧ ∀ c ∈ new, ∀ reqs, c ≠ Call.importRequest reqs := by
          intro x atts readers hx
          obtain ⟨h3, _, new, h5, h6⟩ := importDraftAttachments_record env draft.ID readers atts 0 s1
          rw [hx] at h3 h5
          rw [← h2] at h3 h5
          refine ⟨h3, _ :: new, by rw [h5]; simp; rfl, ?_⟩
          intro c hc reqs
          rcases List.mem_cons.mp hc with rfl | hc
          · simp
          · obtain ⟨att, enc, sig, rfl⟩ := h6 c hc
            simp
        split
        · rename_i e2 s2 heq2
          exact hrec _ _ _ heq2
        · rename_i s2 heq2
          exact hrec _ _ _ heq2

/-- The attachment loop of a draft does not panic when a reader stands at the index of
every attachment. -/
theorem importDraftAttachments_no_panic (env : Env) (draftID : String)
    (readers : List (List Nat)) (atts : List Attachment) (idx : Nat) (s : State)
    (hlen : idx + atts.length ≤ readers.length) :
    (importDraftAttachments env draftID readers atts idx s).2.panicked = s.panicked := by
  induction atts generalizing idx s with
  | nil => rfl
  | cons a rest ih =>
    have hidx : idx < readers.length := by
      simp only [List.length_cons] at hlen
      omega
    have hget : readers.get? idx = some (readers.get ⟨idx, hidx⟩) := List.get?_eq_get hidx
    rw [importDraftAttachments]
    simp only [hget]
    split
    · rfl
    · split
      · rfl
      · split
        · rename_i err s1 heq
          have h2 := congrArg Prod.snd heq
          simp only [createAttachment] at h2
          rw [← h2]
        · rename_i r s1 heq
          have h2 := congrArg Prod.snd heq
          simp only [createAttachment] at h2
          have := ih (idx + 1) s1 (by simp only [List.length_cons] at hlen; omega)
          rw [this, ← h2]

/-- The method `importDraft` does not panic when the parser hands over a reader for every
attachment of the message to create. -/
theorem importDraft_no_panic (env : Env) (s : State) (msg : Message) (g : Option Mailbox)
    (hreaders : ∀ m readers m2, parseMessage env msg = .ok (m, readers) →
      env.encryptBody m = .ok m2 → m2.Attachments.length ≤ readers.length) :
    (importDraft env s msg g).2.panicked = s.panicked := by
  cases g <;>
  · unfold importDraft
    split
    · rfl
    · rename_i message readers hparse
      split
      · rfl
      · rename_i m2 henc
        have hle := hreaders message readers m2 hparse henc
        dsimp only
        split
        · rename_i err s1 heq
          have h2 := congrArg Prod.snd heq
          simp only [createDraft] at h2
          rw [← h2]
        · rename_i draft s1 heq
          have h2 := congrArg Prod.snd heq
          simp only [createDraft] at h2
          have hs1 : s1.panicked = s.panicked := by rw [← h2]
          split
          · rename_i e2 s2 heq2
            have h3 : _ = s2 := congrArg Prod.snd heq2
            rw [← h3, importDraftAttachments_no_panic _ _ _ _ _ _ (by simpa using hle)]
            exact hs1
          · rename_i s2 heq2
            have h3 : _ = s2 := congrArg Prod.snd heq2
            rw [← h3, importDraftAttachments_no_panic _ _ _ _ _ _ (by simpa using hle)]
            exact hs1

/-- C19, counterexample.  The parser returns a draft with three attachments and one reader:
after the upload of the first attachment the loop of `importDraft` reads
`attachmentReaders[1]`, which is out of range, and `transferDraft` records no outcome for
the draft. -/
theorem transferDraft_missing_reader :
    isMessageDraft shortReadersEnv draftMessage = true ∧
    (transferDraft shortReadersEnv ⟨none⟩ threeBatch draftMessage).outcomes = [] ∧
    (transferDraft shortReadersEnv ⟨none⟩ threeBatch draftMessage).panicked = true ∧
    (transferDraft shortReadersEnv ⟨none⟩ threeBatch draftMessage).calls
      = [Call.createDraft (draftToCreate draftParsed none) "" 0, firstUpload] := by
  decide

/-- C19, amended.  For a message classified as a draft, `TransferFrom` takes the draft
path.  When the parser hands over a reader for every attachment of the draft (and the
provider has not panicked before), `transferDraft` records exactly one outcome for the
message, the ID and the error that `importDraft` returns, and does not panic; the remote
calls it issues are not bulk imports, and the pending batch (`importMsgReqMap` and
`importMsgReqSize`) is left as it was. -/
theorem transferDraft_one_outcome (env : Env) (rules : transferRules) (s : State)
    (msg : Message)
    (hs : s.panicked = false)
    (hreaders : ∀ m readers m2, parseMessage env msg = .ok (m, readers) →
      env.encryptBody m = .ok m2 → m2.Attachments.length ≤ readers.length) :
    (isMessageDraft env msg = true →
      transferOne env rules s msg = transferDraft env rules s msg) ∧
    (transferDraft env rules s msg).outcomes
      = s.outcomes ++ [⟨msg.ID, (importDraft env s msg rules.globalMailbox).1.1,
          (importDraft env s msg rules.globalMailbox).1.2⟩] ∧
    (transferDraft env rules s msg).panicked = false ∧
    (∃ new, (transferDraft env rules s msg).calls = s.calls ++ new ∧
      ∀ c ∈ new, ∀ reqs, c ≠ Call.importRequest reqs) ∧
    (transferDraft env rules s msg).importMsgReqMap = s.importMsgReqMap ∧
    (transferDraft env rules s msg).importMsgReqSize = s.importMsgReqSize := by
  have hret : (importDraft env s msg rules.globalMailbox).2.panicked = false :=
    (importDraft_no_panic env s msg rules.globalMailbox hreaders).trans hs
  obtain ⟨ho, new, hc, hn⟩ := importDraft_record env s msg rules.globalMailbox
  have hfr := transferDraft_frame env rules s msg
  refine ⟨?_, ?_, ?_, ⟨new, ?_, hn⟩, hfr.1, hfr.2⟩
  · intro hd
    simp [transferOne, hd]
  · simp [transferDraft, hret, messageImported, ho]
  · simp [transferDraft, hret, messageImported]
  · simp [transferDraft, hret, messageImported, hc]

/-- The scenario of C19: a draft with three attachments and their three readers, with a
pending batch of three requests.  One outcome is recorded, the draft with its remote ID;
the four remote calls are the draft creation and three uploads; the pending batch is
untouched. -/
theorem transferDraft_one_outcome_witness :
    isMessageDraft (draftEnv (fun _ b => .ok b) uploadOk) draftMessage = true ∧
    (transferDraft (draftEnv (fun _ b => .ok b) uploadOk) ⟨none⟩ threeBatch draftMessage).outcomes
      = [⟨"d01", "draft-1", none⟩] ∧
    bulkSizes (transferDraft (draftEnv (fun _ b => .ok b) uploadOk) ⟨none⟩ threeBatch
      draftMessage).calls = [0, 0, 0, 0] ∧
    (transferDraft (draftEnv (fun _ b => .ok b) uploadOk) ⟨none⟩ threeBatch
      draftMessage).importMsgReqMap = threeBatch.importMsgReqMap := by
  have hreaders : ∀ m readers m2,
      parseMessage (draftEnv (fun _ b => .ok b) uploadOk) draftMessage = .ok (m, readers) →
      (draftEnv (fun _ b => .ok b) uploadOk).encryptBody m = .ok m2 →
      m2.Attachments.length ≤ readers.length := by
    intro m readers m2 hp he
    have hp2 : m = draftParsed ∧ readers = [[1], [2], [3]] := by
      have hp3 : (Except.ok (draftParsed, [[1], [2], [3]]) :
          Except String (PMessage × List (List Nat))) = .ok (m, readers) := hp
      injection hp3 with hp4
      injection hp4 with h1 h2
      exact ⟨h1.symm, h2.symm⟩
    have he2 : (Except.ok m : Except String PMessage) = .ok m2 := he
    injection he2 with he3
    rw [← he3, hp2.1, hp2.2]
    decide
  have h := transferDraft_one_outcome (draftEnv (fun _ b => .ok b) uploadOk) ⟨none⟩ threeBatch
    draftMessage (by decide) hreaders
  refine ⟨by decide, ?_, by decide, h.2.2.2.2.1⟩
  rw [h.2.1]
  decide

/-- The attachment loop after a run of attachments whose steps all succeed: it has issued
their uploads and goes on with the attachments that follow. -/
theorem importDraftAttachments_uploaded (env : Env) (draftID : String)
    (readers : List (List Nat)) (pre rest : List Attachment) (idx : Nat) (s : State)
    (uploads : List Call)
    (hup : AttachmentsUploaded env draftID readers pre idx s.calls.length uploads) :
    importDraftAttachments env draftID readers (pre ++ rest) idx s
      = importDraftAttachments env draftID readers rest (idx + pre.length)
          { s with calls := s.calls ++ uploads } := by
  induction pre generalizing idx s uploads with
  | nil =>
    simp only [AttachmentsUploaded] at hup
    subst hup
    simp
  | cons a p ih =>
    obtain ⟨c, cs, rfl, ⟨body, sig, enc, r, h1, h2, h3, h4, rfl⟩, hrest⟩ := hup
    rw [List.cons_append, importDraftAttachments]
    simp only [h1, h2, h3, createAttachment, h4]
    have := ih (idx + 1)
      { s with calls := s.calls ++ [Call.createAttachment { a with MessageID := draftID } enc sig] }
      cs (by simpa using hrest)
    rw [this]
    simp [Nat.add_assoc, Nat.add_comm 1]

/-- The attachment loop at an attachment one of whose steps fails: the error of the step,
and no remote call but the failed upload itself. -/
theorem importDraftAttachments_failed (env : Env) (draftID : String)
    (readers : List (List Nat)) (a : Attachment) (post : List Attachment) (idx : Nat)
    (s : State) (body : List Nat) (hbody : readers.get? idx = some body) :
    (∀ e, env.detachedSign { a with MessageID := draftID } body = .error e →
      importDraftAttachments env draftID readers (a :: post) idx s
        = (some (wrapErr e "failed to sign attachment"), s)) ∧
    (∀ sig e, env.detachedSign { a with MessageID := draftID } body = .ok sig →
      env.encryptAttachment { a with MessageID := draftID } body = .error e →
      importDraftAttachments env draftID readers (a :: post) idx s
        = (some (wrapErr e "failed to encrypt attachment"), s)) ∧
    (∀ sig enc e, env.detachedSign { a with MessageID := draftID } body = .ok sig →
      env.encryptAttachment { a with MessageID := draftID } body = .ok enc →
      env.createAttachment s.calls.length { a with MessageID := draftID } enc sig = .error e →
      importDraftAttachments env draftID readers (a :: post) idx s
        = (some (wrapErr e "failed to create attachment"),
           { s with calls := s.calls ++
              [Call.createAttachment { a with MessageID := draftID } enc sig] })) := by
  refine ⟨?_, ?_, ?_⟩
  · intro e h1
    rw [importDraftAttachments]
    simp only [hbody, h1]
  · intro sig e h1 h2
    rw [importDraftAttachments]
    simp only [hbody, h1, h2]
  · intro sig enc e h1 h2 h3
    rw [importDraftAttachments]
    simp only [hbody, h1, h2, createAttachment, h3]

/-- The method `importDraft` once the draft is created: the result is decided by the
attachment loop, run on the attachments of the encrypted message after the `createDraft`
call. -/
theorem importDraft_created (env : Env) (s : State) (msg : Message) (g : Option Mailbox)
    (pm em draft : PMessage) (readers : List (List Nat))
    (hparse : parseMessage env msg = .ok (pm, readers))
    (henc : env.encryptBody pm = .ok em)
    (hdraft : env.createDraft s.calls.length (draftToCreate em g) "" env.pmapi.DraftActionReply
      = .ok draft) :
    importDraft env s msg g =
      ((match (importDraftAttachments env draft.ID readers em.Attachments 0
            { s with calls := s.calls ++
              [Call.createDraft (draftToCreate em g) "" env.pmapi.DraftActionReply] }).1 with
        | some err => ("", some err)
        | none => (draft.ID, none)),
       (importDraftAttachments env draft.ID readers em.Attachments 0
            { s with calls := s.calls ++
              [Call.createDraft (draftToCreate em g) "" env.pmapi.DraftActionReply] }).2) := by
  cases g <;>
  · unfold importDraft
    simp only [hparse, henc, createDraft]
    simp only [draftToCreate] at hdraft
    simp only [hdraft, draftToCreate]
    split <;> rename_i heq <;> simp [heq]

/-- The uploads of a run of attachments whose steps all succeed are as many as the
attachments. -/
theorem AttachmentsUploaded_length (env : Env) (draftID : String) (readers : List (List Nat))
    (atts : List Attachment) (idx k : Nat) (uploads : List Call)
    (hup : AttachmentsUploaded env draftID readers atts idx k uploads) :
    uploads.length = atts.length := by
  induction atts generalizing idx k uploads with
  | nil =>
    simp only [AttachmentsUploaded] at hup
    simp [hup]
  | cons a p ih =>
    obtain ⟨c, cs, rfl, _, hrest⟩ := hup
    simp [ih _ _ _ hrest]

/-- C18. The steps of `importDraft`, in order: parsing, encryption of the body, remote
creation of the draft (for the message `draftToCreate`), then for each attachment of the
encrypted message its signing, encryption and upload.  When a step fails, `importDraft`
returns the empty remote ID with the error of that step, and the state shows that nothing
more was done: no remote call for a failed parsing or encryption; the `createDraft` call
alone when the creation fails; when a step of the attachment after `pre` fails, the
`createDraft` call and the uploads of the attachments of `pre` (followed by the failed
upload itself when the upload is the failing step), nothing for the later attachments and
nothing that undoes the uploads.  When every step succeeds, it returns the ID of the
created draft and no error, after the `createDraft` call and one upload per attachment. -/
theorem importDraft_steps (env : Env) (s : State) (msg : Message) (g : Option Mailbox) :
    (∀ e, parseMessage env msg = .error e →
      importDraft env s msg g = (("", some (wrapErr e "failed to parse message")), s)) ∧
    (∀ pm readers e, parseMessage env msg = .ok (pm, readers) →
      env.encryptBody pm = .error e →
      importDraft env s msg g = (("", some (wrapErr e "failed to encrypt draft")), s)) ∧
    (∀ pm readers em e, parseMessage env msg = .ok (pm, readers) →
      env.encryptBody pm = .ok em →
      env.createDraft s.calls.length (draftToCreate em g) "" env.pmapi.DraftActionReply
        = .error e →
      importDraft env s msg g
        = (("", some (wrapErr e "failed to create draft")),
           { s with calls := s.calls ++
              [Call.createDraft (draftToCreate em g) "" env.pmapi.DraftActionReply] })) ∧
    (∀ pm readers em draft pre a post uploads body,
      parseMessage env msg = .ok (pm, readers) →
      env.encryptBody pm = .ok em →
      env.createDraft s.calls.length (draftToCreate em g) "" env.pmapi.DraftActionReply
        = .ok draft →
      em.Attachments = pre ++ a :: post →
      AttachmentsUploaded env draft.ID readers pre 0 (s.calls.length + 1) uploads →
      readers.get? pre.length = some body →
      (∀ e, env.detachedSign { a with MessageID := draft.ID } body = .error e →
        importDraft env s msg g
          = (("", some (wrapErr e "failed to sign attachment")),
             { s with calls := s.calls ++
                Call.createDraft (draftToCreate em g) "" env.pmapi.DraftActionReply ::
                  uploads })) ∧
      (∀ sig e, env.detachedSign { a with MessageID := draft.ID } body = .ok sig →
        env.encryptAttachment { a with MessageID := draft.ID } body = .error e →
        importDraft env s msg g
          = (("", some (wrapErr e "failed to encrypt attachment")),
             { s with calls := s.calls ++
                Call.createDraft (draftToCreate em g) "" env.pmapi.DraftActionReply ::
                  uploads })) ∧
      (∀ sig enc e, env.detachedSign { a with MessageID := draft.ID } body = .ok sig →
        env.encryptAttachment { a with MessageID := draft.ID } body = .ok enc →
        env.createAttachment (s.calls.length + 1 + pre.length)
          { a with MessageID := draft.ID } enc sig = .error e →
        importDraft env s msg g
          = (("", some (wrapErr e "failed to create attachment")),
             { s with calls := s.calls ++
                Call.createDraft (draftToCreate em g) "" env.pmapi.DraftActionReply ::
                  (uploads ++
                    [Call.createAttachment { a with MessageID := draft.ID } enc sig]) }))) ∧
    (∀ pm readers em draft uploads,
      parseMessage env msg = .ok (pm, readers) →
      env.encryptBody pm = .ok em →
      env.createDraft s.calls.length (draftToCreate em g) "" env.pmapi.DraftActionReply
        = .ok draft →
      AttachmentsUploaded env draft.ID readers em.Attachments 0 (s.calls.length + 1) uploads →
      importDraft env s msg g
        = ((draft.ID, none),
           { s with calls := s.calls ++
              Call.createDraft (draftToCreate em g) "" env.pmapi.DraftActionReply ::
                uploads })) := by
  refine ⟨?_, ?_, ?_, ?_, ?_⟩
  · intro e h
    unfold importDraft
    simp only [h]
  · intro pm readers e hp he
    unfold importDraft
    simp only [hp, he]
  · intro pm readers em e hp he hd
    cases g <;>
    · unfold importDraft
      simp only [hp, he, createDraft]
      simp only [draftToCreate] at hd
      simp only [hd, draftToCreate]
  · intro pm readers em draft pre a post uploads body hp he hd hatts hup hbody
    have hcr := importDraft_created env s msg g pm em draft readers hp he hd
    have hpre := importDraftAttachments_uploaded env draft.ID readers pre (a :: post) 0
      { s with calls := s.calls ++
        [Call.createDraft (draftToCreate em g) "" env.pmapi.DraftActionReply] }
      uploads (by simpa using hup)
    have hlen := AttachmentsUploaded_length env draft.ID readers pre 0 _ uploads hup
    obtain ⟨f1, f2, f3⟩ := importDraftAttachments_failed env draft.ID readers a post
      (0 + pre.length)
      { s with calls := s.calls ++
        [Call.createDraft (draftToCreate em g) "" env.pmapi.DraftActionReply] ++ uploads }
      body (by simpa using hbody)
    rw [hatts, hpre] at hcr
    refine ⟨?_, ?_, ?_⟩
    · intro e h1
      rw [hcr, f1 e h1]
      simp
    · intro sig e h1 h2
      rw [hcr, f2 sig e h1 h2]
      simp
    · intro sig enc e h1 h2 h3
      have hidx : ({ s with calls := s.calls ++
            [Call.createDraft (draftToCreate em g) "" env.pmapi.DraftActionReply] ++ uploads }
          : State).calls.length = s.calls.length + 1 + pre.length := by
        simp [hlen]
        omega
      rw [hcr, f3 sig enc e h1 h2 (by rw [hidx]; exact h3)]
      simp
  · intro pm readers em draft uploads hp he hd hup
    have hcr := importDraft_created env s msg g pm em draft readers hp he hd
    have hpre := importDraftAttachments_uploaded env draft.ID readers em.Attachments [] 0
      { s with calls := s.calls ++
        [Call.createDraft (draftToCreate em g) "" env.pmapi.DraftActionReply] }
      uploads (by simpa using hup)
    rw [List.append_nil] at hpre
    rw [hpre] at hcr
    rw [hcr]
    simp [importDraftAttachments]

/-- The steps for the first example attachment succeed whenever signing and upload of `a1`
do. -/
theorem firstUpload_succeeds (sign : Attachment → List Nat → Except String (List Nat))
    (upload : Nat → Attachment → List Nat → List Nat → Except String Attachment)
    (hsign : sign { ID := "a1", MessageID := "draft-1", Name := "one.txt" } [1] = .ok [1])
    (hup : upload 1 { ID := "a1", MessageID := "draft-1", Name := "one.txt" } [1] [1]
      = .ok { ID := "a1", MessageID := "draft-1", Name := "one.txt" }) :
    AttachmentsUploaded (draftEnv sign upload) draftCreated.ID [[1], [2], [3]]
      [{ ID := "a1", MessageID := "", Name := "one.txt" }] 0 (State.init.calls.length + 1)
      [firstUpload] :=
  ⟨_, _, rfl, ⟨[1], [1], [1], _, rfl, hsign, rfl, hup, rfl⟩, rfl⟩

/-- The scenarios of C18 on a draft with three attachments.  When signing fails on the
second attachment, the result is the empty ID with the signing error, after the draft
creation and the upload of the first attachment only.  When the upload of the second
attachment fails, the result is the empty ID with the upload error, after the draft
creation, the first upload and the failed second upload, and nothing for the third.  When
every step succeeds, the result is the ID of the created draft, after the draft creation
and three uploads. -/
theorem importDraft_steps_witness :
    importDraft (draftEnv signFailsOnSecond uploadOk) State.init draftMessage none
      = (("", some "failed to sign attachment: no key"),
         { State.init with
           calls := [Call.createDraft (draftToCreate draftParsed none) "" 0, firstUpload] }) ∧
    importDraft (draftEnv (fun _ b => .ok b) uploadFailsOnSecond) State.init draftMessage none
      = (("", some "failed to create attachment: quota"),
         { State.init with
           calls := [Call.createDraft (draftToCreate draftParsed none) "" 0, firstUpload,
             Call.createAttachment { ID := "a2", MessageID := "draft-1", Name := "two.txt" }
               [2] [2]] }) ∧
    importDraft (draftEnv (fun _ b => .ok b) uploadOk) State.init draftMessage none
      = (("draft-1", none),
         { State.init with
           calls := [Call.createDraft (draftToCreate draftParsed none) "" 0, firstUpload,
             Call.createAttachment { ID := "a2", MessageID := "draft-1", Name := "two.txt" }
               [2] [2],
             Call.createAttachment { ID := "a3", MessageID := "draft-1", Name := "three.txt" }
               [3] [3]] }) := by
  refine ⟨?_, ?_, ?_⟩
  · exact ((importDraft_steps (draftEnv signFailsOnSecond uploadOk) State.init draftMessage
      none).2.2.2.1 draftParsed [[1], [2], [3]] draftParsed draftCreated
      [{ ID := "a1", MessageID := "", Name := "one.txt" }]
      { ID := "a2", MessageID := "", Name := "two.txt" }
      [{ ID := "a3", MessageID := "", Name := "three.txt" }] [firstUpload] [2]
      rfl rfl rfl rfl (firstUpload_succeeds _ _ rfl rfl) rfl).1 "no key" rfl
  · exact ((importDraft_steps (draftEnv (fun _ b => .ok b) uploadFailsOnSecond) State.init
      draftMessage none).2.2.2.1 draftParsed [[1], [2], [3]] draftParsed draftCreated
      [{ ID := "a1", MessageID := "", Name := "one.txt" }]
      { ID := "a2", MessageID := "", Name := "two.txt" }
      [{ ID := "a3", MessageID := "", Name := "three.txt" }] [firstUpload] [2]
      rfl rfl rfl rfl (firstUpload_succeeds _ _ rfl rfl) rfl).2.2 [2] [2] "quota" rfl rfl rfl
  · exact (importDraft_steps (draftEnv (fun _ b => .ok b) uploadOk) State.init draftMessage
      none).2.2.2.2 draftParsed [[1], [2], [3]] draftParsed draftCreated
      [firstUpload,
        Call.createAttachment { ID := "a2", MessageID := "draft-1", Name := "two.txt" } [2] [2],
        Call.createAttachment { ID := "a3", MessageID := "draft-1", Name := "three.txt" } [3] [3]]
      rfl rfl rfl
      ⟨_, _, rfl, ⟨[1], [1], [1], _, rfl, rfl, rfl, rfl, rfl⟩,
        _, _, rfl, ⟨[2], [2], [2], _, rfl, rfl, rfl, rfl, rfl⟩,
        _, _, rfl, ⟨[3], [3], [3], _, rfl, rfl, rfl, rfl, rfl⟩, rfl⟩

/-! ### The pass-through of encrypted bodies -/

/-- C21. For every parsed message whose MIME type is `pmapi.ContentTypeMultipartEncrypted`,
`encryptMessage` returns the body of the message and no error, whatever the attachment
readers are and whatever the encrypting builder (which holds the key ring) would do: the
result is the same for every builder, also for one that fails. -/
theorem encryptMessage_passthrough (env : Env) (m : PMessage) (readers : List (List Nat))
    (h : m.MIMEType = env.pmapi.ContentTypeMultipartEncrypted) :
    encryptMessage env m readers = .ok m.Body ∧
    ∀ build : PMessage → List (List Nat) → Except String (List Nat),
      encryptMessage { env with buildEncrypted := build } m readers = .ok m.Body := by
  refine ⟨?_, fun build => ?_⟩
  · unfold encryptMessage
    rw [if_pos h]
  · unfold encryptMessage
    rw [if_pos h]

/-- C21 on an encrypted envelope, with a builder that always fails. -/
theorem encryptMessage_passthrough_witness :
    encryptMessage { sampleEnv neverStop remoteOk with buildEncrypted := failingBuild }
      encryptedMessage [[7], [8, 9]] = .ok [1, 2, 3] :=
  (encryptMessage_passthrough (sampleEnv neverStop remoteOk) encryptedMessage [[7], [8, 9]]
    rfl).2 failingBuild

/-! ### Flushes of an empty batch and results out of range -/

/-- A single message of `n` bytes, more than a batch may hold: the flush before its insertion
sends an empty bulk call, the flush at the end sends the message. -/
theorem oneMessage_oversized (n : Nat) (hn : n > pmapiImportBatchMaxSize) :
    (TransferFrom (sampleEnv neverStop remoteOk) ⟨none⟩ State.init
      [sampleMessage "m01" n]).calls
      = [Call.importRequest [], Call.importRequest [sampleReq n]] := by
  simp [TransferFrom, transferLoop, transferOne, transferMessage, isMessageDraft,
    generateImportMsgReq, parseMessage, encryptMessage, sampleEnv, sampleMessage, samplePmapi,
    shouldStop, neverStop, remoteOk, State.init, importMessages, mapInsert, length_bodyOfSize,
    importRequest, wholeRequestFailed, importOneByOne, importResults, resultsOf,
    messageImported, computeMessageFlags, sampleReq, hn]

/-- C27, failing run.  The first message of a stream is larger than the maximum batch size:
`transferMessage` flushes the empty batch before inserting it, and `importMessages` issues
a bulk import call with an empty list of requests. -/
theorem TransferFrom_empty_bulk_call :
    (TransferFrom (sampleEnv neverStop remoteOk) ⟨none⟩ State.init
      [sampleMessage "m01" 25000001]).calls
      = [Call.importRequest [], Call.importRequest [sampleReq 25000001]] :=
  oneMessage_oversized 25000001 (by decide)

/-- C29, failing run.  The batch holds one request and the remote returns two results: the
second iteration of the result loop reads `importMsgIDs[1]`, which is out of range. -/
theorem importMessages_results_out_of_range :
    (importMessages (sampleEnv neverStop remoteTwoResults) oneBatch).panicked = true ∧
    (importMessages (sampleEnv neverStop remoteTwoResults) oneBatch).outcomes
      = [⟨"m01", "r01", none⟩] := by
  decide

/-! ### The byte counter and the bodies of the pending batch -/

/-- An insertion under a key that the map does not hold adds the length of the body to the
sum of the body lengths. -/
theorem mapBodySize_insert_fresh (k : String) (v : ImportMsgReq)
    (m : List (String × ImportMsgReq)) (hk : k ∉ m.map Prod.fst) :
    mapBodySize (mapInsert k v m) = mapBodySize m + v.Body.length := by
  rw [mapInsert_fresh k v m hk]
  simp [mapBodySize]

/-- A flush, whatever the stop flag and the remote do, leaves the pending batch and its byte
counter as they were or clears both. -/
theorem importMessages_keeps_or_clears (env : Env) (s : State) :
    ((importMessages env s).importMsgReqMap = s.importMsgReqMap ∧
      (importMessages env s).importMsgReqSize = s.importMsgReqSize) ∨
    ((importMessages env s).importMsgReqMap = [] ∧
      (importMessages env s).importMsgReqSize = 0) := by
  cases hstop : env.shouldStop s.stopQueries with
  | true =>
    rw [importMessages_stop env s hstop]
    exact Or.inl ⟨rfl, rfl⟩
  | false =>
    cases hf : wholeRequestFailed (env.importRequest s.calls.length
        ((env.rangeOrder s.ranges s.importMsgReqMap).map Prod.snd)) with
    | true =>
      rw [importMessages_failed env s hstop hf]
      obtain ⟨h1, h2, _⟩ := importOneByOne_spec env
        (env.rangeOrder (s.ranges + 1) s.importMsgReqMap)
        { s with stopQueries := s.stopQueries + 1, ranges := s.ranges + 1 + 1,
                 calls := s.calls ++ [Call.importRequest
                   ((env.rangeOrder s.ranges s.importMsgReqMap).map Prod.snd)] }
      exact Or.inl ⟨h1, h2⟩
    | false =>
      rw [importMessages_passed env s hstop hf]
      have hfr := importResults_frame env
        ((env.rangeOrder s.ranges s.importMsgReqMap).map Prod.fst)
        ((env.rangeOrder s.ranges s.importMsgReqMap).map Prod.snd)
        (resultsOf (env.importRequest s.calls.length
          ((env.rangeOrder s.ranges s.importMsgReqMap).map Prod.snd))) 0
        { s with stopQueries := s.stopQueries + 1, ranges := s.ranges + 1,
                 calls := s.calls ++ [Call.importRequest
                   ((env.rangeOrder s.ranges s.importMsgReqMap).map Prod.snd)] }
      generalize importResults env
        ((env.rangeOrder s.ranges s.importMsgReqMap).map Prod.fst)
        ((env.rangeOrder s.ranges s.importMsgReqMap).map Prod.snd)
        (resultsOf (env.importRequest s.calls.length
          ((env.rangeOrder s.ranges s.importMsgReqMap).map Prod.snd))) 0
        { s with stopQueries := s.stopQueries + 1, ranges := s.ranges + 1,
                 calls := s.calls ++ [Call.importRequest
                   ((env.rangeOrder s.ranges s.importMsgReqMap).map Prod.snd)] } = x at hfr ⊢
      cases hp : x.panicked with
      | true =>
        simp only [if_true]
        exact Or.inl ⟨hfr.1, hfr.2⟩
      | false =>
        right
        simp

/-- One message of a stream whose identifiers are pairwise distinct: when the byte counter
is the sum of the body lengths of the pending batch and the batch holds no identifier of
the messages still to come, the same is true after the message. -/
theorem transferOne_size (env : Env) (rules : transferRules) (s : State) (msg : Message)
    (rest : List Message)
    (hsize : s.importMsgReqSize = mapBodySize s.importMsgReqMap)
    (hfresh : ∀ m ∈ msg :: rest, m.ID ∉ s.importMsgReqMap.map Prod.fst)
    (hnodup : ((msg :: rest).map Message.ID).Nodup) :
    (transferOne env rules s msg).importMsgReqSize
      = mapBodySize (transferOne env rules s msg).importMsgReqMap ∧
    ∀ m ∈ rest, m.ID ∉ (transferOne env rules s msg).importMsgReqMap.map Prod.fst := by
  have hrest : ∀ m ∈ rest, m.ID ∉ s.importMsgReqMap.map Prod.fst :=
    fun m hm => hfresh m (List.mem_cons_of_mem _ hm)
  unfold transferOne
  split
  · rw [(transferDraft_frame env rules s msg).1, (transferDraft_frame env rules s msg).2]
    exact ⟨hsize, hrest⟩
  · unfold transferMessage
    split
    · exact ⟨hsize, hrest⟩
    · rename_i req hreq
      dsimp only
      have h1 : ∀ s1 : State,
          s1 = (if s.importMsgReqSize + req.Body.length > pmapiImportBatchMaxSize
              ∨ s.importMsgReqMap.length = pmapiImportBatchMaxItems
            then importMessages env s else s) →
          s1.importMsgReqSize = mapBodySize s1.importMsgReqMap ∧
          ∀ m ∈ msg :: rest, m.ID ∉ s1.importMsgReqMap.map Prod.fst := by
        intro s1 hs1
        subst hs1
        split
        · rcases importMessages_keeps_or_clears env s with ⟨a, b⟩ | ⟨a, b⟩
          · rw [a, b]
            exact ⟨hsize, hfresh⟩
          · rw [a, b]
            exact ⟨rfl, fun m _ => by simp⟩
        · exact ⟨hsize, hfresh⟩
      have h2 := h1 _ rfl
      generalize (if s.importMsgReqSize + req.Body.length > pmapiImportBatchMaxSize
              ∨ s.importMsgReqMap.length = pmapiImportBatchMaxItems
            then importMessages env s else s) = s1 at h2 ⊢
      obtain ⟨hsz, hfr⟩ := h2
      have hmsg : msg.ID ∉ s1.importMsgReqMap.map Prod.fst := hfr msg (List.mem_cons_self _ _)
      split
      · exact ⟨hsz, fun m hm => hfr m (List.mem_cons_of_mem _ hm)⟩
      · dsimp only
        refine ⟨?_, fun m hm => ?_⟩
        · rw [mapBodySize_insert_fresh msg.ID req s1.importMsgReqMap hmsg, hsz]
        · rw [mapInsert_fresh msg.ID req s1.importMsgReqMap hmsg]
          simp only [List.map_append, List.map_cons, List.map_nil, List.mem_append,
            List.mem_singleton, not_or]
          refine ⟨hfr m (List.mem_cons_of_mem _ hm), fun e => ?_⟩
          have hnd := (List.nodup_cons.1 hnodup).1
          exact hnd (e ▸ List.mem_map_of_mem Message.ID hm)

/-- The loop of `TransferFrom` over messages with pairwise distinct identifiers keeps the
byte counter equal to the sum of the body lengths of the pending batch. -/
theorem transferLoop_size (env : Env) (rules : transferRules) (ch : List Message) :
    ∀ s : State, s.importMsgReqSize = mapBodySize s.importMsgReqMap →
      (∀ m ∈ ch, m.ID ∉ s.importMsgReqMap.map Prod.fst) →
      (ch.map Message.ID).Nodup →
      (transferLoop env rules ch s).importMsgReqSize
        = mapBodySize (transferLoop env rules ch s).importMsgReqMap := by
  induction ch with
  | nil =>
    intro s hsize _ _
    exact hsize
  | cons msg rest ih =>
    intro s hsize hfresh hnodup
    cases hstop : env.shouldStop s.stopQueries with
    | true =>
      rw [transferLoop_stop env rules s msg rest hstop]
      exact hsize
    | false =>
      rw [transferLoop_cons env rules msg rest s hstop]
      have hstep := transferOne_size env rules { s with stopQueries := s.stopQueries + 1 } msg
        rest hsize hfresh hnodup
      split
      · exact hstep.1
      · exact ih _ hstep.1 hstep.2 (List.nodup_cons.1 hnodup).2

/-- C28, counterexample.  Two messages carry the same identifier, with bodies of 3 and of 4
bytes: the second request replaces the first in the map and both lengths are added to the
counter, which is 7 after the loop of `TransferFrom` while the map holds 4 bytes. -/
theorem size_counter_counts_replaced_request :
    (transferLoop (sampleEnv neverStop remoteOk) ⟨none⟩ sameIDMessages
      State.init).importMsgReqMap = [("m01", sampleReq 4)] ∧
    (transferLoop (sampleEnv neverStop remoteOk) ⟨none⟩ sameIDMessages
      State.init).importMsgReqSize = 7 ∧
    mapBodySize (transferLoop (sampleEnv neverStop remoteOk) ⟨none⟩ sameIDMessages
      State.init).importMsgReqMap = 4 := by
  decide

/-- C28, amended.  For every stream of messages with pairwise distinct identifiers, whatever
the stop flag and the remote do, the counter `importMsgReqSize` equals the sum of the body
lengths of the import requests held in `importMsgReqMap` after the loop of `TransferFrom`
over the stream (hence after every message of it) and when `TransferFrom` returns. -/
theorem size_counter_matches_batch (env : Env) (rules : transferRules) (s : State)
    (ch : List Message) (hnodup : (ch.map Message.ID).Nodup) :
    (transferLoop env rules ch
        { s with importMsgReqMap := [], importMsgReqSize := 0 }).importMsgReqSize
      = mapBodySize (transferLoop env rules ch
        { s with importMsgReqMap := [], importMsgReqSize := 0 }).importMsgReqMap ∧
    (TransferFrom env rules s ch).importMsgReqSize
      = mapBodySize (TransferFrom env rules s ch).importMsgReqMap := by
  have h1 := transferLoop_size env rules ch
    { s with importMsgReqMap := [], importMsgReqSize := 0 } rfl (fun m _ => by simp) hnodup
  refine ⟨h1, ?_⟩
  unfold TransferFrom
  dsimp only
  split
  · exact h1
  · split
    · rcases importMessages_keeps_or_clears env (transferLoop env rules ch
        { s with importMsgReqMap := [], importMsgReqSize := 0 }) with ⟨a, b⟩ | ⟨a, b⟩
      · rw [a, b]
        exact h1
      · rw [a, b]
        rfl
    · exact h1

/-- The amended C28 on eleven messages with distinct identifiers: the eleventh is alone in
the batch after the loop, with its 3 bytes counted. -/
theorem size_counter_matches_batch_witness :
    (elevenMessages.map Message.ID).Nodup ∧
    (transferLoop (sampleEnv neverStop remoteOk) ⟨none⟩ elevenMessages
        { State.init with importMsgReqMap := [], importMsgReqSize := 0 }).importMsgReqSize
      = mapBodySize (transferLoop (sampleEnv neverStop remoteOk) ⟨none⟩ elevenMessages
        { State.init with importMsgReqMap := [], importMsgReqSize := 0 }).importMsgReqMap ∧
    (TransferFrom (sampleEnv neverStop remoteOk) ⟨none⟩ State.init
        elevenMessages).importMsgReqSize
      = mapBodySize (TransferFrom (sampleEnv neverStop remoteOk) ⟨none⟩ State.init
        elevenMessages).importMsgReqMap :=
  ⟨by decide,
    size_counter_matches_batch (sampleEnv neverStop remoteOk) ⟨none⟩ State.init elevenMessages
      (by decide)⟩

end Transfer

namespace Base

/-! ### Decimal texts -/

/-- No decimal digit character is a minus sign. -/
theorem digitChar_ne_minus (n : Nat) (h : n < 10) : Nat.digitChar n ≠ '-' := by
  interval_cases n <;> decide

/-- The digits of a natural number start with a character that is not a minus sign. -/
theorem toDigitsCore_head (fuel n : Nat) (ds : List Char)
    (h : 0 < fuel ∨ ∃ c cs, ds = c :: cs ∧ c ≠ '-') :
    ∃ c cs, Nat.toDigitsCore 10 fuel n ds = c :: cs ∧ c ≠ '-' := by
  induction fuel generalizing n ds with
  | zero =>
    rcases h with h | h
    · exact absurd h (Nat.lt_irrefl 0)
    · simpa [Nat.toDigitsCore] using h
  | succ f ih =>
    have hd : Nat.digitChar (n % 10) ≠ '-' :=
      digitChar_ne_minus _ (Nat.mod_lt _ (by decide))
    rw [Nat.toDigitsCore]
    split
    · exact ⟨_, _, rfl, hd⟩
    · exact ih _ _ (Or.inr ⟨_, _, rfl, hd⟩)

/-- The decimal text of an integer is never the restart flag. -/
theorem Itoa_ne_flag (n : Int) : Itoa n ≠ "--restart" := by
  intro h
  have hd := congrArg String.data h
  cases n with
  | ofNat m =>
    obtain ⟨c, cs, hc, hne⟩ := toDigitsCore_head (m + 1) m [] (Or.inl (Nat.succ_pos m))
    have : (Itoa (Int.ofNat m)).data = Nat.toDigitsCore 10 (m + 1) m [] := rfl
    rw [this, hc] at hd
    have h1 := (List.cons.inj hd).1
    exact hne h1
  | negSucc m =>
    obtain ⟨c, cs, hc, hne⟩ := toDigitsCore_head (m + 1 + 1) (m + 1) []
      (Or.inl (Nat.succ_pos _))
    have : (Itoa (Int.negSucc m)).data = '-' :: Nat.toDigitsCore 10 (m + 1 + 1) (m + 1) [] := rfl
    rw [this, hc] at hd
    have h1 := (List.cons.inj (List.cons.inj hd).2).1
    exact hne h1

/-- The value written after a restart flag is never the restart flag. -/
theorem bumped_ne_flag (next : String) : bumped next ≠ "--restart" := by
  unfold bumped
  split
  · decide
  · exact Itoa_ne_flag _

/-- The value written after a restart flag is the decimal text of an integer. -/
theorem bumped_isDecimalText (next : String) : IsDecimalText (bumped next) := by
  unfold bumped
  split
  · exact ⟨1, by decide⟩
  · exact ⟨_, rfl⟩

/-! ### The loop of `incrementRestartFlag` -/

/-- An iteration at an index that does not hold the restart flag changes nothing. -/
theorem restartStep_not_flag (res : List String) (hf : Bool) (k : Nat)
    (h : res.get? k ≠ some "--restart") : restartStep (res, hf) k = (res, hf) := by
  unfold restartStep
  cases hk : res.get? k with
  | none => simp [hk]
  | some v =>
    have hv : v ≠ "--restart" := by
      intro e
      exact h (by rw [hk, e])
    simp [hk, hv]

/-- An iteration at a restart flag that has a value after it rewrites that value. -/
theorem restartStep_flag (res : List String) (hf : Bool) (k : Nat) (next : String)
    (hk : res.get? k = some "--restart") (hn : res.get? (k + 1) = some next) :
    restartStep (res, hf) k = (res.set (k + 1) (bumped next), true) := by
  have hlt : k + 1 < res.length := by
    by_contra hge
    rw [List.get?_eq_none.2 (Nat.le_of_not_lt hge)] at hn
    exact Option.noConfusion hn
  have hge : ¬ k + 1 ≥ res.length := Nat.not_le.2 hlt
  unfold restartStep bumped
  simp only [hk, hn]
  cases Atoi next <;> simp [hge]

/-- An iteration at a restart flag that is the last element only notes the flag. -/
theorem restartStep_last (res : List String) (hf : Bool) (k : Nat)
    (hk : res.get? k = some "--restart") (hl : k + 1 ≥ res.length) :
    restartStep (res, hf) k = (res, true) := by
  unfold restartStep
  simp only [hk]
  simp [hl]

/-- The loop over the indices below `k + 1` is the loop below `k` followed by the iteration
at `k`. -/
theorem foldl_range_succ (f : List String × Bool → Nat → List String × Bool)
    (a : List String × Bool) (k : Nat) :
    (List.range (k + 1)).foldl f a = f ((List.range k).foldl f a) k := by
  rw [List.range_succ, List.foldl_append]
  rfl

/-- Without a restart flag the loop leaves the arguments and the variable `hasFlag` as they
were. -/
theorem restartLoop_no_flag (args : List String)
    (h : ∀ j, args.get? j ≠ some "--restart") (k : Nat) :
    (List.range k).foldl restartStep (args, false) = (args, false) := by
  induction k with
  | zero => rfl
  | succ k ih =>
    rw [foldl_range_succ, ih]
    exact restartStep_not_flag _ _ _ (h k)

/-- With one restart flag, at index `i` and followed by the value `next`, the loop changes
nothing up to `i` and rewrites the value at `i + 1` from then on. -/
theorem restartLoop_one_flag (args : List String) (i : Nat) (next : String)
    (hi : args.get? i = some "--restart")
    (huniq : ∀ j, j ≠ i → args.get? j ≠ some "--restart")
    (hn : args.get? (i + 1) = some next) (k : Nat) :
    (List.range k).foldl restartStep (args, false) =
      if k ≤ i then (args, false) else (args.set (i + 1) (bumped next), true) := by
  induction k with
  | zero => simp
  | succ k ih =>
    rw [foldl_range_succ, ih]
    by_cases hk : k ≤ i
    · rw [if_pos hk]
      by_cases hki : k = i
      · subst hki
        rw [if_neg (Nat.not_succ_le_self k)]
        exact restartStep_flag _ _ _ _ hi hn
      · have hlt : k + 1 ≤ i := Nat.lt_of_le_of_ne hk hki
        rw [if_pos hlt]
        exact restartStep_not_flag _ _ _ (huniq k hki)
    · rw [if_neg hk, if_neg (fun h => hk (Nat.le_of_succ_le h))]
      apply restartStep_not_flag
      by_cases hk1 : k = i + 1
      · subst hk1
        have hlt : i + 1 < args.length := by
          by_contra hge
          rw [List.get?_eq_none.2 (Nat.le_of_not_lt hge)] at hn
          exact Option.noConfusion hn
        rw [List.get?_eq_getElem?, List.getElem?_set_self hlt]
        intro e
        exact bumped_ne_flag next (Option.some.inj e)
      · rw [List.get?_eq_getElem?, List.getElem?_set_ne (fun e => hk1 e.symm),
          ← List.get?_eq_getElem?]
        exact huniq k (fun e => hk (Nat.le_of_eq e))

/-- With one restart flag followed by a value, `incrementRestartFlag` rewrites that value and
nothing else. -/
theorem incrementRestartFlag_one_flag (args : List String) (i : Nat) (next : String)
    (hi : args.get? i = some "--restart")
    (huniq : ∀ j, j ≠ i → args.get? j ≠ some "--restart")
    (hn : args.get? (i + 1) = some next) :
    incrementRestartFlag args = args.set (i + 1) (bumped next) := by
  have hlt : i + 1 < args.length := by
    by_contra hge
    rw [List.get?_eq_none.2 (Nat.le_of_not_lt hge)] at hn
    exact Option.noConfusion hn
  unfold incrementRestartFlag
  rw [restartLoop_one_flag args i next hi huniq hn args.length]
  have hnle : ¬ args.length ≤ i := by omega
  simp [hnle]

/-- The state of the loop of `incrementRestartFlag` after the indices below a bound `k` of
at most the length: with `hasFlag` unset nothing was written and no flag was met; with
`hasFlag` set either a flag followed by a decimal text stands in the slice, or the loop is
over and the only flag is the last element. -/
theorem restartLoop_invariant (args : List String) (k : Nat) (hk : k ≤ args.length) :
    ((List.range k).foldl restartStep (args, false)).1.length = args.length ∧
    (((List.range k).foldl restartStep (args, false)).2 = false →
      ((List.range k).foldl restartStep (args, false)).1 = args ∧
        ∀ j, j < k → args.get? j ≠ some "--restart") ∧
    (((List.range k).foldl restartStep (args, false)).2 = true →
      HasRestartCounter ((List.range k).foldl restartStep (args, false)).1 ∨
      (k = args.length ∧ ((List.range k).foldl restartStep (args, false)).1 = args ∧
        ∃ m, m + 1 = args.length ∧ args.get? m = some "--restart" ∧
          ∀ j, j < m → args.get? j ≠ some "--restart")) := by
  induction k with
  | zero =>
    refine ⟨rfl, fun _ => ⟨rfl, fun j hj => absurd hj (Nat.not_lt_zero j)⟩, fun h => ?_⟩
    exact absurd h (by simp)
  | succ k ih =>
    have hklt : k < args.length := hk
    obtain ⟨hlen, hfalse, htrue⟩ := ih (Nat.le_of_lt hklt)
    rw [foldl_range_succ]
    generalize (List.range k).foldl restartStep (args, false) = st at hlen hfalse htrue
    obtain ⟨res, hf⟩ := st
    simp only at hlen hfalse htrue
    have hkres : k < res.length := by rw [hlen]; exact hklt
    obtain ⟨v, hv⟩ : ∃ v, res.get? k = some v := ⟨res.get ⟨k, hkres⟩, List.get?_eq_get hkres⟩
    by_cases hflag : v = "--restart"
    · subst hflag
      by_cases hlast : k + 1 ≥ res.length
      · rw [restartStep_last res hf k hv hlast]
        refine ⟨hlen, fun h => absurd h (by simp), fun _ => ?_⟩
        cases hf with
        | true =>
          rcases htrue rfl with h | h
          · exact Or.inl h
          · exact absurd h.1 (Nat.ne_of_lt hklt)
        | false =>
          obtain ⟨hres, hno⟩ := hfalse rfl
          subst hres
          exact Or.inr ⟨by omega, rfl, k, by omega, hv, hno⟩
      · have hlt : k + 1 < res.length := Nat.not_le.1 hlast
        obtain ⟨next, hnext⟩ : ∃ next, res.get? (k + 1) = some next :=
          ⟨res.get ⟨k + 1, hlt⟩, List.get?_eq_get hlt⟩
        rw [restartStep_flag res hf k next hv hnext]
        refine ⟨by simpa using hlen, fun h => absurd h (by simp), fun _ => Or.inl ?_⟩
        refine ⟨k, ?_, bumped next, ?_, bumped_isDecimalText next⟩
        · rw [List.get?_eq_getElem?, List.getElem?_set_ne (Nat.succ_ne_self k),
            ← List.get?_eq_getElem?]
          exact hv
        · rw [List.get?_eq_getElem?, List.getElem?_set_self hlt]
    · have hne : res.get? k ≠ some "--restart" := by
        rw [hv]
        intro e
        exact hflag (Option.some.inj e)
      rw [restartStep_not_flag res hf k hne]
      refine ⟨hlen, fun h => ?_, fun h => ?_⟩
      · obtain ⟨hres, hno⟩ := hfalse h
        refine ⟨hres, fun j hj => ?_⟩
        rcases Nat.lt_succ_iff_lt_or_eq.1 hj with hj | hj
        · exact hno j hj
        · subst hj
          rw [← hres]
          exact hne
      · rcases htrue h with h | h
        · exact Or.inl h
        · exact absurd h.1 (Nat.ne_of_lt hklt)

/-- The values that `strconv.Atoi` returns are within the range of `int`. -/
theorem Atoi_range (s : String) (n : Int) (h : Atoi s = some n) :
    minInt ≤ n ∧ n ≤ maxInt := by
  unfold Atoi at h
  simp only [minInt, maxInt] at *
  split at h
  · exact Option.noConfusion h
  · split at h
    · exact Option.noConfusion h
    · split at h
      · exact Option.noConfusion h
      · split at h
        · exact Option.noConfusion h
        · have e := Option.some.inj h
          omega
  · split at h
    · exact Option.noConfusion h
    · split at h
      · exact Option.noConfusion h
      · split at h
        · exact Option.noConfusion h
        · have e := Option.some.inj h
          omega
  · split at h
    · exact Option.noConfusion h
    · split at h
      · exact Option.noConfusion h
      · have e := Option.some.inj h
        omega

/-- Below the greatest `int`, the addition of one does not wrap around. -/
theorem addInt_one (n : Int) (hmin : minInt ≤ n) (hmax : n < maxInt) : addInt n 1 = n + 1 := by
  simp only [minInt, maxInt, addInt] at *
  omega

/-- An element of a list at some index is a member of the list. -/
theorem getOpt_ne_of_not_mem (args : List String) (a : String) (h : a ∉ args) (j : Nat) :
    args.get? j ≠ some a := by
  intro e
  exact h (List.get?_mem e)

/-- The indices other than `i` keep their elements when the element at `i` is set. -/
theorem getOpt_set_other (args : List String) (i j : Nat) (a : String) (h : j ≠ i) :
    (args.set i a).get? j = args.get? j := by
  rw [List.get?_eq_getElem?, List.getElem?_set_ne (fun e => h e.symm), ← List.get?_eq_getElem?]

/-- The element at an index within the list is the one that was set there. -/
theorem getOpt_set_here (args : List String) (i : Nat) (a next : String)
    (h : args.get? i = some next) : (args.set i a).get? i = some a := by
  have hlt : i < args.length := by
    by_contra hge
    rw [List.get?_eq_none.2 (Nat.le_of_not_lt hge)] at h
    exact Option.noConfusion h
  rw [List.get?_eq_getElem?, List.getElem?_set_self hlt]

/-- C22, counterexample.  The arguments hold one restart flag, followed by the text of the
greatest `int`, which `strconv.Atoi` parses; the addition of one wraps around, and the value
written is the text of the least `int`, not the decimal text of the successor. -/
theorem incrementRestartFlag_wraps :
    Atoi "9223372036854775807" = some 9223372036854775807 ∧
    incrementRestartFlag ["./bridge", "--restart", "9223372036854775807"]
      = ["./bridge", "--restart", "-9223372036854775808"] ∧
    Itoa (9223372036854775807 + 1) = "9223372036854775808" ∧
    (incrementRestartFlag ["./bridge", "--restart", "9223372036854775807"]).get? 2
      ≠ some (Itoa (9223372036854775807 + 1)) := by
  decide

/-- C22, amended.  For every argument list with exactly one `"--restart"`, at index `i`,
followed by a value that `strconv.Atoi` parses as an integer `n` below the greatest `int`,
`incrementRestartFlag` returns the input with the value replaced by the decimal text of
`n + 1`: the length is the same, the positions other than `i + 1` hold what they held, and
the position `i + 1` holds the text of `n + 1`. -/
theorem incrementRestartFlag_increments (args : List String) (i : Nat) (next : String)
    (n : Int)
    (hi : args.get? i = some "--restart")
    (huniq : ∀ j, j ≠ i → args.get? j ≠ some "--restart")
    (hn : args.get? (i + 1) = some next)
    (hp : Atoi next = some n) (hmax : n < maxInt) :
    incrementRestartFlag args = args.set (i + 1) (Itoa (n + 1)) ∧
    (incrementRestartFlag args).length = args.length ∧
    (∀ j, j ≠ i + 1 → (incrementRestartFlag args).get? j = args.get? j) ∧
    (incrementRestartFlag args).get? (i + 1) = some (Itoa (n + 1)) := by
  have hb : bumped next = Itoa (n + 1) := by
    unfold bumped
    rw [hp]
    exact congrArg Itoa (addInt_one n (Atoi_range next n hp).1 hmax)
  have h := incrementRestartFlag_one_flag args i next hi huniq hn
  rw [hb] at h
  rw [h]
  exact ⟨rfl, List.length_set _ _ _, fun j hj => getOpt_set_other args (i + 1) j _ hj,
    getOpt_set_here args (i + 1) _ next hn⟩

/-- The run of C22: `./bridge --restart 2 --other 2` becomes
`./bridge --restart 3 --other 2`. -/
theorem incrementRestartFlag_increments_witness :
    incrementRestartFlag ["./bridge", "--restart", "2", "--other", "2"]
      = ["./bridge", "--restart", "3", "--other", "2"] := by
  have huniq : ∀ j, j ≠ 1 →
      ["./bridge", "--restart", "2", "--other", "2"].get? j ≠ some "--restart" := by
    intro j hj
    rcases j with _ | _ | _ | _ | _ | j
    · decide
    · exact absurd rfl hj
    · decide
    · decide
    · decide
    · simp
  exact (incrementRestartFlag_increments ["./bridge", "--restart", "2", "--other", "2"] 1 "2" 2
    (by decide) huniq (by decide) (by decide) (by decide)).1

/-- C23.  For every argument list without an element `"--restart"`, `incrementRestartFlag`
returns the input followed by the two elements `"--restart"` and `"1"`. -/
theorem incrementRestartFlag_adds_flag (args : List String) (h : "--restart" ∉ args) :
    incrementRestartFlag args = args ++ ["--restart", "1"] := by
  unfold incrementRestartFlag
  rw [restartLoop_no_flag args (getOpt_ne_of_not_mem args "--restart" h) args.length]
  rfl

/-- The run of C23: `./bridge --something` becomes `./bridge --something --restart 1`. -/
theorem incrementRestartFlag_adds_flag_witness :
    incrementRestartFlag ["./bridge", "--something"]
      = ["./bridge", "--something", "--restart", "1"] :=
  incrementRestartFlag_adds_flag ["./bridge", "--something"] (by decide)

/-- C24.  For every argument list with exactly one `"--restart"`, at index `i`, followed by
a value for which `strconv.Atoi` returns an error, `incrementRestartFlag` returns the input
with that value replaced by `"1"`: the length is the same and the positions other than
`i + 1` hold what they held. -/
theorem incrementRestartFlag_bad_value (args : List String) (i : Nat) (next : String)
    (hi : args.get? i = some "--restart")
    (huniq : ∀ j, j ≠ i → args.get? j ≠ some "--restart")
    (hn : args.get? (i + 1) = some next)
    (hp : Atoi next = none) :
    incrementRestartFlag args = args.set (i + 1) "1" ∧
    (incrementRestartFlag args).length = args.length ∧
    (∀ j, j ≠ i + 1 → (incrementRestartFlag args).get? j = args.get? j) ∧
    (incrementRestartFlag args).get? (i + 1) = some "1" := by
  have hb : bumped next = "1" := by
    unfold bumped
    rw [hp]
  have h := incrementRestartFlag_one_flag args i next hi huniq hn
  rw [hb] at h
  rw [h]
  exact ⟨rfl, List.length_set _ _ _, fun j hj => getOpt_set_other args (i + 1) j _ hj,
    getOpt_set_here args (i + 1) _ next hn⟩

/-- The run of C24: `./bridge --restart bad --other` becomes
`./bridge --restart 1 --other`. -/
theorem incrementRestartFlag_bad_value_witness :
    incrementRestartFlag ["./bridge", "--restart", "bad", "--other"]
      = ["./bridge", "--restart", "1", "--other"] := by
  have huniq : ∀ j, j ≠ 1 →
      ["./bridge", "--restart", "bad", "--other"].get? j ≠ some "--restart" := by
    intro j hj
    rcases j with _ | _ | _ | _ | j
    · decide
    · exact absurd rfl hj
    · decide
    · decide
    · simp
  exact (incrementRestartFlag_bad_value ["./bridge", "--restart", "bad", "--other"] 1 "bad"
    (by decide) huniq (by decide) (by decide)).1

/-- C30, counterexample.  When the only restart flag is the last argument, the guard
`k+1 >= len(res)` skips it, `hasFlag` is set so that nothing is appended, and the result is
the input: its restart flag has no element after it. -/
theorem incrementRestartFlag_trailing_flag :
    incrementRestartFlag ["./bridge", "--restart"] = ["./bridge", "--restart"] ∧
    ¬ HasRestartCounter (incrementRestartFlag ["./bridge", "--restart"]) := by
  have he : incrementRestartFlag ["./bridge", "--restart"] = ["./bridge", "--restart"] := by
    decide
  refine ⟨he, ?_⟩
  rw [he]
  rintro ⟨k, hk, v, hv, _⟩
  rcases k with _ | _ | k
  · exact absurd hk (by decide)
  · simp at hv
  · simp at hk

/-- C30, amended.  For every argument list, unless its only `"--restart"` is its last
element, the result of `incrementRestartFlag` holds an element `"--restart"` immediately
followed by the decimal text of an integer. -/
theorem incrementRestartFlag_has_counter (args : List String)
    (h : ∀ m, m + 1 = args.length → args.get? m = some "--restart" →
      ∃ j, j < m ∧ args.get? j = some "--restart") :
    HasRestartCounter (incrementRestartFlag args) := by
  obtain ⟨hlen, hfalse, htrue⟩ := restartLoop_invariant args args.length (Nat.le_refl _)
  unfold incrementRestartFlag
  generalize (List.range args.length).foldl restartStep (args, false) = st
    at hlen hfalse htrue
  obtain ⟨res, hf⟩ := st
  simp only at hlen hfalse htrue
  cases hf with
  | false =>
    obtain ⟨hres, _⟩ := hfalse rfl
    subst hres
    refine ⟨res.length, ?_, "1", ?_, 1, by decide⟩
    · show (res ++ ["--restart", "1"]).get? res.length = some "--restart"
      rw [List.get?_eq_getElem?, List.getElem?_append_right (Nat.le_refl _)]
      simp
    · show (res ++ ["--restart", "1"]).get? (res.length + 1) = some "1"
      rw [List.get?_eq_getElem?, List.getElem?_append_right (Nat.le_succ _)]
      simp
  | true =>
    rcases htrue rfl with hc | ⟨_, _, m, hm, hflag, hno⟩
    · simpa using hc
    · obtain ⟨j, hj, hjflag⟩ := h m hm hflag
      exact absurd hjflag (hno j hj)

/-- A run of the amended C30: two restart flags at the end; the second one is the value of
the first and is replaced by `"1"`. -/
theorem incrementRestartFlag_has_counter_witness :
    HasRestartCounter (incrementRestartFlag ["./bridge", "--restart", "--restart"]) :=
  incrementRestartFlag_has_counter ["./bridge", "--restart", "--restart"]
    (fun m hm _ => by
      have hm2 : m = 2 := by simpa using hm
      subst hm2
      exact ⟨1, by decide, by decide⟩)

end Base

namespace Versioner

/-! ### Removal of old versions -/

/-- The loop of `RemoveOldVersions` asks for the removal of each version, in order. -/
theorem removeVersions_calls (env : Env) (versions : List AppVersion) (s : State) :
    (versions.foldl (removeVersion env) s).removeAllCalls
      = s.removeAllCalls ++ versions.map AppVersion.path := by
  induction versions generalizing s with
  | nil => simp
  | cons v rest ih =>
    rw [List.foldl_cons, ih]
    unfold removeVersion RemoveAll
    cases env.removeAll s.removeAllCalls.length v.path <;> simp

/-- When every removal succeeds, the loop of `RemoveOldVersions` leaves the directories
other than those of the versions it went through, and logs nothing. -/
theorem removeVersions_dirs (env : Env) (hok : ∀ k path, env.removeAll k path = none)
    (versions : List AppVersion) (s : State) :
    (versions.foldl (removeVersion env) s).dirs
      = s.dirs.filter (fun d => d ∉ versions.map AppVersion.path) ∧
    (versions.foldl (removeVersion env) s).logged = s.logged := by
  induction versions generalizing s with
  | nil => simp
  | cons v rest ih =>
    rw [List.foldl_cons]
    have hdirs : (removeVersion env s v).dirs = s.dirs.filter (fun d => d ≠ v.path) := by
      unfold removeVersion RemoveAll
      rw [hok]
    have hlog : (removeVersion env s v).logged = s.logged := by
      unfold removeVersion RemoveAll
      rw [hok]
    obtain ⟨h1, h2⟩ := ih (removeVersion env s v)
    refine ⟨?_, h2.trans hlog⟩
    rw [h1, hdirs]
    simp only [List.filter_filter, List.map_cons, List.mem_cons, not_or]
    congr 1
    funext d
    simp only [ne_eq, Bool.decide_and, decide_not]
    exact Bool.and_comm _ _

/-- C25, counterexample.  The four versions of the test are installed and the removal of
`updates/2.3.5` fails: `RemoveOldVersions` logs the error and returns nil, and the directory
of the old version 2.3.5 remains next to the one of the latest version. -/
theorem RemoveOldVersions_failed_removal :
    (RemoveOldVersions lockedEnv testState).1 = none ∧
    (RemoveOldVersions lockedEnv testState).2.dirs = ["updates/2.4.0", "updates/2.3.5"] ∧
    (RemoveOldVersions lockedEnv testState).2.logged = ["permission denied"] := by
  decide

/-- C25, amended.  When `ListVersions` fails, `RemoveOldVersions` returns its error and does
nothing.  When it returns an empty list, `RemoveOldVersions` removes nothing and returns nil.
When it returns a non-empty list (newest first), `RemoveOldVersions` returns nil and calls
`os.RemoveAll` on the directory of every version except the first, in order, and on nothing
else; when moreover every removal succeeds, and the directories that exist are those of the
listed versions, pairwise distinct, exactly the directory of the latest version remains and
nothing is logged.  An error is returned only when `ListVersions` failed. -/
theorem RemoveOldVersions_spec (env : Env) (s : State) :
    (∀ err, env.listVersions = .error err → RemoveOldVersions env s = (some err, s)) ∧
    (env.listVersions = .ok [] → RemoveOldVersions env s = (none, s)) ∧
    (∀ latest olds, env.listVersions = .ok (latest :: olds) →
      (RemoveOldVersions env s).1 = none ∧
      (RemoveOldVersions env s).2.removeAllCalls
        = s.removeAllCalls ++ olds.map AppVersion.path ∧
      ((∀ k path, env.removeAll k path = none) →
        s.dirs = (latest :: olds).map AppVersion.path →
        ((latest :: olds).map AppVersion.path).Nodup →
        (RemoveOldVersions env s).2.dirs = [latest.path] ∧
        (RemoveOldVersions env s).2.logged = s.logged)) ∧
    (∀ err, (RemoveOldVersions env s).1 = some err → env.listVersions = .error err) := by
  refine ⟨fun err h => ?_, fun h => ?_, fun latest olds h => ?_, fun err h => ?_⟩
  · unfold RemoveOldVersions
    rw [h]
  · unfold RemoveOldVersions
    rw [h]
    rfl
  · have hrun : RemoveOldVersions env s = (none, olds.foldl (removeVersion env) s) := by
      unfold RemoveOldVersions
      rw [h]
      rfl
    rw [hrun]
    refine ⟨rfl, removeVersions_calls env olds s, fun hok hdirs hnodup => ?_⟩
    obtain ⟨h1, h2⟩ := removeVersions_dirs env hok olds s
    refine ⟨?_, h2⟩
    show (olds.foldl (removeVersion env) s).dirs = [latest.path]
    rw [h1, hdirs]
    have hn := List.nodup_cons.1 hnodup
    rw [List.map_cons, List.filter_cons_of_pos (by simpa using hn.1)]
    congr 1
    rw [List.filter_eq_nil_iff]
    intro d hd
    simpa using hd
  · unfold RemoveOldVersions at h
    split at h
    · rename_i e he
      have : e = err := Option.some.inj h
      rw [he, this]
    · split at h
      · exact Option.noConfusion h
      · exact Option.noConfusion h

/-- The run of the test: of the versions 2.3.4-beta, 2.3.4, 2.3.5 and 2.4.0, only the
directory of 2.4.0 remains. -/
theorem RemoveOldVersions_spec_witness :
    (RemoveOldVersions testEnv testState).1 = none ∧
    (RemoveOldVersions testEnv testState).2.removeAllCalls
      = ["updates/2.3.5", "updates/2.3.4", "updates/2.3.4-beta"] ∧
    (RemoveOldVersions testEnv testState).2.dirs = ["updates/2.4.0"] := by
  obtain ⟨h1, h2, h3⟩ := (RemoveOldVersions_spec testEnv testState).2.2.1
    ⟨"2.4.0", "updates/2.4.0"⟩
    [⟨"2.3.5", "updates/2.3.5"⟩, ⟨"2.3.4", "updates/2.3.4"⟩,
      ⟨"2.3.4-beta", "updates/2.3.4-beta"⟩] rfl
  exact ⟨h1, h2, (h3 (fun _ _ => rfl) rfl (by decide)).1⟩

end Versioner

namespace Logging

/-! ### Removal of old logs -/

/-- The loop of `removeOldLogs` hands each name to `removeLog`, in order, and asks
`os.RemoveAll` for the names that `matchLogName` accepts; it does not panic. -/
theorem removeLogs_calls (env : Env) (logDir : String) (names : List String) (s : State) :
    (names.foldl (removeLog env logDir) s).removeLogCalls = s.removeLogCalls ++ names ∧
    (names.foldl (removeLog env logDir) s).removeAllCalls
      = s.removeAllCalls ++ (names.filter env.matchLogName).map (env.join logDir) ∧
    (names.foldl (removeLog env logDir) s).panicked = s.panicked := by
  induction names generalizing s with
  | nil => simp
  | cons name rest ih =>
    rw [List.foldl_cons]
    obtain ⟨h1, h2, h3⟩ := ih (removeLog env logDir s name)
    rw [h1, h2, h3]
    unfold removeLog
    cases hm : env.matchLogName name with
    | false => simp [hm]
    | true =>
      cases hr : env.removeAll s.removeAllCalls.length (env.join logDir name) <;>
        simp [hm, hr]

/-- The names that `sort.Strings` returns are those it was given, in increasing order. -/
theorem sortStrings_spec (filenames : List String) :
    (sortStrings filenames).Perm filenames ∧
    (sortStrings filenames).Pairwise (fun a b => a ≤ b) := by
  haveI : IsTotal String (fun a b => a.toList ≤ b.toList) :=
    ⟨fun a b => le_total a.toList b.toList⟩
  haveI : IsTrans String (fun a b => a.toList ≤ b.toList) :=
    ⟨fun _ _ _ hab hbc => le_trans hab hbc⟩
  refine ⟨List.perm_insertionSort _ _, ?_⟩
  have hs : (sortStrings filenames).Pairwise (fun a b => a.toList ≤ b.toList) :=
    List.sorted_insertionSort _ _
  exact hs.imp (fun h => String.le_iff_toList_le.2 h)

/-- C26.  For every list of file names, whatever the capacity of the slice that holds it,
and every `maxLogs ≥ 0`: when the list has at most
`maxLogs` names, `removeOldLogs` does nothing; otherwise it hands to `removeLog`, in order,
the first `count - maxLogs` names of the sorted list and nothing else, and asks
`os.RemoveAll` for those of them that `matchLogName` accepts.  The names handed over and the
`maxLogs` names that are not make up the list, and each name handed over is at most each
name that is not: those handed over are the `count - maxLogs` least names, the `maxLogs`
greatest are kept. -/
theorem removeOldLogs_spec (env : Env) (s : State) (logDir : String)
    (filenames spare : List String) (maxLogs : Int) (h0 : 0 ≤ maxLogs) :
    ((filenames.length : Int) ≤ maxLogs →
      removeOldLogs env s logDir filenames spare maxLogs = s) ∧
    (maxLogs < (filenames.length : Int) →
      (removeOldLogs env s logDir filenames spare maxLogs).panicked = s.panicked ∧
      (removeOldLogs env s logDir filenames spare maxLogs).removeLogCalls
        = s.removeLogCalls
          ++ (sortStrings filenames).take (filenames.length - maxLogs.toNat) ∧
      (removeOldLogs env s logDir filenames spare maxLogs).removeAllCalls
        = s.removeAllCalls
          ++ (((sortStrings filenames).take (filenames.length - maxLogs.toNat)).filter
              env.matchLogName).map (env.join logDir) ∧
      ((sortStrings filenames).take (filenames.length - maxLogs.toNat)).length
        = filenames.length - maxLogs.toNat ∧
      ((sortStrings filenames).drop (filenames.length - maxLogs.toNat)).length
        = maxLogs.toNat ∧
      ((sortStrings filenames).take (filenames.length - maxLogs.toNat)
        ++ (sortStrings filenames).drop (filenames.length - maxLogs.toNat)).Perm filenames ∧
      ∀ p ∈ (sortStrings filenames).take (filenames.length - maxLogs.toNat),
        ∀ q ∈ (sortStrings filenames).drop (filenames.length - maxLogs.toNat), p ≤ q) := by
  obtain ⟨hperm, hsorted⟩ := sortStrings_spec filenames
  have hlen : (sortStrings filenames).length = filenames.length := hperm.length_eq
  refine ⟨fun hle => ?_, fun hlt => ?_⟩
  · unfold removeOldLogs
    simp only [if_pos hle]
  · have hn : ((filenames.length : Int) - maxLogs).toNat
        = filenames.length - maxLogs.toNat := by omega
    have hrun : removeOldLogs env s logDir filenames spare maxLogs
        = ((sortStrings filenames).take (filenames.length - maxLogs.toNat)).foldl
            (removeLog env logDir) s := by
      unfold removeOldLogs
      have h1 : ¬ (filenames.length : Int) ≤ maxLogs := by omega
      have h2 : ¬ ((filenames.length : Int) - maxLogs < 0
          ∨ (filenames.length : Int) - maxLogs > filenames.length + spare.length) := by omega
      have h3 : filenames.length - maxLogs.toNat ≤ (sortStrings filenames).length := by
        rw [hlen]
        omega
      simp only [if_neg h1, if_neg h2, hn, List.take_append_of_le_length h3]
    obtain ⟨c1, c2, c3⟩ := removeLogs_calls env logDir
      ((sortStrings filenames).take (filenames.length - maxLogs.toNat)) s
    rw [hrun]
    refine ⟨c3, c1, c2, ?_, ?_, ?_, ?_⟩
    · rw [List.length_take, hlen]
      omega
    · rw [List.length_drop, hlen]
      omega
    · rw [List.take_append_drop]
      exact hperm
    · have hpw := hsorted
      rw [← List.take_append_drop (filenames.length - maxLogs.toNat) (sortStrings filenames),
        List.pairwise_append] at hpw
      exact hpw.2.2

/-- A run of C26: of four logs with two to keep, the two oldest are handed to `removeLog`
and removed, in the order of their timestamps. -/
theorem removeOldLogs_spec_witness :
    (removeOldLogs sampleEnv State.init "logs" fourLogs [] 2).removeLogCalls
      = ["v2_20210101.log", "v2_20210102.log"] ∧
    (removeOldLogs sampleEnv State.init "logs" fourLogs [] 2).removeAllCalls
      = ["logs/v2_20210101.log", "logs/v2_20210102.log"] ∧
    removeOldLogs sampleEnv State.init "logs" fourLogs [] 4 = State.init := by
  have h := removeOldLogs_spec sampleEnv State.init "logs" fourLogs [] 2 (by decide)
  have h4 := removeOldLogs_spec sampleEnv State.init "logs" fourLogs [] 4 (by decide)
  obtain ⟨_, c1, c2, _⟩ := h.2 (by decide)
  refine ⟨c1.trans (by decide), c2.trans (by decide), h4.1 (by decide)⟩

end Logging
